import Mathlib

/-!
# OpenStackDataPlaneNodeSet controller

A shallow embedding of `controllers/openstackdataplanenodeset_controller.go` and
`api/v1beta1/openstackdataplanenodeset_types.go`: the node-set status, the condition
ledger, the deployment aggregation `checkDeployment`, the drift hash and the reconcile
pass, followed by the properties proved about them.

Conventions of the embedding:
* a `metav1.Time` is a natural number of seconds, `0` being the zero time;
* a Go map keyed by strings that is only read, written and merged is a lookup function;
* a Go slice is a list;
* the clock and every call that leaves the process (API reads, collaborators of
  `pkg/deployment`, the status patch) are inputs of the pass.
-/

namespace Dataplane

set_option linter.unusedVariables false

/-! ## Basic types -/

/-- Instant of a `metav1.Time`, in seconds; `0` is the zero time. -/
abbrev Time := Nat

/-- The method `IsZero` of a `*metav1.Time`: a nil pointer and the zero instant are zero. -/
def Time.IsZero : Option Time → Bool
  | none => true
  | some t => t == 0

/-- A Go `map[string]α`, read through its lookup. A nil map and an empty map read alike;
`Reconcile` allocates `ConfigMapHashes` and `SecretHashes` before anything writes to them. -/
structure GoMap (α : Type) where
  get : String → Option α

namespace GoMap

variable {α : Type}

/-- The map without entries. -/
def empty : GoMap α := ⟨fun _ => none⟩

/-- The assignment `m[k] = v`. -/
def set (m : GoMap α) (k : String) (v : α) : GoMap α :=
  ⟨fun k' => if k' = k then some v else m.get k'⟩

/-- The loop `for k, v := range src { dst[k] = v }`: every entry of `src` is written
into `dst`, the other entries of `dst` stay. -/
def mergeFrom (dst src : GoMap α) : GoMap α :=
  ⟨fun k => match src.get k with
    | some v => some v
    | none => dst.get k⟩

/-- The read `m[k]` of a `map[string]string`: the empty string when the key is absent. -/
def index (m : GoMap String) (k : String) : String :=
  (m.get k).getD ""

end GoMap

/-! ## Condition ledger (package `condition` of lib-common) -/

/-- The condition types the controller names. The constants are declared outside the
two source files; they are kept apart by name, any other type is `Other`. -/
inductive ConditionType where
  | ReadyCondition
  | DeploymentReadyCondition
  | InputReadyCondition
  | ServiceAccountReadyCondition
  | SetupReadyCondition
  | NodeSetIPReservationReadyCondition
  | NodeSetDNSDataReadyCondition
  | NodeSetBareMetalProvisionReadyCondition
  | Other (name : String)
  deriving DecidableEq, Repr

/-- Status of a condition (`corev1.ConditionStatus`). -/
inductive ConditionStatus where
  | ConditionTrue
  | ConditionFalse
  | ConditionUnknown
  deriving DecidableEq, Repr

/-- Severity of a condition; `SeverityNone` is the empty severity of a condition that is
not False. -/
inductive Severity where
  | SeverityError
  | SeverityWarning
  | SeverityInfo
  | SeverityNone
  deriving DecidableEq, Repr

/-- Message of a condition, kept symbolic: the format constant the source names (or the
literal text) and the arguments given to it. -/
structure Message where
  format : String
  args : List String
  deriving DecidableEq, Repr

/-- Reason `condition.InitReason`. -/
def InitReason : String := "Init"
/-- Reason `condition.ErrorReason`. -/
def ErrorReason : String := "Error"
/-- Reason `condition.RequestedReason`. -/
def RequestedReason : String := "Requested"
/-- Reason `condition.NotRequestedReason`. -/
def NotRequestedReason : String := "NotRequested"
/-- Reason `condition.ReadyReason`, the reason of every True condition. -/
def ReadyReason : String := "Ready"

/-- One condition: (type, status, severity, last-transition-time, reason, message). -/
structure Condition where
  Type_ : ConditionType
  Status : ConditionStatus
  Severity : Severity
  LastTransitionTime : Time
  Reason : String
  Message : Message
  deriving DecidableEq, Repr

/-- The type `condition.Conditions`: a slice of conditions. -/
abbrev Conditions := List Condition

open ConditionType ConditionStatus Severity

/-- Modelled from the spec: `condition.UnknownCondition` is not in the source files; an
Unknown condition of the given type, reason and message, with no transition time yet. -/
def UnknownCondition (t : ConditionType) (reason : String) (message : Message) : Condition :=
  { Type_ := t, Status := ConditionUnknown, Severity := SeverityNone,
    LastTransitionTime := 0, Reason := reason, Message := message }

/-- Modelled from the spec: `condition.TrueCondition` is not in the source files; a True
condition of the given type and message. -/
def TrueCondition (t : ConditionType) (message : Message) : Condition :=
  { Type_ := t, Status := ConditionTrue, Severity := SeverityNone,
    LastTransitionTime := 0, Reason := ReadyReason, Message := message }

/-- Modelled from the spec: `condition.FalseCondition` is not in the source files; a False
condition of the given type, reason, severity and message. -/
def FalseCondition (t : ConditionType) (reason : String) (severity : Severity)
    (message : Message) : Condition :=
  { Type_ := t, Status := ConditionFalse, Severity := severity,
    LastTransitionTime := 0, Reason := reason, Message := message }

namespace Conditions

/-- Modelled from the spec: `Conditions.Get` is not in the source files; the first
condition of type `t`, if any (the ledger is "keyed by type"). -/
def Get (cs : Conditions) (t : ConditionType) : Option Condition :=
  cs.find? (fun c => decide (c.Type_ = t))

/-- Overwrites the first condition that has the type of `c`: status, severity, reason and
message are taken from `c`; the transition time becomes `now` only if the status differs. -/
def setExisting (now : Time) (c : Condition) : Conditions → Conditions
  | [] => []
  | e :: rest =>
    if e.Type_ = c.Type_ then
      (if e.Status = c.Status then { c with LastTransitionTime := e.LastTransitionTime }
       else { c with LastTransitionTime := now }) :: rest
    else e :: setExisting now c rest

/-- Modelled from the spec: `Conditions.Set` is not in the source files. "Sets status,
reason, message; updates last-transition-time only if status differs from current value";
a condition of a type not yet present is appended, stamped with the clock when it carries
no time. -/
def Set (now : Time) (cs : Conditions) (c : Condition) : Conditions :=
  match Get cs c.Type_ with
  | some _ => setExisting now c cs
  | none =>
    cs ++ [{ c with LastTransitionTime :=
              if c.LastTransitionTime = 0 then now else c.LastTransitionTime }]

/-- Modelled from the spec: `Conditions.Init` is not in the source files; the ledger gets
the overall Ready condition, Unknown with reason Init, and then every condition of `cl`. -/
def Init (now : Time) (cs : Conditions) (cl : Conditions) : Conditions :=
  cl.foldl (Set now)
    (Set now cs (UnknownCondition ReadyCondition InitReason ⟨"condition.ReadyInitMessage", []⟩))

/-- Modelled from the spec: `Conditions.MarkTrue` is not in the source files. -/
def MarkTrue (now : Time) (cs : Conditions) (t : ConditionType) (message : Message) :
    Conditions :=
  Set now cs (TrueCondition t message)

/-- Modelled from the spec: `Conditions.MarkFalse` is not in the source files. -/
def MarkFalse (now : Time) (cs : Conditions) (t : ConditionType) (reason : String)
    (severity : Severity) (message : Message) : Conditions :=
  Set now cs (FalseCondition t reason severity message)

/-- Modelled from the spec: `Conditions.MarkUnknown` is not in the source files. -/
def MarkUnknown (now : Time) (cs : Conditions) (t : ConditionType) (reason : String)
    (message : Message) : Conditions :=
  Set now cs (UnknownCondition t reason message)

/-- Modelled from the spec: `Conditions.IsTrue` is not in the source files; the condition
of type `t` is present and True. -/
def IsTrue (cs : Conditions) (t : ConditionType) : Bool :=
  match Get cs t with
  | some c => decide (c.Status = ConditionTrue)
  | none => false

/-- Modelled from the spec: `Conditions.IsUnknown` is not in the source files; the
condition of type `t` is Unknown, an absent condition counting as Unknown. -/
def IsUnknown (cs : Conditions) (t : ConditionType) : Bool :=
  match Get cs t with
  | some c => decide (c.Status = ConditionUnknown)
  | none => true

/-- Modelled from the spec: `Conditions.AllSubConditionIsTrue` is not in the source files;
"every non-Ready condition is True". -/
def AllSubConditionIsTrue (cs : Conditions) : Bool :=
  cs.all (fun c => decide (c.Type_ = ReadyCondition) || decide (c.Status = ConditionTrue))

/-- The first condition other than Ready that has the given status and, when one is
given, the given severity. -/
def firstOf (cs : Conditions) (st : ConditionStatus) (sev : Option Severity) :
    Option Condition :=
  cs.find? (fun c => !decide (c.Type_ = ReadyCondition) && decide (c.Status = st) &&
    (match sev with
     | some s => decide (c.Severity = s)
     | none => true))

/-- The most informative condition other than Ready: a False one before an Unknown one,
among the False ones Error before Warning before Info before none, and a True one when
nothing else is there. -/
def mostInformative (cs : Conditions) : Option Condition :=
  (firstOf cs ConditionFalse (some SeverityError)).orElse fun _ =>
  (firstOf cs ConditionFalse (some SeverityWarning)).orElse fun _ =>
  (firstOf cs ConditionFalse (some SeverityInfo)).orElse fun _ =>
  (firstOf cs ConditionFalse (some SeverityNone)).orElse fun _ =>
  (firstOf cs ConditionUnknown none).orElse fun _ =>
  firstOf cs ConditionTrue none

/-- Modelled from the spec: `Conditions.Mirror` is not in the source files. The result has
type `t` and mirrors "the state (status/reason/severity) of whichever non-Ready condition
is most informative (first non-True found)". With no non-Ready condition there is nothing
to mirror and the result is nil. -/
def Mirror (cs : Conditions) (t : ConditionType) : Option Condition :=
  match mostInformative cs with
  | none => none
  | some c =>
    some { Type_ := t, Status := c.Status, Severity := c.Severity,
           LastTransitionTime := 0, Reason := c.Reason, Message := c.Message }

end Conditions

/-- The body of the loop of `RestoreLastTransitionTimes` for one condition: when the saved
ledger holds a condition of the same type with the same status, its time is copied. -/
def restoreOne (savedConditions : Conditions) (cond : Condition) : Condition :=
  match Conditions.Get savedConditions cond.Type_ with
  | some savedCond =>
    if savedCond.Status = cond.Status then
      { cond with LastTransitionTime := savedCond.LastTransitionTime }
    else cond
  | none => cond

/-- Modelled from the spec: `condition.RestoreLastTransitionTimes` is not in the source
files; "for every condition type present in both sets with identical status, copy the
previous last-transition-time into current". -/
def RestoreLastTransitionTimes (conditions savedConditions : Conditions) : Conditions :=
  conditions.map (restoreOne savedConditions)

/-- Modelled from the spec: `condition.IsError` is not in the source files; a condition
"is an error" when it is False with severity Error; a missing condition is not. -/
def IsError : Option Condition → Bool
  | some c => decide (c.Status = ConditionFalse) && decide (c.Severity = SeverityError)
  | none => false

/-! ## The node set and the sibling deployment -/

/-- One entry of `AnsibleVarsFrom`: `ConfigMapRef` and `SecretRef` are pointers in the
source, nil being `none`; a reference is read through its `Name`. -/
structure AnsibleVarsFromSource where
  ConfigMapRef : Option String
  SecretRef : Option String
  deriving DecidableEq, Repr

/-- The `Ansible` section of a node template or node; the controller reads
`AnsibleVarsFrom`. -/
structure AnsibleOpts where
  AnsibleVarsFrom : List AnsibleVarsFromSource
  deriving DecidableEq, Repr

/-- The shared node template; the fields are those the controller reads. -/
structure NodeTemplate where
  AnsibleSSHPrivateKeySecret : String
  Ansible : AnsibleOpts
  ExtraMounts : List String
  deriving DecidableEq, Repr

/-- The per-node overrides; the field is the one the controller reads. -/
structure NodeSection where
  Ansible : AnsibleOpts
  deriving DecidableEq, Repr

/-- The bare-metal template; `BaremetalHosts` is a map of which only the size is read,
here the list of its keys. -/
structure OpenStackBaremetalSetSpec where
  BaremetalHosts : List String
  deriving DecidableEq, Repr

/-- The struct `OpenStackDataPlaneNodeSetSpec`. `Nodes` is a map that is ranged over: the
list of its entries, in the order of the iteration. `Env` holds (name, value) pairs. -/
structure OpenStackDataPlaneNodeSetSpec where
  BaremetalSetTemplate : OpenStackBaremetalSetSpec
  NodeTemplate : NodeTemplate
  Nodes : List (String × NodeSection)
  SecretMaxSize : Int
  PreProvisioned : Bool
  Env : List (String × String)
  NetworkAttachments : List String
  Services : List String
  TLSEnabled : Bool
  Tags : List String
  deriving DecidableEq, Repr

/-- The struct `OpenStackDataPlaneNodeSetStatus`, with the `ObservedGeneration` that
`Reconcile` assigns. The DNS results are kept as the values the DNS collaborator returned. -/
structure OpenStackDataPlaneNodeSetStatus where
  Conditions : Conditions
  ObservedGeneration : Int
  Deployed : Bool
  DeploymentStatuses : GoMap Dataplane.Conditions
  DNSClusterAddresses : List String
  CtlplaneSearchDomain : String
  AllHostnames : GoMap (GoMap String)
  AllIPs : GoMap (GoMap String)
  ConfigMapHashes : GoMap String
  SecretHashes : GoMap String
  ConfigHash : String
  DeployedConfigHash : String

/-- The resource `OpenStackDataPlaneNodeSet`: the metadata the controller reads, the spec
and the status. -/
structure OpenStackDataPlaneNodeSet where
  Name : String
  Namespace : String
  Generation : Int
  DeletionTimestamp : Option Time
  Spec : OpenStackDataPlaneNodeSetSpec
  Status : OpenStackDataPlaneNodeSetStatus

/-- The spec of a sibling deployment: the node sets it targets. -/
structure OpenStackDataPlaneDeploymentSpec where
  NodeSets : List String

/-- The status of a sibling deployment, as far as `checkDeployment` reads it. -/
structure OpenStackDataPlaneDeploymentStatus where
  Conditions : Conditions
  Deployed : Bool
  ConfigMapHashes : GoMap String
  SecretHashes : GoMap String
  NodeSetHashes : GoMap String
  NodeSetConditions : GoMap Dataplane.Conditions

/-- The resource `OpenStackDataPlaneDeployment` (declared outside the two source files;
the fields are those `checkDeployment` and `deploymentWatcherFn` read). -/
structure OpenStackDataPlaneDeployment where
  Name : String
  Namespace : String
  DeletionTimestamp : Option Time
  Spec : OpenStackDataPlaneDeploymentSpec
  Status : OpenStackDataPlaneDeploymentStatus

/-! ## Sorting (`slices.SortFunc` of golang.org/x/exp) -/

section Sorting

variable {α : Type}

/-- The inner loop of `insertionSortCmpFunc`,
`for j := i; j > a && cmp(data[j], data[j-1]) < 0; j-- { swap }`: the element `x` at index
`j` moves left while `cmp x data[j-1] < 0`. The argument is the part of the slice left of
`x`, nearest element first; the result is that part with `x` in place, rightmost element
first. -/
def sinkLeft (cmp : α → α → Int) (x : α) : List α → List α
  | [] => [x]
  | y :: ys => if cmp x y < 0 then y :: sinkLeft cmp x ys else x :: y :: ys

/-- The function `insertionSortCmpFunc` of the library on the whole slice: for
`i = 1 .. n-1` the element at `i` is sunk into the part left of it. -/
def insertionSortCmpFunc (cmp : α → α → Int) (data : List α) : List α :=
  (data.foldl (fun sortedRev x => sinkLeft cmp x sortedRev) []).reverse

/-- The function `slices.SortFunc`. The library sorts a slice of at most 12 elements
(`maxInsertion`) by insertion sort; for a longer slice it runs its pattern-defeating
quicksort, which stands outside this development and is the parameter `pdq`. -/
def SortFunc (pdq : (α → α → Int) → List α → List α) (x : List α) (cmp : α → α → Int) :
    List α :=
  if x.length ≤ 12 then insertionSortCmpFunc cmp x else pdq cmp x

end Sorting

/-! ## The deployment aggregation `checkDeployment` -/

/-- The type of the quicksort branch of `slices.SortFunc` on deployments. -/
abbrev Pdq := (OpenStackDataPlaneDeployment → OpenStackDataPlaneDeployment → Int) →
  List OpenStackDataPlaneDeployment → List OpenStackDataPlaneDeployment

/-- The comparison function given to `slices.SortFunc` in `checkDeployment`: `-1` when
both deployments carry a DeploymentReady condition and the one of `a` changed strictly
before the one of `b`, and `1` in every other case. -/
def deploymentCmp (a b : OpenStackDataPlaneDeployment) : Int :=
  match Conditions.Get a.Status.Conditions DeploymentReadyCondition,
        Conditions.Get b.Status.Conditions DeploymentReadyCondition with
  | some aReady, some bReady =>
    if aReady.LastTransitionTime < bReady.LastTransitionTime then -1 else 1
  | _, _ => 1

/-- The variables of the loop of `checkDeployment`: the two flags, the error and the
status of the node set, which the loop writes to. -/
structure CheckState where
  deploymentExists : Bool
  isDeploymentReady : Bool
  err : Option String
  Status : OpenStackDataPlaneNodeSetStatus

/-- The branch `if deployment.Status.Deployed` of the loop body: the deployment's hashes
are written into the status of the node set. -/
def mergeDeployed (name : String) (deployment : OpenStackDataPlaneDeployment)
    (st : OpenStackDataPlaneNodeSetStatus) : OpenStackDataPlaneNodeSetStatus :=
  { st with
    ConfigMapHashes := st.ConfigMapHashes.mergeFrom deployment.Status.ConfigMapHashes
    SecretHashes := st.SecretHashes.mergeFrom deployment.Status.SecretHashes
    DeployedConfigHash := deployment.Status.NodeSetHashes.index name }

/-- The value read by `deployment.Status.NodeSetConditions[instance.Name]`: the nil slice
when the key is absent. -/
def nodeSetConditionsOf (name : String) (deployment : OpenStackDataPlaneDeployment) :
    Conditions :=
  (deployment.Status.NodeSetConditions.get name).getD []

/-- One iteration of the loop of `checkDeployment` for the node set called `name`. -/
def checkDeploymentStep (name : String) (st : CheckState)
    (deployment : OpenStackDataPlaneDeployment) : CheckState :=
  if !Time.IsZero deployment.DeletionTimestamp then st
  else if deployment.Spec.NodeSets.contains name then
    let status1 :=
      if deployment.Status.Deployed then mergeDeployed name deployment st.Status
      else st.Status
    let status2 :=
      { status1 with
        DeploymentStatuses :=
          status1.DeploymentStatuses.set deployment.Name (nodeSetConditionsOf name deployment) }
    { deploymentExists := true
      isDeploymentReady := deployment.Status.Deployed
      err :=
        if IsError (Conditions.Get deployment.Status.Conditions ReadyCondition) then
          some "check deploymentStatuses for more details"
        else st.err
      Status := status2 }
  else st

/-- The function `checkDeployment`. `listed` is what the `List` call of the client
returned for the namespace of the node set: an error, or the deployments. -/
def checkDeployment (pdq : Pdq)
    (listed : Except String (List OpenStackDataPlaneDeployment))
    (inst : OpenStackDataPlaneNodeSet) : CheckState :=
  match listed with
  | .error e =>
    { deploymentExists := false, isDeploymentReady := false, err := some e,
      Status := inst.Status }
  | .ok items =>
    (SortFunc pdq items deploymentCmp).foldl (checkDeploymentStep inst.Name)
      { deploymentExists := false, isDeploymentReady := false, err := none,
        Status := inst.Status }

/-- A deployment that the loop of `checkDeployment` does not skip for the node set `name`:
it carries no deletion marker and its `Spec.NodeSets` contains `name`. -/
def targets (name : String) (d : OpenStackDataPlaneDeployment) : Bool :=
  Time.IsZero d.DeletionTimestamp && d.Spec.NodeSets.contains name

/-! ## The drift hash -/

/-- The function `GetSpecConfigHash`. `ObjectHash` is `util.ObjectHash` of lib-common, a
function of the value handed to it that can fail; the value handed to it is
`&instance.Spec`, the whole spec. -/
def GetSpecConfigHash (ObjectHash : OpenStackDataPlaneNodeSetSpec → Except String String)
    (inst : OpenStackDataPlaneNodeSet) : Except String String :=
  match ObjectHash inst.Spec with
  | .error err => .error err
  | .ok configHash => .ok configHash

/-! ## Condition initialisation -/

/-- The conditions `InitConditions` hands to `Conditions.Init`: the six Unknown conditions
of `condition.CreateList`, and the bare-metal one when the template lists a host. -/
def initialConditionList (inst : OpenStackDataPlaneNodeSet) : Conditions :=
  let cl :=
    [ UnknownCondition DeploymentReadyCondition InitReason ⟨InitReason, []⟩,
      UnknownCondition InputReadyCondition InitReason ⟨InitReason, []⟩,
      UnknownCondition SetupReadyCondition InitReason ⟨InitReason, []⟩,
      UnknownCondition NodeSetIPReservationReadyCondition InitReason ⟨InitReason, []⟩,
      UnknownCondition NodeSetDNSDataReadyCondition InitReason ⟨InitReason, []⟩,
      UnknownCondition ServiceAccountReadyCondition InitReason ⟨InitReason, []⟩ ]
  if inst.Spec.BaremetalSetTemplate.BaremetalHosts.length > 0 then
    cl ++ [UnknownCondition NodeSetBareMetalProvisionReadyCondition InitReason ⟨InitReason, []⟩]
  else cl

/-- The method `InitConditions`: the ledger is emptied and initialised, the
deployment statuses are emptied and `Deployed` is set to false. `now` is the clock. -/
def InitConditions (now : Time) (inst : OpenStackDataPlaneNodeSet) :
    OpenStackDataPlaneNodeSet :=
  { inst with
    Status :=
      { inst.Status with
        Conditions := Conditions.Init now [] (initialConditionList inst)
        DeploymentStatuses := GoMap.empty
        Deployed := false } }

/-- The method `IsReady` of the node set. -/
def IsReady (inst : OpenStackDataPlaneNodeSet) : Bool :=
  Conditions.IsTrue inst.Status.Conditions ReadyCondition

/-! ## The reconcile pass -/

/-- The type `ctrl.Result`. -/
structure Result where
  Requeue : Bool
  RequeueAfter : Nat
  deriving DecidableEq, Repr

/-- The value `ctrl.Result{}`. -/
def Result.none : Result := ⟨false, 0⟩

/-- What a collaborator of `pkg/deployment` wrote into the condition of its stage. -/
structure StageMark where
  Status : ConditionStatus
  Severity : Severity
  Reason : String
  Message : Message
  deriving DecidableEq, Repr

/-- The ledger after a collaborator reported on the condition `t` of its stage. -/
def applyMark (now : Time) (cs : Conditions) (t : ConditionType) :
    Option StageMark → Conditions
  | none => cs
  | some m =>
    Conditions.Set now cs
      { Type_ := t, Status := m.Status, Severity := m.Severity, LastTransitionTime := 0,
        Reason := m.Reason, Message := m.Message }

/-- The struct `deployment.DataplaneDNSData` as far as `Reconcile` reads it. -/
structure DataplaneDNSData where
  ClusterAddresses : List String
  CtlplaneSearchDomain : String
  Hostnames : GoMap (GoMap String)
  AllIPs : GoMap (GoMap String)
  ServerAddresses : List String

/-- What `r.Client.Get` returned for the request. -/
inductive GetOutcome where
  | notFound
  | failed (err : String)
  | found (inst : OpenStackDataPlaneNodeSet)

/-- Modelled from the spec: the collaborators of `pkg/deployment` and of lib-common are
not in the source files. One pass sees the clock and, for every call that leaves
`Reconcile`, what the call returned; a stage of `pkg/deployment` also reports the state
it wrote into "the corresponding condition" of the node set, and writes nothing else
into the status. -/
structure Collaborators where
  now : Time
  ObjectHash : OpenStackDataPlaneNodeSetSpec → Except String String
  EnsureServices : Option String
  EnsureIPSetsMark : Option StageMark
  EnsureIPSetsReady : Bool
  EnsureIPSetsErr : Option String
  EnsureDNSDataMark : Option StageMark
  EnsureDNSData : DataplaneDNSData
  EnsureDNSDataErr : Option String
  VerifySecretResult : Result
  VerifySecretErr : Option String
  ServiceAccountResult : Result
  ServiceAccountErr : Option String
  RoleBindingResult : Result
  RoleBindingErr : Option String
  DeployBaremetalSetMark : Option StageMark
  DeployBaremetalSetReady : Bool
  DeployBaremetalSetErr : Option String
  GenerateNodeSetInventory : Option String
  ListDeployments : Except String (List OpenStackDataPlaneDeployment)
  pdq : Pdq
  PatchInstance : Option String

/-- The calls of a pass that leave `Reconcile`, with the arguments the properties read. -/
inductive Call where
  | EnsureServices
  | EnsureIPSets
  | EnsureDNSData
  | VerifySecret (namespace_ name : String) (secretKeys : List String) (timeoutSeconds : Nat)
  | ServiceAccountCreateOrPatch
  | RoleBindingCreateOrPatch
  | DeployBaremetalSet
  | GenerateNodeSetInventory
  | checkDeployment
  | PatchInstance
  deriving DecidableEq, Repr

/-- The end of a pass: the returned result and error, the node set as it is then, and the
calls made, oldest first. -/
structure PassEnd where
  result : Result
  err : Option String
  inst : OpenStackDataPlaneNodeSet
  calls : List Call

/-- The node set with its ledger replaced. -/
def withConditions (inst : OpenStackDataPlaneNodeSet) (cs : Conditions) :
    OpenStackDataPlaneNodeSet :=
  { inst with Status := { inst.Status with Conditions := cs } }

/-- The node set with its status replaced. -/
def withStatus (inst : OpenStackDataPlaneNodeSet) (status : OpenStackDataPlaneNodeSetStatus) :
    OpenStackDataPlaneNodeSet :=
  { inst with Status := status }

/-- The assignments of the DNS results to the status:
`DNSClusterAddresses`, `CtlplaneSearchDomain`, `AllHostnames` and `AllIPs`. -/
def withDNSData (inst : OpenStackDataPlaneNodeSet) (dnsData : DataplaneDNSData) :
    OpenStackDataPlaneNodeSet :=
  { inst with
    Status :=
      { inst.Status with
        DNSClusterAddresses := dnsData.ClusterAddresses
        CtlplaneSearchDomain := dnsData.CtlplaneSearchDomain
        AllHostnames := dnsData.Hostnames
        AllIPs := dnsData.AllIPs } }

/-- The assignment `instance.Status.ConfigHash = configHash`. -/
def withConfigHash (inst : OpenStackDataPlaneNodeSet) (configHash : String) :
    OpenStackDataPlaneNodeSet :=
  { inst with Status := { inst.Status with ConfigHash := configHash } }

/-- The constant `AnsibleSSHPrivateKey`. -/
def AnsibleSSHPrivateKey : String := "ssh-privatekey"
/-- The constant `AnsibleSSHAuthorizedKeys`. -/
def AnsibleSSHAuthorizedKeys : String := "authorized_keys"

/-- The two marks of `Reconcile` after the inventory is generated: SetupReady is marked
True ("all setup tasks complete") and a DeploymentReady that is Unknown is marked False
("the NodeSet is created, but not yet deployed"). -/
def markSetupComplete (now : Time) (cs : Conditions) : Conditions :=
  let conds1 := Conditions.MarkTrue now cs SetupReadyCondition ⟨"condition.ReadyMessage", []⟩
  if Conditions.IsUnknown conds1 DeploymentReadyCondition then
    Conditions.MarkFalse now conds1 DeploymentReadyCondition NotRequestedReason SeverityInfo
      ⟨"condition.DeploymentReadyInitMessage", []⟩
  else conds1

/-- The end of `Reconcile`, from "all setup tasks complete" on: after the two marks,
`checkDeployment` runs on the node set and DeploymentReady is marked from what it
returned. -/
def stageDeployment (c : Collaborators) (inst : OpenStackDataPlaneNodeSet)
    (calls : List Call) : PassEnd :=
  let conds2 := markSetupComplete c.now inst.Status.Conditions
  let chk := checkDeployment c.pdq c.ListDeployments (withConditions inst conds2)
  let inst1 := withStatus inst chk.Status
  let calls1 := calls ++ [Call.checkDeployment]
  match chk.err with
  | some err =>
    { result := Result.none, err := some err, calls := calls1,
      inst := withConditions inst1
        (Conditions.MarkFalse c.now inst1.Status.Conditions DeploymentReadyCondition ErrorReason
          SeverityError ⟨"condition.DeploymentReadyErrorMessage", [err]⟩) }
  | none =>
    if chk.isDeploymentReady then
      { result := Result.none, err := none, calls := calls1,
        inst := withConditions inst1
          (Conditions.MarkTrue c.now inst1.Status.Conditions DeploymentReadyCondition
            ⟨"condition.DeploymentReadyMessage", []⟩) }
    else if chk.deploymentExists then
      { result := Result.none, err := none, calls := calls1,
        inst := withConditions inst1
          (Conditions.MarkFalse c.now inst1.Status.Conditions DeploymentReadyCondition RequestedReason
            SeverityInfo ⟨"condition.DeploymentReadyRunningMessage", []⟩) }
    else
      { result := Result.none, err := none, calls := calls1,
        inst := withConditions inst1
          (Conditions.MarkFalse c.now inst1.Status.Conditions DeploymentReadyCondition RequestedReason
            SeverityInfo ⟨"condition.DeploymentReadyInitMessage", []⟩) }

/-- The guard "already deployed" of `Reconcile` and the inventory stage: the pass ends
when `Status.Deployed` holds and the deletion timestamp is zero; otherwise
`GenerateNodeSetInventory` runs, and its failure marks SetupReady False. -/
def stageInventory (c : Collaborators) (inst : OpenStackDataPlaneNodeSet)
    (calls : List Call) : PassEnd :=
  if inst.Status.Deployed && Time.IsZero inst.DeletionTimestamp then
    { result := Result.none, err := none, inst := inst, calls := calls }
  else
    let calls1 := calls ++ [Call.GenerateNodeSetInventory]
    match c.GenerateNodeSetInventory with
    | some err =>
      { result := Result.none, err := some err, calls := calls1,
        inst := withConditions inst
          (Conditions.MarkFalse c.now inst.Status.Conditions SetupReadyCondition ErrorReason
            SeverityError
            ⟨"dataplanev1.DataPlaneNodeSetErrorMessage",
              ["Unable to generate inventory for " ++ inst.Name]⟩) }
    | none => stageDeployment c inst calls1

/-- The stage "Reconcile BaremetalSet if required": for a node set that is not
pre-provisioned the bare-metal condition is reset to Unknown and `DeployBaremetalSet`
runs; an error or a set that is not ready ends the pass. -/
def stageBaremetal (c : Collaborators) (inst : OpenStackDataPlaneNodeSet)
    (calls : List Call) : PassEnd :=
  if !inst.Spec.PreProvisioned then
    let conds1 := Conditions.MarkUnknown c.now inst.Status.Conditions
      NodeSetBareMetalProvisionReadyCondition InitReason ⟨InitReason, []⟩
    let inst1 := withConditions inst
      (applyMark c.now conds1 NodeSetBareMetalProvisionReadyCondition c.DeployBaremetalSetMark)
    let calls1 := calls ++ [Call.DeployBaremetalSet]
    if c.DeployBaremetalSetErr.isSome || !c.DeployBaremetalSetReady then
      { result := Result.none, err := c.DeployBaremetalSetErr, inst := inst1, calls := calls1 }
    else stageInventory c inst1 calls1
  else stageInventory c inst calls

/-- The stages "Reconcile ServiceAccount" and the role binding: an error marks
ServiceAccountReady False with severity Warning, a non-empty result marks it False with
severity Info, and both end the pass; otherwise ServiceAccountReady is marked True. -/
def stageServiceAccount (c : Collaborators) (inst : OpenStackDataPlaneNodeSet)
    (calls : List Call) : PassEnd :=
  let calls1 := calls ++ [Call.ServiceAccountCreateOrPatch]
  match c.ServiceAccountErr with
  | some err =>
    { result := c.ServiceAccountResult, err := some err, calls := calls1,
      inst := withConditions inst
        (Conditions.MarkFalse c.now inst.Status.Conditions ServiceAccountReadyCondition ErrorReason
          SeverityWarning ⟨"condition.ServiceAccountReadyErrorMessage", [err]⟩) }
  | none =>
    if c.ServiceAccountResult ≠ Result.none then
      { result := c.ServiceAccountResult, err := none, calls := calls1,
        inst := withConditions inst
          (Conditions.MarkFalse c.now inst.Status.Conditions ServiceAccountReadyCondition
            RequestedReason SeverityInfo ⟨"condition.ServiceAccountCreatingMessage", []⟩) }
    else
      let calls2 := calls1 ++ [Call.RoleBindingCreateOrPatch]
      match c.RoleBindingErr with
      | some err =>
        { result := c.RoleBindingResult, err := some err, calls := calls2,
          inst := withConditions inst
            (Conditions.MarkFalse c.now inst.Status.Conditions ServiceAccountReadyCondition ErrorReason
              SeverityWarning ⟨"condition.ServiceAccountReadyErrorMessage", [err]⟩) }
      | none =>
        if c.RoleBindingResult ≠ Result.none then
          { result := c.RoleBindingResult, err := none, calls := calls2,
            inst := withConditions inst
              (Conditions.MarkFalse c.now inst.Status.Conditions ServiceAccountReadyCondition
                RequestedReason SeverityInfo
                ⟨"condition.ServiceAccountCreatingMessage", []⟩) }
        else
          stageBaremetal c
            (withConditions inst
              (Conditions.MarkTrue c.now inst.Status.Conditions ServiceAccountReadyCondition
                ⟨"condition.ServiceAccountReadyMessage", []⟩))
            calls2

/-- The key list `secretKeys` of `Reconcile`: the private key, and the authorized keys
when the node set is not pre-provisioned. -/
def secretKeys (inst : OpenStackDataPlaneNodeSet) : List String :=
  let keys := [] ++ [AnsibleSSHPrivateKey]
  if !inst.Spec.PreProvisioned then keys ++ [AnsibleSSHAuthorizedKeys] else keys

/-- The credential stage: `secret.VerifySecret` is called with the key list and a timeout
of five seconds; on an error InputReady is marked False, with severity Info when the
result is not empty and Error otherwise, and the pass ends with that result and error;
otherwise InputReady is marked True. -/
def stageVerifySecret (c : Collaborators) (inst : OpenStackDataPlaneNodeSet)
    (calls : List Call) : PassEnd :=
  let ansibleSSHPrivateKeySecret := inst.Spec.NodeTemplate.AnsibleSSHPrivateKeySecret
  let calls1 := calls ++
    [Call.VerifySecret inst.Namespace ansibleSSHPrivateKeySecret (secretKeys inst) 5]
  match c.VerifySecretErr with
  | some err =>
    if c.VerifySecretResult ≠ Result.none then
      { result := c.VerifySecretResult, err := some err, calls := calls1,
        inst := withConditions inst
          (Conditions.MarkFalse c.now inst.Status.Conditions InputReadyCondition RequestedReason
            SeverityInfo
            ⟨"dataplanev1.InputReadyWaitingMessage",
              ["secret/" ++ ansibleSSHPrivateKeySecret]⟩) }
    else
      { result := c.VerifySecretResult, err := some err, calls := calls1,
        inst := withConditions inst
          (Conditions.MarkFalse c.now inst.Status.Conditions InputReadyCondition RequestedReason
            SeverityError ⟨err, []⟩) }
  | none =>
    stageServiceAccount c
      (withConditions inst
        (Conditions.MarkTrue c.now inst.Status.Conditions InputReadyCondition
          ⟨"condition.InputReadyMessage", []⟩))
      calls1

/-- The stage "Ensure DNSData Required for Nodes". The test after the call reads the
`isReady` that `EnsureIPSets` returned. On success the DNS results go into the status. -/
def stageDNSData (c : Collaborators) (isReady : Bool) (inst : OpenStackDataPlaneNodeSet)
    (calls : List Call) : PassEnd :=
  let inst1 := withConditions inst
    (applyMark c.now inst.Status.Conditions NodeSetDNSDataReadyCondition c.EnsureDNSDataMark)
  let calls1 := calls ++ [Call.EnsureDNSData]
  if c.EnsureDNSDataErr.isSome || !isReady then
    { result := Result.none, err := c.EnsureDNSDataErr, inst := inst1, calls := calls1 }
  else
    stageVerifySecret c (withDNSData inst1 c.EnsureDNSData) calls1

/-- The stage "Ensure IPSets Required for Nodes": an error or reservations that are not
ready end the pass. -/
def stageIPSets (c : Collaborators) (inst : OpenStackDataPlaneNodeSet)
    (calls : List Call) : PassEnd :=
  let inst1 := withConditions inst
    (applyMark c.now inst.Status.Conditions NodeSetIPReservationReadyCondition
      c.EnsureIPSetsMark)
  let calls1 := calls ++ [Call.EnsureIPSets]
  if c.EnsureIPSetsErr.isSome || !c.EnsureIPSetsReady then
    { result := Result.none, err := c.EnsureIPSetsErr, inst := inst1, calls := calls1 }
  else stageDNSData c c.EnsureIPSetsReady inst1 calls1

/-- The stage "Ensure Services": a failure marks SetupReady False with severity Error and
reason Error and ends the pass with the error. -/
def stageServices (c : Collaborators) (inst : OpenStackDataPlaneNodeSet)
    (calls : List Call) : PassEnd :=
  let calls1 := calls ++ [Call.EnsureServices]
  match c.EnsureServices with
  | some err =>
    { result := Result.none, err := some err, calls := calls1,
      inst := withConditions inst
        (Conditions.MarkFalse c.now inst.Status.Conditions SetupReadyCondition ErrorReason
          SeverityError ⟨"dataplanev1.DataPlaneNodeSetErrorMessage", [err]⟩) }
  | none => stageIPSets c inst calls1

/-- The body of `Reconcile` after the deferred function is registered: SetupReady is
marked False (requested), the spec hash is computed and, when it differs from
`DeployedConfigHash`, stored in `ConfigHash`; then the stages run. -/
def reconcileBody (c : Collaborators) (inst : OpenStackDataPlaneNodeSet) : PassEnd :=
  let inst1 := withConditions inst
    (Conditions.MarkFalse c.now inst.Status.Conditions SetupReadyCondition RequestedReason SeverityInfo
      ⟨"condition.ReadyInitMessage", []⟩)
  match GetSpecConfigHash c.ObjectHash inst1 with
  | .error err => { result := Result.none, err := some err, inst := inst1, calls := [] }
  | .ok configHash =>
    let inst2 :=
      if configHash ≠ inst1.Status.DeployedConfigHash then withConfigHash inst1 configHash
      else inst1
    stageServices c inst2 []

/-- The deferred function of `Reconcile` on the ledger: the saved transition times are
restored first; then Ready is marked True when every sub-condition is True, and
otherwise, when Ready is Unknown, it is set to the mirror of the other conditions
(`Set` of a nil condition changes nothing). -/
def deferredRollup (now : Time) (savedConditions conditions : Conditions) : Conditions :=
  let restored := RestoreLastTransitionTimes conditions savedConditions
  if Conditions.AllSubConditionIsTrue restored then
    Conditions.MarkTrue now restored ReadyCondition ⟨"dataplanev1.NodeSetReadyMessage", []⟩
  else if Conditions.IsUnknown restored ReadyCondition then
    match Conditions.Mirror restored ReadyCondition with
    | some mirrored => Conditions.Set now restored mirrored
    | none => restored
  else restored

/-- What one call of `Reconcile` did: the returned result and error, the node set handed
to `PatchInstance` (none when the pass ended before the deferred function was
registered), and the calls made, oldest first. -/
structure Pass where
  result : Result
  err : Option String
  patched : Option OpenStackDataPlaneNodeSet
  calls : List Call

/-- The function `Reconcile`. A request whose node set is not found ends without error,
a failed read returns its error. Otherwise the conditions are saved, `InitConditions`
resets the status, `ObservedGeneration` is set, the body runs, and the deferred function
rolls the conditions up and patches the status; a failed patch replaces the returned
error. -/
def Reconcile (c : Collaborators) (got : GetOutcome) : Pass :=
  match got with
  | .notFound => { result := Result.none, err := none, patched := none, calls := [] }
  | .failed err => { result := Result.none, err := some err, patched := none, calls := [] }
  | .found inst =>
    let savedConditions := inst.Status.Conditions
    let inst1 := InitConditions c.now inst
    let inst2 : OpenStackDataPlaneNodeSet :=
      { inst1 with Status := { inst1.Status with ObservedGeneration := inst1.Generation } }
    let body := reconcileBody c inst2
    let inst3 := withConditions body.inst
      (deferredRollup c.now savedConditions body.inst.Status.Conditions)
    { result := body.result
      err :=
        match c.PatchInstance with
        | some err => some err
        | none => body.err
      patched := some inst3
      calls := body.calls ++ [Call.PatchInstance] }

/-- The updates the body of `Reconcile` makes to the node set, one after the other: a
condition other than Ready is set, the DNS results are stored, `ConfigHash` is assigned,
or `checkDeployment` has written the status. -/
inductive BodyUpdate (c : Collaborators) :
    OpenStackDataPlaneNodeSet → OpenStackDataPlaneNodeSet → Prop where
  | refl (inst : OpenStackDataPlaneNodeSet) : BodyUpdate c inst inst
  | setCondition {inst inst1 : OpenStackDataPlaneNodeSet} (x : Condition)
      (hx : x.Type_ ≠ ReadyCondition) (h : BodyUpdate c inst inst1) :
      BodyUpdate c inst (withConditions inst1 (Conditions.Set c.now inst1.Status.Conditions x))
  | dnsData {inst inst1 : OpenStackDataPlaneNodeSet} (h : BodyUpdate c inst inst1) :
      BodyUpdate c inst (withDNSData inst1 c.EnsureDNSData)
  | configHash {inst inst1 : OpenStackDataPlaneNodeSet} (hash : String)
      (h : BodyUpdate c inst inst1) : BodyUpdate c inst (withConfigHash inst1 hash)
  | aggregated {inst inst1 : OpenStackDataPlaneNodeSet} (h : BodyUpdate c inst inst1) :
      BodyUpdate c inst
        (withStatus inst1 (checkDeployment c.pdq c.ListDeployments inst1).Status)

/-! ## The exits of a pass

The body of `Reconcile` in path form: the node set after each stage that succeeded, the
calls made up to each stage, and for every `return` of the body the outcomes that lead
to it together with what is returned there. -/

/-- The `return` statements of the body of `Reconcile`, in the order of the source. -/
inductive Exit where
  | hashFailed
  | servicesFailed
  | ipSetsNotReady
  | dnsDataFailed
  | secretWaiting
  | secretFailed
  | serviceAccountFailed
  | serviceAccountCreating
  | roleBindingFailed
  | roleBindingCreating
  | baremetalNotReady
  | alreadyDeployed
  | inventoryFailed
  | aggregationFailed
  | deploymentReady
  | deploymentRunning
  | deploymentNotStarted
  deriving DecidableEq, Repr

/-- The node set after SetupReady is marked False (requested) at the start of the body. -/
def requested (c : Collaborators) (inst : OpenStackDataPlaneNodeSet) :
    OpenStackDataPlaneNodeSet :=
  withConditions inst
    (Conditions.MarkFalse c.now inst.Status.Conditions SetupReadyCondition RequestedReason
      SeverityInfo ⟨"condition.ReadyInitMessage", []⟩)

/-- The node set after the drift detection found the hash `configHash`. -/
def hashed (c : Collaborators) (inst : OpenStackDataPlaneNodeSet) (configHash : String) :
    OpenStackDataPlaneNodeSet :=
  if configHash ≠ (requested c inst).Status.DeployedConfigHash then
    withConfigHash (requested c inst) configHash
  else requested c inst

/-- The node set after `EnsureIPSets` reported on its condition. -/
def ipSetsMarked (c : Collaborators) (inst : OpenStackDataPlaneNodeSet) (configHash : String) :
    OpenStackDataPlaneNodeSet :=
  withConditions (hashed c inst configHash)
    (applyMark c.now (hashed c inst configHash).Status.Conditions
      NodeSetIPReservationReadyCondition c.EnsureIPSetsMark)

/-- The node set after `EnsureDNSData` reported on its condition. -/
def dnsMarked (c : Collaborators) (inst : OpenStackDataPlaneNodeSet) (configHash : String) :
    OpenStackDataPlaneNodeSet :=
  withConditions (ipSetsMarked c inst configHash)
    (applyMark c.now (ipSetsMarked c inst configHash).Status.Conditions
      NodeSetDNSDataReadyCondition c.EnsureDNSDataMark)

/-- The node set after the DNS results are stored in its status. -/
def dnsStored (c : Collaborators) (inst : OpenStackDataPlaneNodeSet) (configHash : String) :
    OpenStackDataPlaneNodeSet :=
  withDNSData (dnsMarked c inst configHash) c.EnsureDNSData

/-- The node set after InputReady is marked True. -/
def inputVerified (c : Collaborators) (inst : OpenStackDataPlaneNodeSet)
    (configHash : String) : OpenStackDataPlaneNodeSet :=
  withConditions (dnsStored c inst configHash)
    (Conditions.MarkTrue c.now (dnsStored c inst configHash).Status.Conditions
      InputReadyCondition ⟨"condition.InputReadyMessage", []⟩)

/-- The node set after ServiceAccountReady is marked True. -/
def accountReady (c : Collaborators) (inst : OpenStackDataPlaneNodeSet)
    (configHash : String) : OpenStackDataPlaneNodeSet :=
  withConditions (inputVerified c inst configHash)
    (Conditions.MarkTrue c.now (inputVerified c inst configHash).Status.Conditions
      ServiceAccountReadyCondition ⟨"condition.ServiceAccountReadyMessage", []⟩)

/-- The node set after the bare-metal condition is reset and `DeployBaremetalSet`
reported on it. -/
def baremetalMarked (c : Collaborators) (inst : OpenStackDataPlaneNodeSet)
    (configHash : String) : OpenStackDataPlaneNodeSet :=
  withConditions (accountReady c inst configHash)
    (applyMark c.now
      (Conditions.MarkUnknown c.now (accountReady c inst configHash).Status.Conditions
        NodeSetBareMetalProvisionReadyCondition InitReason ⟨InitReason, []⟩)
      NodeSetBareMetalProvisionReadyCondition c.DeployBaremetalSetMark)

/-- The node set when the guard "already deployed" is read: after the bare-metal stage
for a node set that is not pre-provisioned, after the service account otherwise. -/
def provisioned (c : Collaborators) (inst : OpenStackDataPlaneNodeSet) (configHash : String) :
    OpenStackDataPlaneNodeSet :=
  if !inst.Spec.PreProvisioned then baremetalMarked c inst configHash
  else accountReady c inst configHash

/-- The node set on which `checkDeployment` runs: after "all setup tasks complete". -/
def setupComplete (c : Collaborators) (inst : OpenStackDataPlaneNodeSet)
    (configHash : String) : OpenStackDataPlaneNodeSet :=
  withConditions (provisioned c inst configHash)
    (markSetupComplete c.now (provisioned c inst configHash).Status.Conditions)

/-- What `checkDeployment` returns in the pass. -/
def aggregation (c : Collaborators) (inst : OpenStackDataPlaneNodeSet) (configHash : String) :
    CheckState :=
  checkDeployment c.pdq c.ListDeployments (setupComplete c inst configHash)

/-- The node set after `checkDeployment` has written its status. -/
def aggregated (c : Collaborators) (inst : OpenStackDataPlaneNodeSet) (configHash : String) :
    OpenStackDataPlaneNodeSet :=
  withStatus (setupComplete c inst configHash) (aggregation c inst configHash).Status

/-- The calls up to and including the credential verification. -/
def callsToSecret (inst : OpenStackDataPlaneNodeSet) : List Call :=
  [Call.EnsureServices, Call.EnsureIPSets, Call.EnsureDNSData,
   Call.VerifySecret inst.Namespace inst.Spec.NodeTemplate.AnsibleSSHPrivateKeySecret
     (secretKeys inst) 5]

/-- The calls up to the guard "already deployed". -/
def callsToGuard (inst : OpenStackDataPlaneNodeSet) : List Call :=
  if !inst.Spec.PreProvisioned then
    callsToSecret inst ++ [Call.ServiceAccountCreateOrPatch, Call.RoleBindingCreateOrPatch,
      Call.DeployBaremetalSet]
  else
    callsToSecret inst ++ [Call.ServiceAccountCreateOrPatch, Call.RoleBindingCreateOrPatch]

/-- The outcomes with which the body reaches the credential verification: the spec hash
is `configHash`, the services are valid, the IP sets are reserved and ready and the DNS
data is there. -/
def ReachesSecret (c : Collaborators) (inst : OpenStackDataPlaneNodeSet)
    (configHash : String) : Prop :=
  c.ObjectHash inst.Spec = .ok configHash ∧ c.EnsureServices = none ∧
    c.EnsureIPSetsErr = none ∧ c.EnsureIPSetsReady = true ∧ c.EnsureDNSDataErr = none

/-- The outcomes with which the body reaches the bare-metal stage: it reaches the
credential verification, the credential is verified and the service account and the role
binding are in place. -/
def ReachesBaremetal (c : Collaborators) (inst : OpenStackDataPlaneNodeSet)
    (configHash : String) : Prop :=
  ReachesSecret c inst configHash ∧ c.VerifySecretErr = none ∧
    c.ServiceAccountErr = none ∧ c.ServiceAccountResult = Result.none ∧
    c.RoleBindingErr = none ∧ c.RoleBindingResult = Result.none

/-- The outcomes with which the body reaches the guard "already deployed": it reaches the
bare-metal stage and the node set is pre-provisioned or its bare-metal set is ready. -/
def ReachesGuard (c : Collaborators) (inst : OpenStackDataPlaneNodeSet)
    (configHash : String) : Prop :=
  ReachesBaremetal c inst configHash ∧
    (inst.Spec.PreProvisioned = true ∨
      (inst.Spec.PreProvisioned = false ∧ c.DeployBaremetalSetErr = none ∧
        c.DeployBaremetalSetReady = true))

/-- The outcomes with which the body reaches `checkDeployment`: it reaches the guard, the
guard is false and the inventory is generated. -/
def ReachesDeployment (c : Collaborators) (inst : OpenStackDataPlaneNodeSet)
    (configHash : String) : Prop :=
  ReachesGuard c inst configHash ∧
    (inst.Status.Deployed && Time.IsZero inst.DeletionTimestamp) = false ∧
    c.GenerateNodeSetInventory = none

/-- The exits of the body of `Reconcile` on the node set `inst`: for every `return`, the
outcomes that lead to it and the result, error, node set and calls it ends with. -/
inductive Halt (c : Collaborators) (inst : OpenStackDataPlaneNodeSet) :
    Exit → PassEnd → Prop where
  | hashFailed (err : String) (hh : c.ObjectHash inst.Spec = .error err) :
      Halt c inst Exit.hashFailed ⟨Result.none, some err, requested c inst, []⟩
  | servicesFailed (h err : String) (hh : c.ObjectHash inst.Spec = .ok h)
      (he : c.EnsureServices = some err) :
      Halt c inst Exit.servicesFailed
        ⟨Result.none, some err,
          withConditions (hashed c inst h)
            (Conditions.MarkFalse c.now (hashed c inst h).Status.Conditions
              SetupReadyCondition ErrorReason SeverityError
              ⟨"dataplanev1.DataPlaneNodeSetErrorMessage", [err]⟩),
          [Call.EnsureServices]⟩
  | ipSetsNotReady (h : String) (hh : c.ObjectHash inst.Spec = .ok h)
      (hs : c.EnsureServices = none)
      (hi : c.EnsureIPSetsErr ≠ none ∨ c.EnsureIPSetsReady = false) :
      Halt c inst Exit.ipSetsNotReady
        ⟨Result.none, c.EnsureIPSetsErr, ipSetsMarked c inst h,
          [Call.EnsureServices, Call.EnsureIPSets]⟩
  | dnsDataFailed (h err : String) (hh : c.ObjectHash inst.Spec = .ok h)
      (hs : c.EnsureServices = none) (hi : c.EnsureIPSetsErr = none)
      (hr : c.EnsureIPSetsReady = true) (hd : c.EnsureDNSDataErr = some err) :
      Halt c inst Exit.dnsDataFailed
        ⟨Result.none, some err, dnsMarked c inst h,
          [Call.EnsureServices, Call.EnsureIPSets, Call.EnsureDNSData]⟩
  | secretWaiting (h err : String) (hp : ReachesSecret c inst h)
      (he : c.VerifySecretErr = some err) (hr : c.VerifySecretResult ≠ Result.none) :
      Halt c inst Exit.secretWaiting
        ⟨c.VerifySecretResult, some err,
          withConditions (dnsStored c inst h)
            (Conditions.MarkFalse c.now (dnsStored c inst h).Status.Conditions
              InputReadyCondition RequestedReason SeverityInfo
              ⟨"dataplanev1.InputReadyWaitingMessage",
                ["secret/" ++ inst.Spec.NodeTemplate.AnsibleSSHPrivateKeySecret]⟩),
          callsToSecret inst⟩
  | secretFailed (h err : String) (hp : ReachesSecret c inst h)
      (he : c.VerifySecretErr = some err) (hr : c.VerifySecretResult = Result.none) :
      Halt c inst Exit.secretFailed
        ⟨c.VerifySecretResult, some err,
          withConditions (dnsStored c inst h)
            (Conditions.MarkFalse c.now (dnsStored c inst h).Status.Conditions
              InputReadyCondition RequestedReason SeverityError ⟨err, []⟩),
          callsToSecret inst⟩
  | serviceAccountFailed (h err : String) (hp : ReachesSecret c inst h)
      (hv : c.VerifySecretErr = none) (he : c.ServiceAccountErr = some err) :
      Halt c inst Exit.serviceAccountFailed
        ⟨c.ServiceAccountResult, some err,
          withConditions (inputVerified c inst h)
            (Conditions.MarkFalse c.now (inputVerified c inst h).Status.Conditions
              ServiceAccountReadyCondition ErrorReason SeverityWarning
              ⟨"condition.ServiceAccountReadyErrorMessage", [err]⟩),
          callsToSecret inst ++ [Call.ServiceAccountCreateOrPatch]⟩
  | serviceAccountCreating (h : String) (hp : ReachesSecret c inst h)
      (hv : c.VerifySecretErr = none) (he : c.ServiceAccountErr = none)
      (hr : c.ServiceAccountResult ≠ Result.none) :
      Halt c inst Exit.serviceAccountCreating
        ⟨c.ServiceAccountResult, none,
          withConditions (inputVerified c inst h)
            (Conditions.MarkFalse c.now (inputVerified c inst h).Status.Conditions
              ServiceAccountReadyCondition RequestedReason SeverityInfo
              ⟨"condition.ServiceAccountCreatingMessage", []⟩),
          callsToSecret inst ++ [Call.ServiceAccountCreateOrPatch]⟩
  | roleBindingFailed (h err : String) (hp : ReachesSecret c inst h)
      (hv : c.VerifySecretErr = none) (hs : c.ServiceAccountErr = none)
      (hsr : c.ServiceAccountResult = Result.none) (he : c.RoleBindingErr = some err) :
      Halt c inst Exit.roleBindingFailed
        ⟨c.RoleBindingResult, some err,
          withConditions (inputVerified c inst h)
            (Conditions.MarkFalse c.now (inputVerified c inst h).Status.Conditions
              ServiceAccountReadyCondition ErrorReason SeverityWarning
              ⟨"condition.ServiceAccountReadyErrorMessage", [err]⟩),
          callsToSecret inst ++
            [Call.ServiceAccountCreateOrPatch, Call.RoleBindingCreateOrPatch]⟩
  | roleBindingCreating (h : String) (hp : ReachesSecret c inst h)
      (hv : c.VerifySecretErr = none) (hs : c.ServiceAccountErr = none)
      (hsr : c.ServiceAccountResult = Result.none) (he : c.RoleBindingErr = none)
      (hr : c.RoleBindingResult ≠ Result.none) :
      Halt c inst Exit.roleBindingCreating
        ⟨c.RoleBindingResult, none,
          withConditions (inputVerified c inst h)
            (Conditions.MarkFalse c.now (inputVerified c inst h).Status.Conditions
              ServiceAccountReadyCondition RequestedReason SeverityInfo
              ⟨"condition.ServiceAccountCreatingMessage", []⟩),
          callsToSecret inst ++
            [Call.ServiceAccountCreateOrPatch, Call.RoleBindingCreateOrPatch]⟩
  | baremetalNotReady (h : String) (hp : ReachesBaremetal c inst h)
      (hpre : inst.Spec.PreProvisioned = false)
      (hb : c.DeployBaremetalSetErr ≠ none ∨ c.DeployBaremetalSetReady = false) :
      Halt c inst Exit.baremetalNotReady
        ⟨Result.none, c.DeployBaremetalSetErr, baremetalMarked c inst h, callsToGuard inst⟩
  | alreadyDeployed (h : String) (hp : ReachesGuard c inst h)
      (hg : (inst.Status.Deployed && Time.IsZero inst.DeletionTimestamp) = true) :
      Halt c inst Exit.alreadyDeployed
        ⟨Result.none, none, provisioned c inst h, callsToGuard inst⟩
  | inventoryFailed (h err : String) (hp : ReachesGuard c inst h)
      (hg : (inst.Status.Deployed && Time.IsZero inst.DeletionTimestamp) = false)
      (he : c.GenerateNodeSetInventory = some err) :
      Halt c inst Exit.inventoryFailed
        ⟨Result.none, some err,
          withConditions (provisioned c inst h)
            (Conditions.MarkFalse c.now (provisioned c inst h).Status.Conditions
              SetupReadyCondition ErrorReason SeverityError
              ⟨"dataplanev1.DataPlaneNodeSetErrorMessage",
                ["Unable to generate inventory for " ++ inst.Name]⟩),
          callsToGuard inst ++ [Call.GenerateNodeSetInventory]⟩
  | aggregationFailed (h err : String) (hp : ReachesDeployment c inst h)
      (he : (aggregation c inst h).err = some err) :
      Halt c inst Exit.aggregationFailed
        ⟨Result.none, some err,
          withConditions (aggregated c inst h)
            (Conditions.MarkFalse c.now (aggregated c inst h).Status.Conditions
              DeploymentReadyCondition ErrorReason SeverityError
              ⟨"condition.DeploymentReadyErrorMessage", [err]⟩),
          callsToGuard inst ++ [Call.GenerateNodeSetInventory, Call.checkDeployment]⟩
  | deploymentReady (h : String) (hp : ReachesDeployment c inst h)
      (he : (aggregation c inst h).err = none)
      (hr : (aggregation c inst h).isDeploymentReady = true) :
      Halt c inst Exit.deploymentReady
        ⟨Result.none, none,
          withConditions (aggregated c inst h)
            (Conditions.MarkTrue c.now (aggregated c inst h).Status.Conditions
              DeploymentReadyCondition ⟨"condition.DeploymentReadyMessage", []⟩),
          callsToGuard inst ++ [Call.GenerateNodeSetInventory, Call.checkDeployment]⟩
  | deploymentRunning (h : String) (hp : ReachesDeployment c inst h)
      (he : (aggregation c inst h).err = none)
      (hr : (aggregation c inst h).isDeploymentReady = false)
      (hx : (aggregation c inst h).deploymentExists = true) :
      Halt c inst Exit.deploymentRunning
        ⟨Result.none, none,
          withConditions (aggregated c inst h)
            (Conditions.MarkFalse c.now (aggregated c inst h).Status.Conditions
              DeploymentReadyCondition RequestedReason SeverityInfo
              ⟨"condition.DeploymentReadyRunningMessage", []⟩),
          callsToGuard inst ++ [Call.GenerateNodeSetInventory, Call.checkDeployment]⟩
  | deploymentNotStarted (h : String) (hp : ReachesDeployment c inst h)
      (he : (aggregation c inst h).err = none)
      (hr : (aggregation c inst h).isDeploymentReady = false)
      (hx : (aggregation c inst h).deploymentExists = false) :
      Halt c inst Exit.deploymentNotStarted
        ⟨Result.none, none,
          withConditions (aggregated c inst h)
            (Conditions.MarkFalse c.now (aggregated c inst h).Status.Conditions
              DeploymentReadyCondition RequestedReason SeverityInfo
              ⟨"condition.DeploymentReadyInitMessage", []⟩),
          callsToGuard inst ++ [Call.GenerateNodeSetInventory, Call.checkDeployment]⟩

/-- The node set on which the body of `Reconcile` runs: after `InitConditions` and the
assignment of `ObservedGeneration`. -/
def initialised (c : Collaborators) (inst : OpenStackDataPlaneNodeSet) :
    OpenStackDataPlaneNodeSet :=
  withStatus (InitConditions c.now inst)
    { (InitConditions c.now inst).Status with
      ObservedGeneration := (InitConditions c.now inst).Generation }

/-! ## The watch correlator -/

/-- A changed object as a watcher function reads it: the kind of its
`GroupVersionKind`, its name and its namespace. -/
structure WatchedObject where
  Kind : String
  Name : String
  Namespace : String
  deriving DecidableEq, Repr

/-- The type `reconcile.Request`: the namespaced name of the node set to reconcile. -/
structure Request where
  Namespace : String
  Name : String
  deriving DecidableEq, Repr

/-- The closure `appendConfigMaps` of the first index function: the names of the
`ConfigMapRef`s that are not nil, in order. -/
def appendConfigMaps (configMaps : List String) (varsFrom : List AnsibleVarsFromSource) :
    List String :=
  varsFrom.foldl
    (fun acc ref =>
      match ref.ConfigMapRef with
      | some name => acc ++ [name]
      | none => acc)
    configMaps

/-- The index function registered for "spec.ansibleVarsFrom.ansible.configMaps": the
config maps of the node template, then those of every node. -/
def configMapsIndex (nodeSet : OpenStackDataPlaneNodeSet) : List String :=
  nodeSet.Spec.Nodes.foldl
    (fun acc node => appendConfigMaps acc node.2.Ansible.AnsibleVarsFrom)
    (appendConfigMaps [] nodeSet.Spec.NodeTemplate.Ansible.AnsibleVarsFrom)

/-- The closure `appendSecrets` of the second index function: the names of the
`SecretRef`s that are not nil, in order. -/
def appendSecrets (secrets : List String) (varsFrom : List AnsibleVarsFromSource) :
    List String :=
  varsFrom.foldl
    (fun acc ref =>
      match ref.SecretRef with
      | some name => acc ++ [name]
      | none => acc)
    secrets

/-- The index function registered for "spec.ansibleVarsFrom.ansible.secrets": the SSH key
secret of the node template when its name is not empty, the secrets of the node template,
then those of every node. -/
def secretsIndex (nodeSet : OpenStackDataPlaneNodeSet) : List String :=
  let secrets :=
    if nodeSet.Spec.NodeTemplate.AnsibleSSHPrivateKeySecret ≠ "" then
      [] ++ [nodeSet.Spec.NodeTemplate.AnsibleSSHPrivateKeySecret]
    else []
  nodeSet.Spec.Nodes.foldl
    (fun acc node => appendSecrets acc node.2.Ansible.AnsibleVarsFrom)
    (appendSecrets secrets nodeSet.Spec.NodeTemplate.Ansible.AnsibleVarsFrom)

/-- The options `client.ListOptions` of `secretWatcherFn`: the one-term field selector
(field, value) and the namespace. -/
structure ListOptions where
  FieldSelectorField : String
  FieldSelectorValue : String
  Namespace : String
  deriving DecidableEq, Repr

/-- The values the field index holds for a node set under the given field name: the two
index functions of `SetupWithManager`; no other field is indexed. -/
def indexValues (field : String) (nodeSet : OpenStackDataPlaneNodeSet) : List String :=
  if field = "spec.ansibleVarsFrom.ansible.configMaps" then configMapsIndex nodeSet
  else if field = "spec.ansibleVarsFrom.ansible.secrets" then secretsIndex nodeSet
  else []

/-- Modelled from the spec: the `List` of the cached client is not in the source files;
it is the filter of the stored node sets on the namespace and on membership of the
selector value in the index, and it does not fail. -/
def indexedList (store : List OpenStackDataPlaneNodeSet) (opts : ListOptions) :
    Except String (List OpenStackDataPlaneNodeSet) :=
  .ok (store.filter fun nodeSet =>
    decide (nodeSet.Namespace = opts.Namespace) &&
      decide (opts.FieldSelectorValue ∈ indexValues opts.FieldSelectorField nodeSet))

/-- The function `strings.ToLower`, on the letters A to Z. -/
def ToLower (s : String) : String :=
  ⟨s.data.map Char.toLower⟩

/-- The function `secretWatcherFn`. `list` is the `List` call of the client. The selector
is the config-map index unless the lower-cased kind of the object is "secret"; a failed
list gives no request, otherwise every listed node set gives one request in the namespace
of the object. -/
def secretWatcherFn (list : ListOptions → Except String (List OpenStackDataPlaneNodeSet))
    (obj : WatchedObject) : List Request :=
  let kind := ToLower obj.Kind
  let selector :=
    if kind = "secret" then "spec.ansibleVarsFrom.ansible.secrets"
    else "spec.ansibleVarsFrom.ansible.configMaps"
  match list ⟨selector, obj.Name, obj.Namespace⟩ with
  | .error _ => []
  | .ok items => items.map fun nodeSet => ⟨obj.Namespace, nodeSet.Name⟩

/-- The function `dnsMasqWatcherFn`: every node set listed in the namespace of the object
gives one request; a failed list gives none. -/
def dnsMasqWatcherFn (list : String → Except String (List OpenStackDataPlaneNodeSet))
    (obj : WatchedObject) : List Request :=
  match list obj.Namespace with
  | .error _ => []
  | .ok items => items.map fun nodeSet => ⟨obj.Namespace, nodeSet.Name⟩

/-- A pod as the diagnostic listing of `deploymentWatcherFn` reads it. -/
structure Pod where
  Name : String
  Reason : String
  Message : String
  deriving DecidableEq, Repr

/-- What `deploymentWatcherFn` does: the requests it returns and the lines it logs. -/
structure DeploymentWatch where
  requests : List Request
  logged : List String

/-- The function `deploymentWatcherFn`. `podsList` is what the pod listing (label
`openstackdataplanedeployment=<name>`, phase Failed) returned. One request is appended
for every entry of `Spec.NodeSets`, in order; then the listing is logged: its error, or
one line for every failed pod. -/
def deploymentWatcherFn (podsList : Except String (List Pod))
    (deployment : OpenStackDataPlaneDeployment) : DeploymentWatch :=
  let namespace_ := deployment.Namespace
  let requests :=
    deployment.Spec.NodeSets.foldl
      (fun acc nodeSet => acc ++ [(⟨namespace_, nodeSet⟩ : Request)]) []
  match podsList with
  | .error err =>
    { requests := requests,
      logged := ["unable to retrieve list of pods for dataplane diagnostic: " ++ err] }
  | .ok pods =>
    { requests := requests,
      logged := pods.map fun pod =>
        "openstackansibleee job " ++ pod.Name ++ " failed due to " ++ pod.Reason ++
          " with message: " ++ pod.Message }

/-- A node set references the config map `n`, in the words of the watch correlation: its
node template or one of its nodes holds, in `AnsibleVarsFrom`, a `ConfigMapRef` named
`n`. -/
def referencesConfigMap (nodeSet : OpenStackDataPlaneNodeSet) (n : String) : Prop :=
  (∃ ref ∈ nodeSet.Spec.NodeTemplate.Ansible.AnsibleVarsFrom, ref.ConfigMapRef = some n) ∨
  ∃ node ∈ nodeSet.Spec.Nodes, ∃ ref ∈ node.2.Ansible.AnsibleVarsFrom,
    ref.ConfigMapRef = some n

/-- A node set references the secret `n`, in the words of the watch correlation: its
node template or one of its nodes holds, in `AnsibleVarsFrom`, a `SecretRef` named `n`, or
`NodeTemplate.AnsibleSSHPrivateKeySecret` is `n`. -/
def referencesSecret (nodeSet : OpenStackDataPlaneNodeSet) (n : String) : Prop :=
  nodeSet.Spec.NodeTemplate.AnsibleSSHPrivateKeySecret = n ∨
  (∃ ref ∈ nodeSet.Spec.NodeTemplate.Ansible.AnsibleVarsFrom, ref.SecretRef = some n) ∨
  ∃ node ∈ nodeSet.Spec.Nodes, ∃ ref ∈ node.2.Ansible.AnsibleVarsFrom,
    ref.SecretRef = some n

/-! ## Concrete resources

The node set "edge-a" of the namespace "openstack", sibling deployments and collaborators,
on which the definitions above are evaluated. -/

/-- A status without content. -/
def emptyStatus : OpenStackDataPlaneNodeSetStatus :=
  { Conditions := [], ObservedGeneration := 0, Deployed := false,
    DeploymentStatuses := GoMap.empty, DNSClusterAddresses := [], CtlplaneSearchDomain := "",
    AllHostnames := GoMap.empty, AllIPs := GoMap.empty, ConfigMapHashes := GoMap.empty,
    SecretHashes := GoMap.empty, ConfigHash := "", DeployedConfigHash := "" }

/-- A spec of pre-provisioned nodes with the given tags. -/
def edgeSpec (tags : List String) : OpenStackDataPlaneNodeSetSpec :=
  { BaremetalSetTemplate := ⟨[]⟩,
    NodeTemplate := ⟨"dataplane-ansible-ssh-private-key-secret", ⟨[]⟩, []⟩,
    Nodes := [("compute-1", ⟨⟨[⟨some "net-config", none⟩]⟩⟩)],
    SecretMaxSize := 1048576, PreProvisioned := true, Env := [], NetworkAttachments := [],
    Services := ["bootstrap"], TLSEnabled := true, Tags := tags }

/-- The node set "edge-a" with the given tags and status, not being deleted. -/
def edgeA (tags : List String) (status : OpenStackDataPlaneNodeSetStatus) :
    OpenStackDataPlaneNodeSet :=
  { Name := "edge-a", Namespace := "openstack", Generation := 1, DeletionTimestamp := none,
    Spec := edgeSpec tags, Status := status }

/-- A condition of type `t` with the given status and severity that changed at `since`. -/
def conditionAt (t : ConditionType) (status : ConditionStatus) (severity : Severity)
    (since : Time) : Condition :=
  { Type_ := t, Status := status, Severity := severity, LastTransitionTime := since,
    Reason := "", Message := ⟨"", []⟩ }

/-- A True condition of type `t` that changed at `since`. -/
def trueAt (t : ConditionType) (since : Time) : Condition :=
  conditionAt t ConditionTrue SeverityNone since

/-- A deployment of the namespace "openstack": its name, targets, ledger, completion flag
and the hash it recorded for "edge-a", for the config map "cm" and for the secret
"secret". It carries no deletion marker. -/
def deploymentOf (name : String) (nodeSets : List String) (conditions : Conditions)
    (deployed : Bool) (hash : String) : OpenStackDataPlaneDeployment :=
  { Name := name, Namespace := "openstack", DeletionTimestamp := none,
    Spec := ⟨nodeSets⟩,
    Status :=
      { Conditions := conditions, Deployed := deployed,
        ConfigMapHashes := GoMap.empty.set "cm" hash,
        SecretHashes := GoMap.empty.set "secret" hash,
        NodeSetHashes := GoMap.empty.set "edge-a" hash,
        NodeSetConditions := GoMap.empty } }

/-- The deployment that turned ready at 10 and completed. -/
def deployT1 : OpenStackDataPlaneDeployment :=
  deploymentOf "deploy-t1" ["edge-a"] [trueAt DeploymentReadyCondition 10] true "hash-t1"

/-- The deployment whose DeploymentReady condition changed at 20, not completed. -/
def deployT2 : OpenStackDataPlaneDeployment :=
  deploymentOf "deploy-t2" ["edge-a"]
    [conditionAt DeploymentReadyCondition ConditionFalse SeverityInfo 20] false "hash-t2"

/-- The deployment that turned ready at 30 and completed. -/
def deployT3 : OpenStackDataPlaneDeployment :=
  deploymentOf "deploy-t3" ["edge-a"] [trueAt DeploymentReadyCondition 30] true "hash-t3"

/-- A deployment of another node set that has no condition yet. -/
def deployOther : OpenStackDataPlaneDeployment :=
  deploymentOf "deploy-other" ["edge-b"] [] false "hash-other"

/-- A deployment of "edge-a" whose overall Ready condition is in error since 10. -/
def deployFailed : OpenStackDataPlaneDeployment :=
  deploymentOf "deploy-failed" ["edge-a"]
    [conditionAt DeploymentReadyCondition ConditionFalse SeverityError 10,
     conditionAt ReadyCondition ConditionFalse SeverityError 10] false "hash-failed"

/-- A deployment of "edge-a" that completed at 20, with its Ready condition True. -/
def deployGood : OpenStackDataPlaneDeployment :=
  deploymentOf "deploy-good" ["edge-a"]
    [trueAt DeploymentReadyCondition 20, trueAt ReadyCondition 20] true "hash-good"

/-- A stage that reports its condition True. -/
def markedTrue : Option StageMark :=
  some ⟨ConditionTrue, SeverityNone, ReadyReason, ⟨"", []⟩⟩

/-- A stand-in for `util.ObjectHash` that tells two specs apart by their tags, as a hash
of the serialised spec does unless it collides. -/
def tagsHash (spec : OpenStackDataPlaneNodeSetSpec) : Except String String :=
  .ok (String.join spec.Tags)

/-- Collaborators that all succeed at the clock `now`, with the given deployments listed. -/
def allSucceed (now : Time) (deployments : List OpenStackDataPlaneDeployment) :
    Collaborators :=
  { now := now
    ObjectHash := tagsHash
    EnsureServices := none
    EnsureIPSetsMark := markedTrue, EnsureIPSetsReady := true, EnsureIPSetsErr := none
    EnsureDNSDataMark := markedTrue
    EnsureDNSData := ⟨[], "", GoMap.empty, GoMap.empty, []⟩
    EnsureDNSDataErr := none
    VerifySecretResult := Result.none, VerifySecretErr := none
    ServiceAccountResult := Result.none, ServiceAccountErr := none
    RoleBindingResult := Result.none, RoleBindingErr := none
    DeployBaremetalSetMark := markedTrue, DeployBaremetalSetReady := true
    DeployBaremetalSetErr := none
    GenerateNodeSetInventory := none
    ListDeployments := .ok deployments
    pdq := insertionSortCmpFunc
    PatchInstance := none }

/-- The node set "edge-a" as patched by a first pass at the clock 5, in which every stage
succeeds and the listed deployment has completed. -/
def afterFirstPass : OpenStackDataPlaneNodeSet :=
  ((Reconcile (allSucceed 5 [deployGood]) (.found (edgeA [] emptyStatus))).patched).getD
    (edgeA [] emptyStatus)

/-- The same node set with `Status.Deployed` stored as true. -/
def storedDeployed : OpenStackDataPlaneNodeSet :=
  withStatus afterFirstPass { afterFirstPass.Status with Deployed := true }

/-- The node set "edge-b" of the namespace "openstack": it references no config map and
no secret but the SSH key secret. -/
def edgeB : OpenStackDataPlaneNodeSet :=
  { Name := "edge-b", Namespace := "openstack", Generation := 1, DeletionTimestamp := none,
    Spec :=
      { BaremetalSetTemplate := ⟨[]⟩,
        NodeTemplate := ⟨"dataplane-ansible-ssh-private-key-secret", ⟨[]⟩, []⟩,
        Nodes := [("compute-9", ⟨⟨[]⟩⟩)],
        SecretMaxSize := 1048576, PreProvisioned := true, Env := [], NetworkAttachments := [],
        Services := ["bootstrap"], TLSEnabled := true, Tags := [] },
    Status := emptyStatus }

/-- The node set "edge-a" with nodes that are not pre-provisioned. -/
def edgeMetal : OpenStackDataPlaneNodeSet :=
  { edgeA [] emptyStatus with Spec := { edgeSpec [] with PreProvisioned := false } }

/-- Collaborators at the clock 9 whose credential verification does not find the secret:
it returns a requeue after five seconds and an error. -/
def secretMissing : Collaborators :=
  { allSucceed 9 [] with
    VerifySecretResult := ⟨false, 5⟩, VerifySecretErr := some "secret not found" }

/-- Collaborators at the clock 9 whose credential verification fails in another way: it
returns the empty result and an error. -/
def secretUnreadable : Collaborators :=
  { allSucceed 9 [] with VerifySecretErr := some "secret unreadable" }

/-- Collaborators at the clock 9 whose service validation fails. -/
def servicesInvalid : Collaborators :=
  { allSucceed 9 [] with EnsureServices := some "service not found" }

/-- Collaborators at the clock 9 whose inventory generation fails. -/
def inventoryBroken : Collaborators :=
  { allSucceed 9 [] with GenerateNodeSetInventory := some "inventory failed" }

/-- A deployment of "edge-a" that completed at 20 and recorded the hash "a". -/
def deployA : OpenStackDataPlaneDeployment :=
  deploymentOf "deploy-a" ["edge-a"]
    [trueAt DeploymentReadyCondition 20, trueAt ReadyCondition 20] true "a"

/-- The node set "edge-a" with the tags ["a"] as patched by a pass at the clock 5 in which
every stage succeeds and the listed deployment recorded the hash "a". -/
def driftFirst : OpenStackDataPlaneNodeSet :=
  ((Reconcile (allSucceed 5 [deployA]) (.found (edgeA ["a"] emptyStatus))).patched).getD
    (edgeA ["a"] emptyStatus)

/-- The node set after its tags were changed to ["b"] and a pass at the clock 6 ran with
the same outcomes. -/
def driftSecond : OpenStackDataPlaneNodeSet :=
  ((Reconcile (allSucceed 6 [deployA]) (.found (edgeA ["b"] driftFirst.Status))).patched).getD
    (edgeA ["b"] driftFirst.Status)

/-- A stored status with an entry in `ConfigMapHashes` and DNS results of an earlier
pass. -/
def staleStatus : OpenStackDataPlaneNodeSetStatus :=
  { emptyStatus with
    ConfigMapHashes := GoMap.empty.set "old-config" "hash-old"
    SecretHashes := GoMap.empty.set "old-secret" "hash-old"
    DNSClusterAddresses := ["192.168.122.80"]
    CtlplaneSearchDomain := "ctlplane.example.com" }

/-! ## Properties

### Sorting -/


section SortLemmas
variable {α : Type}

theorem sinkLeft_perm (cmp : α → α → Int) (x : α) (l : List α) :
    (sinkLeft cmp x l).Perm (x :: l) := by
  induction l with
  | nil => simp [sinkLeft]
  | cons y ys ih =>
    simp only [sinkLeft]
    split
    · exact (List.Perm.cons y ih).trans (List.Perm.swap x y ys)
    · exact List.Perm.refl _

theorem foldl_sinkLeft_perm (cmp : α → α → Int) (l acc : List α) :
    (l.foldl (fun sortedRev x => sinkLeft cmp x sortedRev) acc).Perm (l ++ acc) := by
  induction l generalizing acc with
  | nil => simp
  | cons x xs ih =>
    simp only [List.foldl_cons, List.cons_append]
    refine (ih _).trans ?_
    refine (List.Perm.append_left xs (sinkLeft_perm cmp x acc)).trans ?_
    exact List.perm_middle

theorem insertionSortCmpFunc_perm (cmp : α → α → Int) (l : List α) :
    (insertionSortCmpFunc cmp l).Perm l := by
  unfold insertionSortCmpFunc
  refine (List.reverse_perm _).trans ?_
  simpa using foldl_sinkLeft_perm cmp l []

theorem SortFunc_perm (pdq : (α → α → Int) → List α → List α) (cmp : α → α → Int)
    (hpdq : ∀ l, (pdq cmp l).Perm l) (l : List α) : (SortFunc pdq l cmp).Perm l := by
  unfold SortFunc
  split
  · exact insertionSortCmpFunc_perm cmp l
  · exact hpdq l

theorem perm_three {a b c : α} {l : List α} (h : l.Perm [a, b, c]) :
    l = [a, b, c] ∨ l = [a, c, b] ∨ l = [b, a, c] ∨ l = [b, c, a] ∨ l = [c, a, b] ∨
      l = [c, b, a] := by
  have := (List.mem_permutations'.2 h)
  simp [List.permutations', List.permutations'Aux] at this
  tauto

end SortLemmas

/-! ### The loop of `checkDeployment` -/


section Loop

theorem checkDeploymentStep_of_not_targets {name : String} {d : OpenStackDataPlaneDeployment}
    (h : targets name d = false) (st : CheckState) : checkDeploymentStep name st d = st := by
  unfold checkDeploymentStep
  unfold targets at h
  cases hz : Time.IsZero d.DeletionTimestamp <;> simp_all

theorem checkDeploymentStep_of_targets {name : String} {d : OpenStackDataPlaneDeployment}
    (h : targets name d = true) (st : CheckState) :
    checkDeploymentStep name st d =
      { deploymentExists := true
        isDeploymentReady := d.Status.Deployed
        err :=
          if IsError (Conditions.Get d.Status.Conditions ReadyCondition) then
            some "check deploymentStatuses for more details"
          else st.err
        Status :=
          { (if d.Status.Deployed then mergeDeployed name d st.Status else st.Status) with
            DeploymentStatuses :=
              (if d.Status.Deployed then mergeDeployed name d st.Status
               else st.Status).DeploymentStatuses.set d.Name (nodeSetConditionsOf name d) } } := by
  unfold checkDeploymentStep
  unfold targets at h
  simp only [Bool.and_eq_true] at h
  rw [if_neg (by simp [h.1]), if_pos h.2]

theorem foldl_step_filter (name : String) (l : List OpenStackDataPlaneDeployment)
    (st : CheckState) :
    l.foldl (checkDeploymentStep name) st =
      (l.filter (targets name)).foldl (checkDeploymentStep name) st := by
  induction l generalizing st with
  | nil => rfl
  | cons d ds ih =>
    cases h : targets name d
    · simp [List.filter_cons, h, checkDeploymentStep_of_not_targets h, ih]
    · simp [List.filter_cons, h, ih]

end Loop


section Flags

theorem foldl_flags_targeting (name : String) (l : List OpenStackDataPlaneDeployment)
    (hl : ∀ d ∈ l, targets name d = true) (st : CheckState) :
    (l.foldl (checkDeploymentStep name) st).isDeploymentReady =
        (match l.getLast? with
         | some d => d.Status.Deployed
         | none => st.isDeploymentReady) ∧
    (l.foldl (checkDeploymentStep name) st).deploymentExists =
        (st.deploymentExists || !l.isEmpty) := by
  induction l generalizing st with
  | nil => simp
  | cons d ds ih =>
    have hd : targets name d = true := hl d (List.mem_cons_self _ _)
    have hds : ∀ e ∈ ds, targets name e = true := fun e he => hl e (List.mem_cons_of_mem _ he)
    obtain ⟨h1, h2⟩ := ih hds (checkDeploymentStep name st d)
    rw [List.foldl_cons, h1, h2, checkDeploymentStep_of_targets hd]
    cases ds with
    | nil => simp
    | cons e es =>
      obtain ⟨x, hx⟩ : ∃ x, (e :: es).getLast? = some x :=
        ⟨_, List.getLast?_eq_getLast _ (List.cons_ne_nil e es)⟩
      simp [List.getLast?_cons_cons, hx]

theorem checkDeployment_ok (pdq : Pdq)
    (items : List OpenStackDataPlaneDeployment) (inst : OpenStackDataPlaneNodeSet) :
    checkDeployment pdq (.ok items) inst =
      ((SortFunc pdq items deploymentCmp).filter (targets inst.Name)).foldl
        (checkDeploymentStep inst.Name)
        { deploymentExists := false, isDeploymentReady := false, err := none,
          Status := inst.Status } := by
  simp only [checkDeployment]
  exact foldl_step_filter _ _ _

end Flags



section Projections

theorem step_ConfigMapHashes (name : String) (st : CheckState)
    (d : OpenStackDataPlaneDeployment) :
    (checkDeploymentStep name st d).Status.ConfigMapHashes =
      if targets name d && d.Status.Deployed then
        st.Status.ConfigMapHashes.mergeFrom d.Status.ConfigMapHashes
      else st.Status.ConfigMapHashes := by
  cases h : targets name d
  · simp [checkDeploymentStep_of_not_targets h]
  · rw [checkDeploymentStep_of_targets h]
    cases hd : d.Status.Deployed <;> simp [mergeDeployed]

theorem step_SecretHashes (name : String) (st : CheckState)
    (d : OpenStackDataPlaneDeployment) :
    (checkDeploymentStep name st d).Status.SecretHashes =
      if targets name d && d.Status.Deployed then
        st.Status.SecretHashes.mergeFrom d.Status.SecretHashes
      else st.Status.SecretHashes := by
  cases h : targets name d
  · simp [checkDeploymentStep_of_not_targets h]
  · rw [checkDeploymentStep_of_targets h]
    cases hd : d.Status.Deployed <;> simp [mergeDeployed]

theorem step_DeployedConfigHash (name : String) (st : CheckState)
    (d : OpenStackDataPlaneDeployment) :
    (checkDeploymentStep name st d).Status.DeployedConfigHash =
      if targets name d && d.Status.Deployed then d.Status.NodeSetHashes.index name
      else st.Status.DeployedConfigHash := by
  cases h : targets name d
  · simp [checkDeploymentStep_of_not_targets h]
  · rw [checkDeploymentStep_of_targets h]
    cases hd : d.Status.Deployed <;> simp [mergeDeployed]

theorem step_err (name : String) (st : CheckState) (d : OpenStackDataPlaneDeployment) :
    (checkDeploymentStep name st d).err =
      if targets name d && IsError (Conditions.Get d.Status.Conditions ReadyCondition) then
        some "check deploymentStatuses for more details"
      else st.err := by
  cases h : targets name d
  · simp [checkDeploymentStep_of_not_targets h]
  · rw [checkDeploymentStep_of_targets h]
    simp

theorem foldl_err (name : String) (l : List OpenStackDataPlaneDeployment) (st : CheckState) :
    (l.foldl (checkDeploymentStep name) st).err =
      if l.any (fun d =>
          targets name d && IsError (Conditions.Get d.Status.Conditions ReadyCondition)) then
        some "check deploymentStatuses for more details"
      else st.err := by
  induction l generalizing st with
  | nil => simp
  | cons d ds ih =>
    rw [List.foldl_cons, ih, step_err, List.any_cons]
    cases h1 : (targets name d && IsError (Conditions.Get d.Status.Conditions ReadyCondition))
      <;> cases h2 : ds.any (fun d =>
          targets name d && IsError (Conditions.Get d.Status.Conditions ReadyCondition))
      <;> simp

theorem foldl_frame (name : String) (l : List OpenStackDataPlaneDeployment)
    (hl : ∀ d ∈ l, (targets name d && d.Status.Deployed) = false) (st : CheckState) :
    (l.foldl (checkDeploymentStep name) st).Status.DeployedConfigHash =
        st.Status.DeployedConfigHash ∧
    (l.foldl (checkDeploymentStep name) st).Status.ConfigMapHashes =
        st.Status.ConfigMapHashes ∧
    (l.foldl (checkDeploymentStep name) st).Status.SecretHashes = st.Status.SecretHashes := by
  induction l generalizing st with
  | nil => simp
  | cons d ds ih =>
    have hd := hl d (List.mem_cons_self _ _)
    obtain ⟨h1, h2, h3⟩ :=
      ih (fun e he => hl e (List.mem_cons_of_mem _ he)) (checkDeploymentStep name st d)
    rw [List.foldl_cons, h1, h2, h3, step_DeployedConfigHash, step_ConfigMapHashes,
      step_SecretHashes, hd]
    simp

theorem foldl_DeployedConfigHash_source (name : String)
    (l : List OpenStackDataPlaneDeployment) (st : CheckState) :
    (l.foldl (checkDeploymentStep name) st).Status.DeployedConfigHash =
        st.Status.DeployedConfigHash ∨
    ∃ d ∈ l, targets name d = true ∧ d.Status.Deployed = true ∧
      (l.foldl (checkDeploymentStep name) st).Status.DeployedConfigHash =
        d.Status.NodeSetHashes.index name := by
  induction l generalizing st with
  | nil => simp
  | cons d ds ih =>
    rw [List.foldl_cons]
    rcases ih (checkDeploymentStep name st d) with h | ⟨e, he, ht, hdep, heq⟩
    · rw [h, step_DeployedConfigHash]
      cases htd : (targets name d && d.Status.Deployed)
      · left; simp
      · right
        simp only [Bool.and_eq_true] at htd
        exact ⟨d, List.mem_cons_self _ _, htd.1, htd.2, by simp⟩
    · exact Or.inr ⟨e, List.mem_cons_of_mem _ he, ht, hdep, heq⟩

end Projections



theorem deploymentCmp_of_get {a b : OpenStackDataPlaneDeployment} {ca cb : Condition}
    (ha : Conditions.Get a.Status.Conditions DeploymentReadyCondition = some ca)
    (hb : Conditions.Get b.Status.Conditions DeploymentReadyCondition = some cb) :
    deploymentCmp a b = if ca.LastTransitionTime < cb.LastTransitionTime then -1 else 1 := by
  simp [deploymentCmp, ha, hb]

theorem sort_three (pdq : Pdq) {d1 d2 d3 : OpenStackDataPlaneDeployment}
    {c1 c2 c3 : Condition} {items : List OpenStackDataPlaneDeployment}
    (hitems : items.Perm [d1, d2, d3])
    (hc1 : Conditions.Get d1.Status.Conditions DeploymentReadyCondition = some c1)
    (hc2 : Conditions.Get d2.Status.Conditions DeploymentReadyCondition = some c2)
    (hc3 : Conditions.Get d3.Status.Conditions DeploymentReadyCondition = some c3)
    (h12 : c1.LastTransitionTime < c2.LastTransitionTime)
    (h23 : c2.LastTransitionTime < c3.LastTransitionTime) :
    SortFunc pdq items deploymentCmp = [d1, d2, d3] := by
  have h13 : c1.LastTransitionTime < c3.LastTransitionTime := lt_trans h12 h23
  have e12 : deploymentCmp d1 d2 = -1 := by rw [deploymentCmp_of_get hc1 hc2, if_pos h12]
  have e13 : deploymentCmp d1 d3 = -1 := by rw [deploymentCmp_of_get hc1 hc3, if_pos h13]
  have e23 : deploymentCmp d2 d3 = -1 := by rw [deploymentCmp_of_get hc2 hc3, if_pos h23]
  have e21 : deploymentCmp d2 d1 = 1 := by
    rw [deploymentCmp_of_get hc2 hc1, if_neg (Nat.lt_asymm (by assumption))]
  have e31 : deploymentCmp d3 d1 = 1 := by
    rw [deploymentCmp_of_get hc3 hc1, if_neg (Nat.lt_asymm (by assumption))]
  have e32 : deploymentCmp d3 d2 = 1 := by
    rw [deploymentCmp_of_get hc3 hc2, if_neg (Nat.lt_asymm (by assumption))]
  rcases perm_three hitems with h | h | h | h | h | h <;> subst h <;>
    simp [SortFunc, insertionSortCmpFunc, sinkLeft, e12, e13, e23, e21, e31, e32]


/-! ### The condition ledger -/


namespace Conditions

theorem Get_setExisting_of_ne {now : Time} {c : Condition} {t : ConditionType}
    (h : c.Type_ ≠ t) (cs : Conditions) : Get (setExisting now c cs) t = Get cs t := by
  induction cs with
  | nil => rfl
  | cons e rest ih =>
    unfold setExisting
    by_cases he : e.Type_ = c.Type_
    · have het : e.Type_ ≠ t := he ▸ h
      rw [if_pos he]
      by_cases hs : e.Status = c.Status
      · simp [Get, List.find?_cons, hs, h, het]
      · simp [Get, List.find?_cons, hs, h, het]
    · rw [if_neg he]
      unfold Get at ih ⊢
      simp only [List.find?_cons]
      split
      · rfl
      · exact ih

theorem Get_Set_of_ne {now : Time} {c : Condition} {t : ConditionType}
    (h : c.Type_ ≠ t) (cs : Conditions) : Get (Set now cs c) t = Get cs t := by
  unfold Set
  split
  · exact Get_setExisting_of_ne h cs
  · simp [Get, List.find?_append, h]

theorem Get_setExisting_self {now : Time} {c e : Condition} {cs : Conditions}
    (h : Get cs c.Type_ = some e) :
    Get (setExisting now c cs) c.Type_ =
      some { c with LastTransitionTime :=
              if e.Status = c.Status then e.LastTransitionTime else now } := by
  induction cs with
  | nil => simp [Get] at h
  | cons x rest ih =>
    unfold setExisting
    by_cases hx : x.Type_ = c.Type_
    · have hxe : x = e := by simpa [Get, List.find?_cons, hx] using h
      subst hxe
      rw [if_pos hx]
      by_cases hs : x.Status = c.Status <;> simp [Get, List.find?_cons, hs]
    · rw [if_neg hx]
      have h2 : Get rest c.Type_ = some e := by simpa [Get, List.find?_cons, hx] using h
      have := ih h2
      simpa [Get, List.find?_cons, hx] using this

theorem Get_Set_self (now : Time) (c : Condition) {e : Condition} {cs : Conditions}
    (h : Get cs c.Type_ = some e) :
    Get (Set now cs c) c.Type_ =
      some { c with LastTransitionTime :=
              if e.Status = c.Status then e.LastTransitionTime else now } := by
  unfold Set
  rw [h]
  exact Get_setExisting_self h

theorem filter_setExisting (now : Time) (c : Condition) (cs : Conditions)
    (p : Condition → Bool) (hp : ∀ x : Condition, x.Type_ = c.Type_ → p x = false) :
    (setExisting now c cs).filter p = cs.filter p := by
  induction cs with
  | nil => rfl
  | cons e rest ih =>
    unfold setExisting
    by_cases he : e.Type_ = c.Type_
    · rw [if_pos he]
      by_cases hs : e.Status = c.Status
      · have h1 := hp { c with LastTransitionTime := e.LastTransitionTime } rfl
        simp [hs, List.filter_cons, hp e he, h1]
      · have h1 := hp { c with LastTransitionTime := now } rfl
        simp [hs, List.filter_cons, hp e he, h1]
    · rw [if_neg he]
      simp [List.filter_cons, ih]

theorem subConditions_Set_Ready (now : Time) (c : Condition) {e : Condition}
    {cs : Conditions}
    (hc : c.Type_ = ReadyCondition) (h : Get cs ReadyCondition = some e) :
    (Set now cs c).filter (fun x => !decide (x.Type_ = ReadyCondition)) =
      cs.filter (fun x => !decide (x.Type_ = ReadyCondition)) := by
  unfold Set
  rw [hc, h]
  exact filter_setExisting now c cs _ (by intro x hx; simp [hx, hc])

end Conditions


namespace Conditions

theorem firstOf_some {cs : Conditions} {st : ConditionStatus} {sev : Option Severity}
    {c : Condition} (h : firstOf cs st sev = some c) :
    c ∈ cs ∧ c.Type_ ≠ ReadyCondition ∧ c.Status = st := by
  unfold firstOf at h
  have hm := List.mem_of_find?_eq_some h
  have hp := List.find?_some h
  simp only [Bool.and_eq_true, Bool.not_eq_true', decide_eq_false_iff_not,
    decide_eq_true_eq] at hp
  exact ⟨hm, hp.1.1, hp.1.2⟩

theorem firstOf_none_sev {cs : Conditions} {st : ConditionStatus} {s : Severity}
    (h : firstOf cs st (some s) = none) {x : Condition} (hx : x ∈ cs)
    (ht : x.Type_ ≠ ReadyCondition) (hs : x.Status = st) : x.Severity ≠ s := by
  unfold firstOf at h
  have := List.find?_eq_none.1 h x hx
  simpa [ht, hs] using this

theorem firstOf_none {cs : Conditions} {st : ConditionStatus}
    (h : firstOf cs st none = none) {x : Condition} (hx : x ∈ cs)
    (ht : x.Type_ ≠ ReadyCondition) : x.Status ≠ st := by
  unfold firstOf at h
  have := List.find?_eq_none.1 h x hx
  simpa [ht] using this

theorem no_false_of_firstOf_none {cs : Conditions}
    (h1 : firstOf cs ConditionFalse (some SeverityError) = none)
    (h2 : firstOf cs ConditionFalse (some SeverityWarning) = none)
    (h3 : firstOf cs ConditionFalse (some SeverityInfo) = none)
    (h4 : firstOf cs ConditionFalse (some SeverityNone) = none)
    {x : Condition} (hx : x ∈ cs) (ht : x.Type_ ≠ ReadyCondition) :
    x.Status ≠ ConditionFalse := by
  intro hs
  have e1 := firstOf_none_sev h1 hx ht hs
  have e2 := firstOf_none_sev h2 hx ht hs
  have e3 := firstOf_none_sev h3 hx ht hs
  have e4 := firstOf_none_sev h4 hx ht hs
  cases hsev : x.Severity <;> simp_all

/-- What `mostInformative` picks. -/
theorem mostInformative_some {cs : Conditions} {c : Condition}
    (h : mostInformative cs = some c) :
    c ∈ cs ∧ c.Type_ ≠ ReadyCondition ∧
      (c.Status = ConditionFalse ∨
       (c.Status = ConditionUnknown ∧
          ∀ x ∈ cs, x.Type_ ≠ ReadyCondition → x.Status ≠ ConditionFalse) ∨
       (c.Status = ConditionTrue ∧
          ∀ x ∈ cs, x.Type_ ≠ ReadyCondition → x.Status = ConditionTrue)) := by
  unfold mostInformative at h
  cases h1 : firstOf cs ConditionFalse (some SeverityError) with
  | some a =>
    simp [h1] at h; subst h
    obtain ⟨hm, ht, hs⟩ := firstOf_some h1
    exact ⟨hm, ht, Or.inl hs⟩
  | none =>
  cases h2 : firstOf cs ConditionFalse (some SeverityWarning) with
  | some a =>
    simp [h1, h2] at h; subst h
    obtain ⟨hm, ht, hs⟩ := firstOf_some h2
    exact ⟨hm, ht, Or.inl hs⟩
  | none =>
  cases h3 : firstOf cs ConditionFalse (some SeverityInfo) with
  | some a =>
    simp [h1, h2, h3] at h; subst h
    obtain ⟨hm, ht, hs⟩ := firstOf_some h3
    exact ⟨hm, ht, Or.inl hs⟩
  | none =>
  cases h4 : firstOf cs ConditionFalse (some SeverityNone) with
  | some a =>
    simp [h1, h2, h3, h4] at h; subst h
    obtain ⟨hm, ht, hs⟩ := firstOf_some h4
    exact ⟨hm, ht, Or.inl hs⟩
  | none =>
  have hnf : ∀ x ∈ cs, x.Type_ ≠ ReadyCondition → x.Status ≠ ConditionFalse :=
    fun x hx ht => no_false_of_firstOf_none h1 h2 h3 h4 hx ht
  cases h5 : firstOf cs ConditionUnknown none with
  | some a =>
    simp [h1, h2, h3, h4, h5] at h; subst h
    obtain ⟨hm, ht, hs⟩ := firstOf_some h5
    exact ⟨hm, ht, Or.inr (Or.inl ⟨hs, hnf⟩)⟩
  | none =>
    simp [h1, h2, h3, h4, h5] at h
    obtain ⟨hm, ht, hs⟩ := firstOf_some h
    refine ⟨hm, ht, Or.inr (Or.inr ⟨hs, ?_⟩)⟩
    intro x hx hxt
    have hf := hnf x hx hxt
    have hu := firstOf_none h5 hx hxt
    cases hst : x.Status <;> simp_all

theorem mostInformative_none {cs : Conditions} (h : mostInformative cs = none)
    {x : Condition} (hx : x ∈ cs) : x.Type_ = ReadyCondition := by
  by_contra ht
  unfold mostInformative at h
  cases h1 : firstOf cs ConditionFalse (some SeverityError) <;>
    cases h2 : firstOf cs ConditionFalse (some SeverityWarning) <;>
    cases h3 : firstOf cs ConditionFalse (some SeverityInfo) <;>
    cases h4 : firstOf cs ConditionFalse (some SeverityNone) <;>
    cases h5 : firstOf cs ConditionUnknown none <;>
    cases h6 : firstOf cs ConditionTrue none <;>
    simp [h1, h2, h3, h4, h5, h6] at h
  have hf := no_false_of_firstOf_none h1 h2 h3 h4 hx ht
  have hu := firstOf_none h5 hx ht
  have htr := firstOf_none h6 hx ht
  cases hst : x.Status <;> simp_all

theorem mostInformative_unknown {cs : Conditions} {c x : Condition}
    (h : mostInformative cs = some c) (hx : x ∈ cs) (hxt : x.Type_ ≠ ReadyCondition)
    (hxs : x.Status = ConditionUnknown)
    (hnf : ∀ y ∈ cs, y.Type_ ≠ ReadyCondition → y.Status ≠ ConditionFalse) :
    c.Status = ConditionUnknown := by
  obtain ⟨hm, ht, hc | ⟨hc, _⟩ | ⟨_, hall⟩⟩ := mostInformative_some h
  · exact absurd hc (hnf c hm ht)
  · exact hc
  · have := hall x hx hxt
    rw [hxs] at this
    cases this

end Conditions


theorem restoreOne_Type (saved : Conditions) (cond : Condition) :
    (restoreOne saved cond).Type_ = cond.Type_ := by
  unfold restoreOne
  split
  · split <;> rfl
  · rfl

theorem restoreOne_Status (saved : Conditions) (cond : Condition) :
    (restoreOne saved cond).Status = cond.Status := by
  unfold restoreOne
  split
  · split <;> rfl
  · rfl

theorem Get_RestoreLastTransitionTimes (cs saved : Conditions) (t : ConditionType) :
    Conditions.Get (RestoreLastTransitionTimes cs saved) t =
      (Conditions.Get cs t).map (restoreOne saved) := by
  unfold RestoreLastTransitionTimes Conditions.Get
  rw [List.find?_map]
  congr 2
  funext c
  simp [restoreOne_Type]

theorem IsUnknown_of_Get {cs : Conditions} {t : ConditionType} {r : Condition}
    (h : Conditions.Get cs t = some r) (hu : r.Status = ConditionUnknown) :
    Conditions.IsUnknown cs t = true := by
  simp [Conditions.IsUnknown, h, hu]

theorem mem_sub_of_filter_eq {F R : Conditions}
    (h : F.filter (fun x => !decide (x.Type_ = ReadyCondition)) =
      R.filter (fun x => !decide (x.Type_ = ReadyCondition))) (x : Condition)
    (hx : x ∈ F) (ht : x.Type_ ≠ ReadyCondition) : x ∈ R := by
  have : x ∈ F.filter (fun x => !decide (x.Type_ = ReadyCondition)) :=
    List.mem_filter.2 ⟨hx, by simp [ht]⟩
  rw [h] at this
  exact (List.mem_filter.1 this).1

theorem deferredRollup_ready (now : Time) (saved : Conditions) {cs : Conditions}
    {r0 : Condition}
    (h : Conditions.Get cs ReadyCondition = some r0) (hu : r0.Status = ConditionUnknown) :
    ∃ r, Conditions.Get (deferredRollup now saved cs) ReadyCondition = some r ∧
      (r.Status = ConditionTrue ↔
        ∀ x ∈ deferredRollup now saved cs, x.Type_ ≠ ReadyCondition →
          x.Status = ConditionTrue) ∧
      ((∃ x ∈ deferredRollup now saved cs,
          x.Type_ ≠ ReadyCondition ∧ x.Status = ConditionUnknown) →
        (∀ x ∈ deferredRollup now saved cs, x.Type_ ≠ ReadyCondition →
          x.Status ≠ ConditionFalse) →
        r.Status = ConditionUnknown) := by
  have hr1 : Conditions.Get (RestoreLastTransitionTimes cs saved) ReadyCondition =
      some (restoreOne saved r0) := by
    rw [Get_RestoreLastTransitionTimes, h]
    rfl
  have hs1 : (restoreOne saved r0).Status = ConditionUnknown := by
    rw [restoreOne_Status, hu]
  generalize restoreOne saved r0 = r1 at hr1 hs1
  unfold deferredRollup
  generalize RestoreLastTransitionTimes cs saved = R at hr1
  simp only []
  by_cases hall : Conditions.AllSubConditionIsTrue R = true
  · rw [if_pos hall]
    have hallR : ∀ x ∈ R, x.Type_ ≠ ReadyCondition → x.Status = ConditionTrue := by
      intro x hx ht
      have := List.all_eq_true.1 hall x hx
      simpa [ht] using this
    have hget := Conditions.Get_Set_self now
      (TrueCondition ReadyCondition ⟨"dataplanev1.NodeSetReadyMessage", []⟩) hr1
    have hfil := Conditions.subConditions_Set_Ready now
      (TrueCondition ReadyCondition ⟨"dataplanev1.NodeSetReadyMessage", []⟩) rfl hr1
    refine ⟨_, hget, ?_, ?_⟩
    · constructor
      · intro _ x hx ht
        exact hallR x (mem_sub_of_filter_eq hfil x hx ht) ht
      · intro _
        rfl
    · rintro ⟨x, hx, ht, hxs⟩ _
      have := hallR x (mem_sub_of_filter_eq hfil x hx ht) ht
      rw [hxs] at this
      cases this
  · rw [if_neg hall, if_pos (IsUnknown_of_Get hr1 hs1)]
    have hex : ∃ y ∈ R, y.Type_ ≠ ReadyCondition ∧ y.Status ≠ ConditionTrue := by
      by_contra hne
      apply hall
      apply List.all_eq_true.2
      intro x hx
      by_cases ht : x.Type_ = ReadyCondition
      · simp [ht]
      · by_cases hst : x.Status = ConditionTrue
        · simp [hst]
        · exact absurd ⟨x, hx, ht, hst⟩ hne
    obtain ⟨y, hy, hyt, hys⟩ := hex
    cases hmi : Conditions.mostInformative R with
    | none => exact absurd (Conditions.mostInformative_none hmi hy) hyt
    | some c =>
      have hmirror : Conditions.Mirror R ReadyCondition =
          some { Type_ := ReadyCondition, Status := c.Status, Severity := c.Severity,
                 LastTransitionTime := 0, Reason := c.Reason, Message := c.Message } := by
        simp [Conditions.Mirror, hmi]
      rw [hmirror]
      simp only []
      have hget := Conditions.Get_Set_self now
        { Type_ := ReadyCondition, Status := c.Status, Severity := c.Severity,
          LastTransitionTime := 0, Reason := c.Reason, Message := c.Message } hr1
      have hfil := Conditions.subConditions_Set_Ready now
        { Type_ := ReadyCondition, Status := c.Status, Severity := c.Severity,
          LastTransitionTime := 0, Reason := c.Reason, Message := c.Message } rfl hr1
      have hfil' : R.filter (fun x => !decide (x.Type_ = ReadyCondition)) =
          (Conditions.Set now R
            { Type_ := ReadyCondition, Status := c.Status, Severity := c.Severity,
              LastTransitionTime := 0, Reason := c.Reason,
              Message := c.Message }).filter (fun x => !decide (x.Type_ = ReadyCondition)) :=
        hfil.symm
      have hcnt : c.Status ≠ ConditionTrue := by
        intro hct
        obtain ⟨_, _, hc | ⟨hc, _⟩ | ⟨_, hallc⟩⟩ := Conditions.mostInformative_some hmi
        · rw [hct] at hc; cases hc
        · rw [hct] at hc; cases hc
        · exact hys (hallc y hy hyt)
      refine ⟨_, hget, ?_, ?_⟩
      · constructor
        · intro hct
          exact absurd hct hcnt
        · intro hallF
          exact absurd (hallF y (mem_sub_of_filter_eq hfil' y hy hyt) hyt) hys
      · rintro ⟨x, hx, ht, hxs⟩ hnf
        show c.Status = ConditionUnknown
        exact Conditions.mostInformative_unknown hmi (mem_sub_of_filter_eq hfil x hx ht) ht hxs
          (fun z hz hzt => hnf z (mem_sub_of_filter_eq hfil' z hz hzt) hzt)

/-! ### The body of the pass -/


section BodyLedger

theorem Get_applyMark_of_ne {now : Time} {t t' : ConditionType} (h : t ≠ t')
    (cs : Conditions) (m : Option StageMark) :
    Conditions.Get (applyMark now cs t m) t' = Conditions.Get cs t' := by
  cases m with
  | none => rfl
  | some m => exact Conditions.Get_Set_of_ne h cs

theorem step_Conditions (name : String) (st : CheckState) (d : OpenStackDataPlaneDeployment) :
    (checkDeploymentStep name st d).Status.Conditions = st.Status.Conditions := by
  cases h : targets name d
  · rw [checkDeploymentStep_of_not_targets h]
  · rw [checkDeploymentStep_of_targets h]
    cases hd : d.Status.Deployed <;> simp [mergeDeployed]

theorem foldl_Conditions (name : String) (l : List OpenStackDataPlaneDeployment)
    (st : CheckState) :
    (l.foldl (checkDeploymentStep name) st).Status.Conditions = st.Status.Conditions := by
  induction l generalizing st with
  | nil => rfl
  | cons d ds ih => rw [List.foldl_cons, ih, step_Conditions]

theorem checkDeployment_Conditions (pdq : Pdq)
    (listed : Except String (List OpenStackDataPlaneDeployment))
    (inst : OpenStackDataPlaneNodeSet) :
    (checkDeployment pdq listed inst).Status.Conditions = inst.Status.Conditions := by
  cases listed with
  | error e => rfl
  | ok items => exact foldl_Conditions _ _ _

end BodyLedger


section Stages

variable {c : Collaborators} {inst0 inst : OpenStackDataPlaneNodeSet}

theorem BodyUpdate.mark (h : BodyUpdate c inst0 inst) (t : ConditionType)
    (ht : t ≠ ReadyCondition) (m : Option StageMark) :
    BodyUpdate c inst0 (withConditions inst (applyMark c.now inst.Status.Conditions t m)) := by
  cases m with
  | none => exact h
  | some m => exact BodyUpdate.setCondition _ ht h

theorem BodyUpdate_markSetupComplete (h : BodyUpdate c inst0 inst) :
    BodyUpdate c inst0
      (withConditions inst (markSetupComplete c.now inst.Status.Conditions)) := by
  have h1 := BodyUpdate.setCondition
    (TrueCondition SetupReadyCondition ⟨"condition.ReadyMessage", []⟩)
    (by simp [TrueCondition]) h
  unfold Dataplane.markSetupComplete
  simp only []
  split
  · exact BodyUpdate.setCondition
      (FalseCondition DeploymentReadyCondition NotRequestedReason SeverityInfo
        ⟨"condition.DeploymentReadyInitMessage", []⟩) (by simp [FalseCondition]) h1
  · exact h1

theorem BodyUpdate_stageDeployment (calls : List Call) (h : BodyUpdate c inst0 inst) :
    BodyUpdate c inst0 (stageDeployment c inst calls).inst := by
  have h3 := BodyUpdate.aggregated (BodyUpdate_markSetupComplete h)
  unfold stageDeployment
  simp only []
  split
  · refine BodyUpdate.setCondition (FalseCondition _ _ _ _) ?_ h3; simp [FalseCondition]
  · split
    · refine BodyUpdate.setCondition (TrueCondition _ _) ?_ h3; simp [TrueCondition]
    · split
      · refine BodyUpdate.setCondition (FalseCondition _ _ _ _) ?_ h3; simp [FalseCondition]
      · refine BodyUpdate.setCondition (FalseCondition _ _ _ _) ?_ h3; simp [FalseCondition]

theorem BodyUpdate_stageInventory (calls : List Call) (h : BodyUpdate c inst0 inst) :
    BodyUpdate c inst0 (stageInventory c inst calls).inst := by
  unfold stageInventory
  split
  · exact h
  · simp only []
    split
    · refine BodyUpdate.setCondition (FalseCondition _ _ _ _) ?_ h; simp [FalseCondition]
    · exact BodyUpdate_stageDeployment _ h

theorem BodyUpdate_stageBaremetal (calls : List Call) (h : BodyUpdate c inst0 inst) :
    BodyUpdate c inst0 (stageBaremetal c inst calls).inst := by
  unfold stageBaremetal
  split
  · have h1 := BodyUpdate.setCondition
      (UnknownCondition NodeSetBareMetalProvisionReadyCondition InitReason ⟨InitReason, []⟩)
      (by simp [UnknownCondition]) h
    have h2 := BodyUpdate.mark h1 NodeSetBareMetalProvisionReadyCondition (by simp)
      c.DeployBaremetalSetMark
    simp only []
    split
    · exact h2
    · exact BodyUpdate_stageInventory _ h2
  · exact BodyUpdate_stageInventory _ h

theorem BodyUpdate_stageServiceAccount (calls : List Call) (h : BodyUpdate c inst0 inst) :
    BodyUpdate c inst0 (stageServiceAccount c inst calls).inst := by
  unfold stageServiceAccount
  simp only []
  split
  · refine BodyUpdate.setCondition (FalseCondition _ _ _ _) ?_ h; simp [FalseCondition]
  · split
    · refine BodyUpdate.setCondition (FalseCondition _ _ _ _) ?_ h; simp [FalseCondition]
    · split
      · refine BodyUpdate.setCondition (FalseCondition _ _ _ _) ?_ h; simp [FalseCondition]
      · split
        · refine BodyUpdate.setCondition (FalseCondition _ _ _ _) ?_ h; simp [FalseCondition]
        · exact BodyUpdate_stageBaremetal _
            (BodyUpdate.setCondition (TrueCondition _ _) (by simp [TrueCondition]) h)

theorem BodyUpdate_stageVerifySecret (calls : List Call) (h : BodyUpdate c inst0 inst) :
    BodyUpdate c inst0 (stageVerifySecret c inst calls).inst := by
  unfold stageVerifySecret
  simp only []
  split
  · split
    · refine BodyUpdate.setCondition (FalseCondition _ _ _ _) ?_ h; simp [FalseCondition]
    · refine BodyUpdate.setCondition (FalseCondition _ _ _ _) ?_ h; simp [FalseCondition]
  · exact BodyUpdate_stageServiceAccount _
      (BodyUpdate.setCondition (TrueCondition _ _) (by simp [TrueCondition]) h)

theorem BodyUpdate_stageDNSData (isReady : Bool) (calls : List Call)
    (h : BodyUpdate c inst0 inst) :
    BodyUpdate c inst0 (stageDNSData c isReady inst calls).inst := by
  have h1 := BodyUpdate.mark h NodeSetDNSDataReadyCondition (by simp) c.EnsureDNSDataMark
  unfold stageDNSData
  simp only []
  split
  · exact h1
  · exact BodyUpdate_stageVerifySecret _ (BodyUpdate.dnsData h1)

theorem BodyUpdate_stageIPSets (calls : List Call) (h : BodyUpdate c inst0 inst) :
    BodyUpdate c inst0 (stageIPSets c inst calls).inst := by
  have h1 := BodyUpdate.mark h NodeSetIPReservationReadyCondition (by simp) c.EnsureIPSetsMark
  unfold stageIPSets
  simp only []
  split
  · exact h1
  · exact BodyUpdate_stageDNSData _ _ h1

theorem BodyUpdate_stageServices (calls : List Call) (h : BodyUpdate c inst0 inst) :
    BodyUpdate c inst0 (stageServices c inst calls).inst := by
  unfold stageServices
  simp only []
  split
  · refine BodyUpdate.setCondition (FalseCondition _ _ _ _) ?_ h; simp [FalseCondition]
  · exact BodyUpdate_stageIPSets _ h

theorem BodyUpdate_reconcileBody (c : Collaborators) (inst : OpenStackDataPlaneNodeSet) :
    BodyUpdate c inst (reconcileBody c inst).inst := by
  have h1 := BodyUpdate.setCondition
    (FalseCondition SetupReadyCondition RequestedReason SeverityInfo
      ⟨"condition.ReadyInitMessage", []⟩) (by simp [FalseCondition]) (BodyUpdate.refl inst : BodyUpdate c inst inst)
  unfold reconcileBody
  simp only []
  split
  · exact h1
  · split
    · exact BodyUpdate_stageServices _ (BodyUpdate.configHash _ h1)
    · exact BodyUpdate_stageServices _ h1

end Stages

theorem BodyUpdate.Get_Ready {c : Collaborators} {inst0 inst : OpenStackDataPlaneNodeSet}
    (h : BodyUpdate c inst0 inst) :
    Conditions.Get inst.Status.Conditions ReadyCondition =
      Conditions.Get inst0.Status.Conditions ReadyCondition := by
  induction h with
  | refl => rfl
  | setCondition x hx _ ih =>
    rw [← ih]
    exact Conditions.Get_Set_of_ne hx _
  | dnsData _ ih => exact ih
  | configHash _ _ ih => exact ih
  | aggregated _ ih =>
    rw [← ih]
    exact congrArg (fun cs => Conditions.Get cs ReadyCondition) (checkDeployment_Conditions _ _ _)


theorem Get_Ready_foldl_Set (now : Time) (cl cs : Conditions)
    (hcl : ∀ x ∈ cl, x.Type_ ≠ ReadyCondition) :
    Conditions.Get (cl.foldl (Conditions.Set now) cs) ReadyCondition =
      Conditions.Get cs ReadyCondition := by
  induction cl generalizing cs with
  | nil => rfl
  | cons x xs ih =>
    rw [List.foldl_cons, ih _ (fun y hy => hcl y (List.mem_cons_of_mem _ hy))]
    exact Conditions.Get_Set_of_ne (hcl x (List.mem_cons_self _ _)) cs

theorem initialConditionList_ne_Ready (inst : OpenStackDataPlaneNodeSet) :
    ∀ x ∈ initialConditionList inst, x.Type_ ≠ ReadyCondition := by
  unfold initialConditionList
  simp only []
  split <;> simp [UnknownCondition]

theorem Get_Ready_InitConditions (now : Time) (inst : OpenStackDataPlaneNodeSet) :
    ∃ r0, Conditions.Get (InitConditions now inst).Status.Conditions ReadyCondition = some r0 ∧
      r0.Status = ConditionUnknown := by
  have h : Conditions.Get (InitConditions now inst).Status.Conditions ReadyCondition =
      some { Type_ := ReadyCondition, Status := ConditionUnknown, Severity := SeverityNone,
             LastTransitionTime := now, Reason := InitReason,
             Message := ⟨"condition.ReadyInitMessage", []⟩ } := by
    show Conditions.Get (Conditions.Init now [] (initialConditionList inst)) ReadyCondition = _
    unfold Conditions.Init
    rw [Get_Ready_foldl_Set now _ _ (initialConditionList_ne_Ready inst)]
    simp [Conditions.Set, Conditions.Get, UnknownCondition]
  exact ⟨_, h, rfl⟩

/-! ### The watch correlator -/

section Watch

theorem mem_appendConfigMaps (n : String) (varsFrom : List AnsibleVarsFromSource)
    (acc : List String) :
    n ∈ appendConfigMaps acc varsFrom ↔
      n ∈ acc ∨ ∃ ref ∈ varsFrom, ref.ConfigMapRef = some n := by
  unfold appendConfigMaps
  induction varsFrom generalizing acc with
  | nil => simp
  | cons r rs ih =>
    rw [List.foldl_cons, ih]
    cases hr : r.ConfigMapRef with
    | none => simp [hr]
    | some m =>
      simp only [hr, List.mem_append, List.mem_singleton, List.mem_cons, exists_eq_or_imp,
        Option.some.injEq, List.not_mem_nil, or_false]
      constructor
      · rintro ((h | h) | h)
        · exact Or.inl h
        · exact Or.inr (Or.inl h.symm)
        · exact Or.inr (Or.inr h)
      · rintro (h | h | h)
        · exact Or.inl (Or.inl h)
        · exact Or.inl (Or.inr h.symm)
        · exact Or.inr h

theorem mem_appendSecrets (n : String) (varsFrom : List AnsibleVarsFromSource)
    (acc : List String) :
    n ∈ appendSecrets acc varsFrom ↔
      n ∈ acc ∨ ∃ ref ∈ varsFrom, ref.SecretRef = some n := by
  unfold appendSecrets
  induction varsFrom generalizing acc with
  | nil => simp
  | cons r rs ih =>
    rw [List.foldl_cons, ih]
    cases hr : r.SecretRef with
    | none => simp [hr]
    | some m =>
      simp only [hr, List.mem_append, List.mem_singleton, List.mem_cons, exists_eq_or_imp,
        Option.some.injEq, List.not_mem_nil, or_false]
      constructor
      · rintro ((h | h) | h)
        · exact Or.inl h
        · exact Or.inr (Or.inl h.symm)
        · exact Or.inr (Or.inr h)
      · rintro (h | h | h)
        · exact Or.inl (Or.inl h)
        · exact Or.inl (Or.inr h.symm)
        · exact Or.inr h

theorem mem_foldl_nodes (n : String) (append : List String → List AnsibleVarsFromSource → List String)
    (P : AnsibleVarsFromSource → Prop)
    (happend : ∀ acc varsFrom, n ∈ append acc varsFrom ↔ n ∈ acc ∨ ∃ ref ∈ varsFrom, P ref)
    (nodes : List (String × NodeSection)) (acc : List String) :
    n ∈ nodes.foldl (fun acc node => append acc node.2.Ansible.AnsibleVarsFrom) acc ↔
      n ∈ acc ∨ ∃ node ∈ nodes, ∃ ref ∈ node.2.Ansible.AnsibleVarsFrom, P ref := by
  induction nodes generalizing acc with
  | nil => simp
  | cons x xs ih =>
    rw [List.foldl_cons, ih, happend]
    simp only [List.mem_cons, exists_eq_or_imp]
    constructor
    · rintro ((h | h) | h)
      · exact Or.inl h
      · exact Or.inr (Or.inl h)
      · exact Or.inr (Or.inr h)
    · rintro (h | h | h)
      · exact Or.inl (Or.inl h)
      · exact Or.inl (Or.inr h)
      · exact Or.inr h

theorem mem_configMapsIndex (nodeSet : OpenStackDataPlaneNodeSet) (n : String) :
    n ∈ configMapsIndex nodeSet ↔ referencesConfigMap nodeSet n := by
  unfold configMapsIndex referencesConfigMap
  rw [mem_foldl_nodes n appendConfigMaps (fun ref => ref.ConfigMapRef = some n)
    (fun acc varsFrom => mem_appendConfigMaps n varsFrom acc), mem_appendConfigMaps]
  simp

theorem mem_secretsIndex (nodeSet : OpenStackDataPlaneNodeSet) (n : String) (hn : n ≠ "") :
    n ∈ secretsIndex nodeSet ↔ referencesSecret nodeSet n := by
  unfold secretsIndex referencesSecret
  simp only []
  rw [mem_foldl_nodes n appendSecrets (fun ref => ref.SecretRef = some n)
    (fun acc varsFrom => mem_appendSecrets n varsFrom acc), mem_appendSecrets]
  by_cases hk : nodeSet.Spec.NodeTemplate.AnsibleSSHPrivateKeySecret = ""
  · have hne : nodeSet.Spec.NodeTemplate.AnsibleSSHPrivateKeySecret ≠ n := by
      rw [hk]; exact fun h => hn h.symm
    simp only [hk, ne_eq, not_true_eq_false, if_false, List.not_mem_nil, false_or]
    constructor
    · intro h
      exact Or.inr h
    · rintro (h | h)
      · exact absurd h.symm hn
      · exact h
  · simp only [hk, ne_eq, not_false_eq_true, if_true, List.nil_append, List.mem_singleton]
    constructor
    · rintro ((h | h) | h)
      · exact Or.inl h.symm
      · exact Or.inr (Or.inl h)
      · exact Or.inr (Or.inr h)
    · rintro (h | h | h)
      · exact Or.inl (Or.inl h.symm)
      · exact Or.inl (Or.inr h)
      · exact Or.inr h

/-- The requests for a store filtered on the namespace and a property of the node sets. -/
theorem requests_of_filter (store : List OpenStackDataPlaneNodeSet) (ns : String)
    (p : OpenStackDataPlaneNodeSet → Bool)
    (hstore : (store.map fun s => (s.Namespace, s.Name)).Nodup)
    (s : OpenStackDataPlaneNodeSet) (hs : s ∈ store) (hns : s.Namespace = ns) :
    (p s = true →
      ((store.filter fun x => decide (x.Namespace = ns) && p x).map
        fun x => (⟨ns, x.Name⟩ : Request)).count ⟨ns, s.Name⟩ = 1) ∧
    (p s = false →
      (⟨ns, s.Name⟩ : Request) ∉ (store.filter fun x => decide (x.Namespace = ns) && p x).map
        fun x => (⟨ns, x.Name⟩ : Request)) := by
  have hinj : ∀ a ∈ store, ∀ b ∈ store, a.Namespace = b.Namespace → a.Name = b.Name → a = b := by
    intro a ha b hb h1 h2
    exact List.inj_on_of_nodup_map hstore ha hb (by simp [h1, h2])
  have hmem : (⟨ns, s.Name⟩ : Request) ∈
      (store.filter fun x => decide (x.Namespace = ns) && p x).map
        (fun x => (⟨ns, x.Name⟩ : Request)) ↔ p s = true := by
    simp only [List.mem_map, List.mem_filter, Bool.and_eq_true, decide_eq_true_eq,
      Request.mk.injEq, true_and]
    constructor
    · rintro ⟨x, ⟨hx, hxns, hpx⟩, hname⟩
      have := hinj x hx s hs (hxns.trans hns.symm) hname
      rw [← this]; exact hpx
    · intro hp
      exact ⟨s, ⟨hs, hns, hp⟩, rfl⟩
  constructor
  · intro hp
    apply List.count_eq_one_of_mem _ (hmem.2 hp)
    have hsub : ((store.filter fun x => decide (x.Namespace = ns) && p x).map
        fun s => (s.Namespace, s.Name)).Nodup :=
      (List.Nodup.sublist ((List.filter_sublist store).map _) hstore)
    have hcongr : (store.filter fun x => decide (x.Namespace = ns) && p x).map
        (fun x => (⟨ns, x.Name⟩ : Request)) =
        ((store.filter fun x => decide (x.Namespace = ns) && p x).map
          fun s => (s.Namespace, s.Name)).map (fun q => (⟨q.1, q.2⟩ : Request)) := by
      rw [List.map_map]
      apply List.map_congr_left
      intro x hx
      have := (List.mem_filter.1 hx).2
      simp only [Bool.and_eq_true, decide_eq_true_eq] at this
      simp [this.1]
    rw [hcongr]
    exact hsub.map (fun a b h => by cases a; cases b; simp_all)
  · intro hp hin
    rw [hmem.1 hin] at hp
    cases hp

end Watch

theorem foldl_append_singleton {α β : Type} (f : α → β) (l : List α) (init : List β) :
    l.foldl (fun acc x => acc ++ [f x]) init = init ++ l.map f := by
  induction l generalizing init with
  | nil => simp
  | cons x xs ih => simp [List.foldl_cons, ih]

/-! ### The aggregation as a merge -/

namespace GoMap

variable {α : Type}

theorem ext_get {m1 m2 : GoMap α} (h : ∀ k, m1.get k = m2.get k) : m1 = m2 := by
  cases m1; cases m2
  simp only [mk.injEq]
  funext k
  exact h k

theorem mergeFrom_assoc (a b c : GoMap α) :
    (a.mergeFrom b).mergeFrom c = a.mergeFrom (b.mergeFrom c) := by
  apply ext_get
  intro k
  simp only [mergeFrom]
  cases c.get k <;> rfl

theorem mergeFrom_mergeFrom_self (a g : GoMap α) :
    (a.mergeFrom g).mergeFrom g = a.mergeFrom g := by
  apply ext_get
  intro k
  simp only [mergeFrom]
  cases g.get k <;> rfl

theorem mergeFrom_empty (a : GoMap α) : a.mergeFrom GoMap.empty = a := by
  apply ext_get
  intro k
  rfl

theorem set_eq_mergeFrom (a : GoMap α) (k : String) (v : α) :
    a.set k v = a.mergeFrom (GoMap.empty.set k v) := by
  apply ext_get
  intro k'
  simp only [set, mergeFrom, empty]
  split <;> rfl

end GoMap

section Shape

/-- What a run of the loop adds to a status: the entries merged into the two hash maps
and into the deployment statuses, and the deployed hash it assigns, if any. -/
theorem step_shape (name : String) (d : OpenStackDataPlaneDeployment) :
    ∃ (G S : GoMap String) (H : GoMap Conditions) (o : Option String),
      ∀ st : CheckState, (checkDeploymentStep name st d).Status =
        { st.Status with
          ConfigMapHashes := st.Status.ConfigMapHashes.mergeFrom G
          SecretHashes := st.Status.SecretHashes.mergeFrom S
          DeployedConfigHash := o.getD st.Status.DeployedConfigHash
          DeploymentStatuses := st.Status.DeploymentStatuses.mergeFrom H } := by
  cases ht : targets name d
  · refine ⟨GoMap.empty, GoMap.empty, GoMap.empty, none, fun st => ?_⟩
    rw [checkDeploymentStep_of_not_targets ht]
    simp [GoMap.mergeFrom_empty]
  · cases hd : d.Status.Deployed
    · refine ⟨GoMap.empty, GoMap.empty,
        GoMap.empty.set d.Name (nodeSetConditionsOf name d), none, fun st => ?_⟩
      rw [checkDeploymentStep_of_targets ht]
      simp [hd, GoMap.mergeFrom_empty, ← GoMap.set_eq_mergeFrom]
    · refine ⟨d.Status.ConfigMapHashes, d.Status.SecretHashes,
        GoMap.empty.set d.Name (nodeSetConditionsOf name d),
        some (d.Status.NodeSetHashes.index name), fun st => ?_⟩
      rw [checkDeploymentStep_of_targets ht]
      simp [hd, mergeDeployed, ← GoMap.set_eq_mergeFrom]

theorem foldl_shape (name : String) (l : List OpenStackDataPlaneDeployment) :
    ∃ (G S : GoMap String) (H : GoMap Conditions) (o : Option String),
      ∀ st : CheckState, (l.foldl (checkDeploymentStep name) st).Status =
        { st.Status with
          ConfigMapHashes := st.Status.ConfigMapHashes.mergeFrom G
          SecretHashes := st.Status.SecretHashes.mergeFrom S
          DeployedConfigHash := o.getD st.Status.DeployedConfigHash
          DeploymentStatuses := st.Status.DeploymentStatuses.mergeFrom H } := by
  induction l with
  | nil =>
    refine ⟨GoMap.empty, GoMap.empty, GoMap.empty, none, fun st => ?_⟩
    simp [GoMap.mergeFrom_empty]
  | cons d ds ih =>
    obtain ⟨G1, S1, H1, o1, h1⟩ := step_shape name d
    obtain ⟨G2, S2, H2, o2, h2⟩ := ih
    refine ⟨G1.mergeFrom G2, S1.mergeFrom S2, H1.mergeFrom H2, o2.orElse (fun _ => o1),
      fun st => ?_⟩
    rw [List.foldl_cons, h2, h1]
    cases o2 <;> simp [GoMap.mergeFrom_assoc]

theorem foldl_flags_congr (name : String) (l : List OpenStackDataPlaneDeployment)
    (st st' : CheckState) (h1 : st.deploymentExists = st'.deploymentExists)
    (h2 : st.isDeploymentReady = st'.isDeploymentReady) (h3 : st.err = st'.err) :
    (l.foldl (checkDeploymentStep name) st).deploymentExists =
        (l.foldl (checkDeploymentStep name) st').deploymentExists ∧
    (l.foldl (checkDeploymentStep name) st).isDeploymentReady =
        (l.foldl (checkDeploymentStep name) st').isDeploymentReady ∧
    (l.foldl (checkDeploymentStep name) st).err =
        (l.foldl (checkDeploymentStep name) st').err := by
  induction l generalizing st st' with
  | nil => exact ⟨h1, h2, h3⟩
  | cons d ds ih =>
    rw [List.foldl_cons, List.foldl_cons]
    cases ht : targets name d
    · rw [checkDeploymentStep_of_not_targets ht, checkDeploymentStep_of_not_targets ht]
      exact ih st st' h1 h2 h3
    · apply ih
      · rw [checkDeploymentStep_of_targets ht, checkDeploymentStep_of_targets ht]
      · rw [checkDeploymentStep_of_targets ht, checkDeploymentStep_of_targets ht]
      · rw [checkDeploymentStep_of_targets ht, checkDeploymentStep_of_targets ht]
        simp [h3]

end Shape

/-! ### The exits of the body -/

section Exits

variable (c : Collaborators) (inst : OpenStackDataPlaneNodeSet) (h : String)

theorem hashed_Spec : (hashed c inst h).Spec = inst.Spec := by
  unfold hashed; split <;> rfl

theorem hashed_Name : (hashed c inst h).Name = inst.Name := by
  unfold hashed; split <;> rfl

theorem hashed_Namespace : (hashed c inst h).Namespace = inst.Namespace := by
  unfold hashed; split <;> rfl

theorem hashed_DeletionTimestamp :
    (hashed c inst h).DeletionTimestamp = inst.DeletionTimestamp := by
  unfold hashed; split <;> rfl

theorem hashed_Deployed : (hashed c inst h).Status.Deployed = inst.Status.Deployed := by
  unfold hashed; split <;> rfl

theorem accountReady_Spec : (accountReady c inst h).Spec = inst.Spec := by
  simp only [accountReady, inputVerified, dnsStored, dnsMarked, ipSetsMarked, withConditions,
    withDNSData, hashed_Spec]

theorem accountReady_Name : (accountReady c inst h).Name = inst.Name := by
  simp only [accountReady, inputVerified, dnsStored, dnsMarked, ipSetsMarked, withConditions,
    withDNSData, hashed_Name]

theorem accountReady_Namespace : (accountReady c inst h).Namespace = inst.Namespace := by
  simp only [accountReady, inputVerified, dnsStored, dnsMarked, ipSetsMarked, withConditions,
    withDNSData, hashed_Namespace]

theorem accountReady_DeletionTimestamp :
    (accountReady c inst h).DeletionTimestamp = inst.DeletionTimestamp := by
  simp only [accountReady, inputVerified, dnsStored, dnsMarked, ipSetsMarked, withConditions,
    withDNSData, hashed_DeletionTimestamp]

theorem accountReady_Deployed :
    (accountReady c inst h).Status.Deployed = inst.Status.Deployed := by
  simp only [accountReady, inputVerified, dnsStored, dnsMarked, ipSetsMarked, withConditions,
    withDNSData, hashed_Deployed]

theorem provisioned_Spec : (provisioned c inst h).Spec = inst.Spec := by
  unfold provisioned; split
  · exact accountReady_Spec c inst h
  · exact accountReady_Spec c inst h

theorem provisioned_Name : (provisioned c inst h).Name = inst.Name := by
  unfold provisioned; split
  · exact accountReady_Name c inst h
  · exact accountReady_Name c inst h

theorem provisioned_Namespace : (provisioned c inst h).Namespace = inst.Namespace := by
  unfold provisioned; split
  · exact accountReady_Namespace c inst h
  · exact accountReady_Namespace c inst h

theorem provisioned_DeletionTimestamp :
    (provisioned c inst h).DeletionTimestamp = inst.DeletionTimestamp := by
  unfold provisioned; split
  · exact accountReady_DeletionTimestamp c inst h
  · exact accountReady_DeletionTimestamp c inst h

theorem provisioned_Deployed :
    (provisioned c inst h).Status.Deployed = inst.Status.Deployed := by
  unfold provisioned; split
  · exact accountReady_Deployed c inst h
  · exact accountReady_Deployed c inst h

theorem secretKeys_congr {a b : OpenStackDataPlaneNodeSet} (hs : a.Spec = b.Spec) :
    secretKeys a = secretKeys b := by
  unfold secretKeys; rw [hs]

/-- The end of the body from `checkDeployment` on is one of the four last exits. -/
theorem halt_stageDeployment (hp : ReachesDeployment c inst h) :
    ∃ x pe, Halt c inst x pe ∧
      stageDeployment c (provisioned c inst h)
        (callsToGuard inst ++ [Call.GenerateNodeSetInventory]) = pe := by
  have hcalls : callsToGuard inst ++ [Call.GenerateNodeSetInventory] ++ [Call.checkDeployment] =
      callsToGuard inst ++ [Call.GenerateNodeSetInventory, Call.checkDeployment] := by simp
  cases he : (aggregation c inst h).err with
  | some err =>
    refine ⟨_, _, Halt.aggregationFailed h err hp he, ?_⟩
    have he1 := he
    unfold aggregation setupComplete at he1
    simp only [stageDeployment, he1, hcalls]
    rfl
  | none =>
    have he1 := he
    unfold aggregation setupComplete at he1
    cases hr : (aggregation c inst h).isDeploymentReady with
    | true =>
      refine ⟨_, _, Halt.deploymentReady h hp he hr, ?_⟩
      have hr1 := hr
      unfold aggregation setupComplete at hr1
      simp only [stageDeployment, he1, hr1, hcalls, if_true]
      rfl
    | false =>
      have hr1 := hr
      unfold aggregation setupComplete at hr1
      cases hx : (aggregation c inst h).deploymentExists with
      | true =>
        refine ⟨_, _, Halt.deploymentRunning h hp he hr hx, ?_⟩
        have hx1 := hx
        unfold aggregation setupComplete at hx1
        simp only [stageDeployment, he1, hr1, hx1, hcalls, if_true]
        rfl
      | false =>
        refine ⟨_, _, Halt.deploymentNotStarted h hp he hr hx, ?_⟩
        have hx1 := hx
        unfold aggregation setupComplete at hx1
        simp only [stageDeployment, he1, hr1, hx1, hcalls]
        rfl

theorem halt_stageInventory (hp : ReachesGuard c inst h) :
    ∃ x pe, Halt c inst x pe ∧
      stageInventory c (provisioned c inst h) (callsToGuard inst) = pe := by
  unfold stageInventory
  rw [provisioned_Deployed, provisioned_DeletionTimestamp, provisioned_Name]
  cases hg : (inst.Status.Deployed && Time.IsZero inst.DeletionTimestamp) with
  | true => exact ⟨_, _, Halt.alreadyDeployed h hp hg, by simp⟩
  | false =>
    cases he : c.GenerateNodeSetInventory with
    | some err => exact ⟨_, _, Halt.inventoryFailed h err hp hg he, by simp⟩
    | none =>
      obtain ⟨x, pe, hx, hpe⟩ := halt_stageDeployment c inst h ⟨hp, hg, he⟩
      exact ⟨x, pe, hx, by simpa using hpe⟩

theorem halt_stageBaremetal (hp : ReachesBaremetal c inst h) :
    ∃ x pe, Halt c inst x pe ∧
      stageBaremetal c (accountReady c inst h)
        (callsToSecret inst ++
          [Call.ServiceAccountCreateOrPatch, Call.RoleBindingCreateOrPatch]) = pe := by
  unfold stageBaremetal
  rw [accountReady_Spec]
  cases hpre : inst.Spec.PreProvisioned with
  | true =>
    have hprov : provisioned c inst h = accountReady c inst h := by simp [provisioned, hpre]
    have hcalls : callsToGuard inst = callsToSecret inst ++
        [Call.ServiceAccountCreateOrPatch, Call.RoleBindingCreateOrPatch] := by
      simp [callsToGuard, hpre]
    obtain ⟨x, pe, hx, hpe⟩ := halt_stageInventory c inst h ⟨hp, Or.inl hpre⟩
    rw [hprov, hcalls] at hpe
    exact ⟨x, pe, hx, by simpa using hpe⟩
  | false =>
    have hprov : provisioned c inst h = baremetalMarked c inst h := by simp [provisioned, hpre]
    have hcalls : callsToGuard inst = callsToSecret inst ++
        [Call.ServiceAccountCreateOrPatch, Call.RoleBindingCreateOrPatch,
          Call.DeployBaremetalSet] := by
      simp [callsToGuard, hpre]
    by_cases hb : c.DeployBaremetalSetErr ≠ none ∨ c.DeployBaremetalSetReady = false
    · refine ⟨_, _, Halt.baremetalNotReady h hp hpre hb, ?_⟩
      have hcond : (c.DeployBaremetalSetErr.isSome || !c.DeployBaremetalSetReady) = true := by
        rcases hb with hb | hb
        · cases he : c.DeployBaremetalSetErr with
          | none => exact absurd he hb
          | some e => simp
        · simp [hb]
      simp only [Bool.not_false, if_true, hcond, hcalls, List.append_assoc, List.cons_append,
        List.nil_append]
      rfl
    · have hb1 : c.DeployBaremetalSetErr = none ∧ c.DeployBaremetalSetReady = true := by
        constructor
        · by_contra hne; exact hb (Or.inl hne)
        · cases hr : c.DeployBaremetalSetReady with
          | true => rfl
          | false => exact absurd (Or.inr hr) hb
      obtain ⟨x, pe, hx, hpe⟩ := halt_stageInventory c inst h ⟨hp, Or.inr ⟨hpre, hb1⟩⟩
      rw [hprov, hcalls] at hpe
      refine ⟨x, pe, hx, ?_⟩
      simp only [Bool.not_false, if_true, hb1.1, hb1.2, Option.isSome_none, Bool.not_true,
        Bool.or_self, Bool.false_eq_true, if_false, List.append_assoc, List.cons_append,
        List.nil_append]
      exact hpe

theorem halt_stageServiceAccount (hp : ReachesSecret c inst h)
    (hv : c.VerifySecretErr = none) :
    ∃ x pe, Halt c inst x pe ∧
      stageServiceAccount c (inputVerified c inst h) (callsToSecret inst) = pe := by
  unfold stageServiceAccount
  cases hs : c.ServiceAccountErr with
  | some err => exact ⟨_, _, Halt.serviceAccountFailed h err hp hv hs, rfl⟩
  | none =>
    by_cases hsr : c.ServiceAccountResult = Result.none
    · cases hr : c.RoleBindingErr with
      | some err =>
        refine ⟨_, _, Halt.roleBindingFailed h err hp hv hs hsr hr, ?_⟩
        simp only [hsr, ne_eq, not_true_eq_false, if_false, List.append_assoc,
          List.cons_append, List.nil_append]
      | none =>
        by_cases hrr : c.RoleBindingResult = Result.none
        · obtain ⟨x, pe, hx, hpe⟩ := halt_stageBaremetal c inst h ⟨hp, hv, hs, hsr, hr, hrr⟩
          refine ⟨x, pe, hx, ?_⟩
          simp only [hsr, hrr, ne_eq, not_true_eq_false, if_false, List.append_assoc,
            List.cons_append, List.nil_append]
          exact hpe
        · refine ⟨_, _, Halt.roleBindingCreating h hp hv hs hsr hr hrr, ?_⟩
          simp only [hsr, hrr, ne_eq, not_true_eq_false, not_false_eq_true, if_false, if_true,
            List.append_assoc, List.cons_append, List.nil_append]
    · refine ⟨_, _, Halt.serviceAccountCreating h hp hv hs hsr, ?_⟩
      simp only [hsr, ne_eq, not_false_eq_true, if_true]

theorem dnsStored_Spec : (dnsStored c inst h).Spec = inst.Spec := by
  simp only [dnsStored, dnsMarked, ipSetsMarked, withConditions, withDNSData, hashed_Spec]

theorem dnsStored_Namespace : (dnsStored c inst h).Namespace = inst.Namespace := by
  simp only [dnsStored, dnsMarked, ipSetsMarked, withConditions, withDNSData,
    hashed_Namespace]

theorem halt_stageVerifySecret (hp : ReachesSecret c inst h) :
    ∃ x pe, Halt c inst x pe ∧
      stageVerifySecret c (dnsStored c inst h)
        [Call.EnsureServices, Call.EnsureIPSets, Call.EnsureDNSData] = pe := by
  have hcalls : [Call.EnsureServices, Call.EnsureIPSets, Call.EnsureDNSData] ++
      [Call.VerifySecret (dnsStored c inst h).Namespace
        (dnsStored c inst h).Spec.NodeTemplate.AnsibleSSHPrivateKeySecret
        (secretKeys (dnsStored c inst h)) 5] = callsToSecret inst := by
    rw [dnsStored_Namespace, dnsStored_Spec, secretKeys_congr (dnsStored_Spec c inst h)]
    rfl
  unfold stageVerifySecret
  simp only [hcalls]
  rw [dnsStored_Spec]
  cases hv : c.VerifySecretErr with
  | some err =>
    by_cases hr : c.VerifySecretResult = Result.none
    · refine ⟨_, _, Halt.secretFailed h err hp hv hr, ?_⟩
      simp only [hr, ne_eq, not_true_eq_false, if_false]
    · refine ⟨_, _, Halt.secretWaiting h err hp hv hr, ?_⟩
      simp only [hr, ne_eq, not_false_eq_true, if_true]
  | none => exact halt_stageServiceAccount c inst h hp hv

theorem halt_stageServices (hh : c.ObjectHash inst.Spec = .ok h) :
    ∃ x pe, Halt c inst x pe ∧ stageServices c (hashed c inst h) [] = pe := by
  unfold stageServices
  cases hs : c.EnsureServices with
  | some err => exact ⟨_, _, Halt.servicesFailed h err hh hs, rfl⟩
  | none =>
    simp only [List.nil_append]
    unfold stageIPSets
    by_cases hi : c.EnsureIPSetsErr ≠ none ∨ c.EnsureIPSetsReady = false
    · refine ⟨_, _, Halt.ipSetsNotReady h hh hs hi, ?_⟩
      have hcond : (c.EnsureIPSetsErr.isSome || !c.EnsureIPSetsReady) = true := by
        rcases hi with hi | hi
        · cases he : c.EnsureIPSetsErr with
          | none => exact absurd he hi
          | some e => simp
        · simp [hi]
      simp only [hcond, if_true, List.cons_append, List.nil_append]
      rfl
    · have hi1 : c.EnsureIPSetsErr = none ∧ c.EnsureIPSetsReady = true := by
        constructor
        · by_contra hne; exact hi (Or.inl hne)
        · cases hr : c.EnsureIPSetsReady with
          | true => rfl
          | false => exact absurd (Or.inr hr) hi
      simp only [hi1.1, hi1.2, Option.isSome_none, Bool.not_true, Bool.or_self,
        Bool.false_eq_true, if_false, List.cons_append, List.nil_append]
      unfold stageDNSData
      cases hd : c.EnsureDNSDataErr with
      | some err =>
        refine ⟨_, _, Halt.dnsDataFailed h err hh hs hi1.1 hi1.2 hd, ?_⟩
        simp only [Option.isSome_some, Bool.true_or, if_true, List.cons_append,
          List.nil_append]
        rfl
      | none =>
        obtain ⟨x, pe, hx, hpe⟩ := halt_stageVerifySecret c inst h ⟨hh, hs, hi1.1, hi1.2, hd⟩
        refine ⟨x, pe, hx, ?_⟩
        simp only [Option.isSome_none, Bool.not_true, Bool.or_self, Bool.false_eq_true,
          if_false, List.cons_append, List.nil_append]
        exact hpe

/-- Every run of the body of `Reconcile` ends at one of its exits, with the outcomes, the
result, the error, the node set and the calls listed for that exit. -/
theorem reconcileBody_halts :
    ∃ x pe, Halt c inst x pe ∧ reconcileBody c inst = pe := by
  unfold reconcileBody GetSpecConfigHash
  cases hh : c.ObjectHash inst.Spec with
  | error err =>
    refine ⟨_, _, Halt.hashFailed err hh, ?_⟩
    simp only [withConditions, hh]
    rfl
  | ok h =>
    obtain ⟨x, pe, hx, hpe⟩ := halt_stageServices c inst h hh
    refine ⟨x, pe, hx, ?_⟩
    simp only [withConditions, hh]
    exact hpe

end Exits

/-! ### The ledger along a pass -/

section PassLedger

theorem Get_Set_self_state (now : Time) (cs : Conditions) (x : Condition) :
    ∃ y, Conditions.Get (Conditions.Set now cs x) x.Type_ = some y ∧ y.Status = x.Status ∧
      y.Severity = x.Severity ∧ y.Reason = x.Reason ∧ y.Message = x.Message := by
  cases hg : Conditions.Get cs x.Type_ with
  | some e =>
    rw [Conditions.Get_Set_self now x hg]
    exact ⟨_, rfl, rfl, rfl, rfl, rfl⟩
  | none =>
    refine ⟨{ x with LastTransitionTime :=
      if x.LastTransitionTime = 0 then now else x.LastTransitionTime }, ?_, rfl, rfl, rfl, rfl⟩
    unfold Conditions.Set
    rw [hg]
    unfold Conditions.Get at hg ⊢
    simp only [List.find?_append, hg, Option.none_or]
    simp

theorem Get_MarkFalse_of_ne {now : Time} {t t' : ConditionType} (h : t ≠ t')
    (cs : Conditions) (reason : String) (severity : Severity) (message : Message) :
    Conditions.Get (Conditions.MarkFalse now cs t reason severity message) t' =
      Conditions.Get cs t' :=
  Conditions.Get_Set_of_ne h cs

theorem Get_MarkTrue_of_ne {now : Time} {t t' : ConditionType} (h : t ≠ t')
    (cs : Conditions) (message : Message) :
    Conditions.Get (Conditions.MarkTrue now cs t message) t' = Conditions.Get cs t' :=
  Conditions.Get_Set_of_ne h cs

theorem Get_MarkUnknown_of_ne {now : Time} {t t' : ConditionType} (h : t ≠ t')
    (cs : Conditions) (reason : String) (message : Message) :
    Conditions.Get (Conditions.MarkUnknown now cs t reason message) t' =
      Conditions.Get cs t' :=
  Conditions.Get_Set_of_ne h cs

theorem Get_MarkFalse_self (now : Time) (cs : Conditions) (t : ConditionType)
    (reason : String) (severity : Severity) (message : Message) :
    ∃ y, Conditions.Get (Conditions.MarkFalse now cs t reason severity message) t = some y ∧
      y.Status = ConditionFalse ∧ y.Severity = severity ∧ y.Reason = reason := by
  obtain ⟨y, hy, h1, h2, h3, _⟩ :=
    Get_Set_self_state now cs (FalseCondition t reason severity message)
  exact ⟨y, hy, h1, h2, h3⟩

theorem restoreOne_state (saved : Conditions) (cond : Condition) :
    (restoreOne saved cond).Severity = cond.Severity ∧
      (restoreOne saved cond).Reason = cond.Reason ∧
      (restoreOne saved cond).Message = cond.Message := by
  unfold restoreOne
  split
  · split
    · exact ⟨rfl, rfl, rfl⟩
    · exact ⟨rfl, rfl, rfl⟩
  · exact ⟨rfl, rfl, rfl⟩

/-- The deferred function changes no condition but Ready, up to the restored times. -/
theorem Get_deferredRollup_of_ne {t : ConditionType} (ht : t ≠ ReadyCondition) (now : Time)
    (saved cs : Conditions) :
    Conditions.Get (deferredRollup now saved cs) t =
      (Conditions.Get cs t).map (restoreOne saved) := by
  unfold deferredRollup
  simp only []
  split
  · rw [Get_MarkTrue_of_ne (Ne.symm ht), Get_RestoreLastTransitionTimes]
  · split
    · cases hm : Conditions.Mirror (RestoreLastTransitionTimes cs saved) ReadyCondition with
      | none => exact Get_RestoreLastTransitionTimes cs saved t
      | some m =>
        have hmt : m.Type_ = ReadyCondition := by
          unfold Conditions.Mirror at hm
          split at hm
          · cases hm
          · cases hm; rfl
        simp only []
        rw [Conditions.Get_Set_of_ne (by rw [hmt]; exact Ne.symm ht),
          Get_RestoreLastTransitionTimes]
    · exact Get_RestoreLastTransitionTimes cs saved t

/-- The state of a condition other than Ready in the patched status is the state the body
left it in. -/
theorem state_deferredRollup {t : ConditionType} (ht : t ≠ ReadyCondition) (now : Time)
    (saved cs : Conditions) :
    (Conditions.Get (deferredRollup now saved cs) t).map
        (fun y => (y.Status, y.Severity, y.Reason)) =
      (Conditions.Get cs t).map (fun y => (y.Status, y.Severity, y.Reason)) := by
  rw [Get_deferredRollup_of_ne ht]
  cases Conditions.Get cs t with
  | none => rfl
  | some y =>
    simp only [Option.map_some', restoreOne_Status, restoreOne_state]

/-- The fields `checkDeployment` leaves as they are: `Deployed`, the DNS results and
`ConfigHash`. -/
theorem checkDeployment_frame (pdq : Pdq)
    (listed : Except String (List OpenStackDataPlaneDeployment))
    (inst : OpenStackDataPlaneNodeSet) :
    (checkDeployment pdq listed inst).Status.Deployed = inst.Status.Deployed ∧
    (checkDeployment pdq listed inst).Status.DNSClusterAddresses =
      inst.Status.DNSClusterAddresses ∧
    (checkDeployment pdq listed inst).Status.CtlplaneSearchDomain =
      inst.Status.CtlplaneSearchDomain ∧
    (checkDeployment pdq listed inst).Status.AllHostnames = inst.Status.AllHostnames ∧
    (checkDeployment pdq listed inst).Status.AllIPs = inst.Status.AllIPs ∧
    (checkDeployment pdq listed inst).Status.ConfigHash = inst.Status.ConfigHash := by
  cases listed with
  | error e => exact ⟨rfl, rfl, rfl, rfl, rfl, rfl⟩
  | ok items =>
    obtain ⟨G, S, H, o, hs⟩ := foldl_shape inst.Name (SortFunc pdq items deploymentCmp)
    simp only [checkDeployment]
    rw [hs]
    exact ⟨rfl, rfl, rfl, rfl, rfl, rfl⟩

/-- What `checkDeployment` returns besides the status depends on the node set only through
its name. -/
theorem checkDeployment_flags_congr (pdq : Pdq)
    (listed : Except String (List OpenStackDataPlaneDeployment))
    {a b : OpenStackDataPlaneNodeSet} (hn : a.Name = b.Name) :
    (checkDeployment pdq listed a).deploymentExists =
        (checkDeployment pdq listed b).deploymentExists ∧
    (checkDeployment pdq listed a).isDeploymentReady =
        (checkDeployment pdq listed b).isDeploymentReady ∧
    (checkDeployment pdq listed a).err = (checkDeployment pdq listed b).err := by
  cases listed with
  | error e => exact ⟨rfl, rfl, rfl⟩
  | ok items =>
    simp only [checkDeployment, hn]
    exact foldl_flags_congr b.Name _ _ _ rfl rfl rfl

end PassLedger

/-! ### What holds at each exit -/

section ExitFacts

variable {c : Collaborators} {inst : OpenStackDataPlaneNodeSet} {x : Exit} {pe : PassEnd}

theorem hashed_Conditions (c : Collaborators) (inst : OpenStackDataPlaneNodeSet) (h : String) :
    (hashed c inst h).Status.Conditions = (requested c inst).Status.Conditions := by
  unfold hashed; split <;> rfl

/-- Every credential verification of a pass is called with the namespace, the secret name
and the key list of the node set, and five seconds. -/
theorem Halt.mem_VerifySecret (hh : Halt c inst x pe) {ns name : String} {keys : List String}
    {t : Nat} (hcall : Call.VerifySecret ns name keys t ∈ pe.calls) :
    ns = inst.Namespace ∧ name = inst.Spec.NodeTemplate.AnsibleSSHPrivateKeySecret ∧
      keys = secretKeys inst ∧ t = 5 := by
  cases hh <;>
    simp only [callsToGuard, callsToSecret] at hcall <;>
    (try split at hcall) <;>
    simp at hcall <;>
    exact hcall

/-- A pass whose credential verification failed ends there: nothing is called after the
verification, the result of the verifier and its error are returned, and InputReady is
False, with severity Info when the result is not empty and Error otherwise. -/
theorem Halt.verify_failure (hh : Halt c inst x pe) {err : String}
    (herr : c.VerifySecretErr = some err)
    (hcall : ∃ ns name keys t, Call.VerifySecret ns name keys t ∈ pe.calls) :
    pe.calls = callsToSecret inst ∧ pe.result = c.VerifySecretResult ∧ pe.err = some err ∧
      ∃ y, Conditions.Get pe.inst.Status.Conditions InputReadyCondition = some y ∧
        y.Status = ConditionFalse ∧
        y.Severity =
          (if c.VerifySecretResult ≠ Result.none then SeverityInfo else SeverityError) := by
  obtain ⟨ns, name, keys, t, hcall⟩ := hcall
  cases hh with
  | hashFailed e hh => simp at hcall
  | servicesFailed h e hh he => simp at hcall
  | ipSetsNotReady h hh hs hi => simp at hcall
  | dnsDataFailed h e hh hs hi hr hd => simp at hcall
  | secretWaiting h e hp he hr =>
    rw [he] at herr
    obtain ⟨y, hy, h1, h2, _⟩ := Get_MarkFalse_self c.now (dnsStored c inst h).Status.Conditions
      InputReadyCondition RequestedReason SeverityInfo
      ⟨"dataplanev1.InputReadyWaitingMessage",
        ["secret/" ++ inst.Spec.NodeTemplate.AnsibleSSHPrivateKeySecret]⟩
    exact ⟨rfl, rfl, herr, y, hy, h1, by rw [h2, if_pos hr]⟩
  | secretFailed h e hp he hr =>
    rw [he] at herr
    obtain ⟨y, hy, h1, h2, _⟩ := Get_MarkFalse_self c.now (dnsStored c inst h).Status.Conditions
      InputReadyCondition RequestedReason SeverityError ⟨e, []⟩
    exact ⟨rfl, rfl, herr, y, hy, h1, by rw [h2, if_neg (not_not.mpr hr)]⟩
  | serviceAccountFailed h e hp hv he => rw [hv] at herr; cases herr
  | serviceAccountCreating h hp hv he hr => rw [hv] at herr; cases herr
  | roleBindingFailed h e hp hv hs hsr he => rw [hv] at herr; cases herr
  | roleBindingCreating h hp hv hs hsr he hr => rw [hv] at herr; cases herr
  | baremetalNotReady h hp hpre hb => rw [hp.2.1] at herr; cases herr
  | alreadyDeployed h hp hg => rw [hp.1.2.1] at herr; cases herr
  | inventoryFailed h e hp hg he => rw [hp.1.2.1] at herr; cases herr
  | aggregationFailed h e hp he => rw [hp.1.1.2.1] at herr; cases herr
  | deploymentReady h hp he hr => rw [hp.1.1.2.1] at herr; cases herr
  | deploymentRunning h hp he hr hx => rw [hp.1.1.2.1] at herr; cases herr
  | deploymentNotStarted h hp he hr hx => rw [hp.1.1.2.1] at herr; cases herr

/-- A pass that starts with InputReady Unknown leaves it True only if the credential
verification was called and reported no error. -/
theorem Halt.inputReady_true (hh : Halt c inst x pe) {y0 : Condition}
    (hinit : Conditions.Get inst.Status.Conditions InputReadyCondition = some y0)
    (hu : y0.Status = ConditionUnknown)
    (htrue : Conditions.IsTrue pe.inst.Status.Conditions InputReadyCondition = true) :
    c.VerifySecretErr = none ∧ callsToSecret inst <+: pe.calls := by
  have hne : ¬ y0.Status = ConditionTrue := by rw [hu]; decide
  have hreq : Conditions.Get (requested c inst).Status.Conditions InputReadyCondition =
      some y0 := by
    simp only [requested, withConditions]
    rw [Get_MarkFalse_of_ne (by decide)]
    exact hinit
  cases hh with
  | hashFailed e hh =>
    simp only [Conditions.IsTrue, hreq, decide_eq_true_eq] at htrue
    exact absurd htrue hne
  | servicesFailed h e hh he =>
    simp only [Conditions.IsTrue, withConditions] at htrue
    rw [Get_MarkFalse_of_ne (by decide), hashed_Conditions, hreq] at htrue
    simp only [decide_eq_true_eq] at htrue
    exact absurd htrue hne
  | ipSetsNotReady h hh hs hi =>
    simp only [Conditions.IsTrue, ipSetsMarked, withConditions] at htrue
    rw [Get_applyMark_of_ne (by decide), hashed_Conditions, hreq] at htrue
    simp only [decide_eq_true_eq] at htrue
    exact absurd htrue hne
  | dnsDataFailed h e hh hs hi hr hd =>
    simp only [Conditions.IsTrue, dnsMarked, ipSetsMarked, withConditions] at htrue
    rw [Get_applyMark_of_ne (by decide), Get_applyMark_of_ne (by decide), hashed_Conditions,
      hreq] at htrue
    simp only [decide_eq_true_eq] at htrue
    exact absurd htrue hne
  | secretWaiting h e hp he hr =>
    obtain ⟨y, hy, h1, _⟩ := Get_MarkFalse_self c.now (dnsStored c inst h).Status.Conditions
      InputReadyCondition RequestedReason SeverityInfo
      ⟨"dataplanev1.InputReadyWaitingMessage",
        ["secret/" ++ inst.Spec.NodeTemplate.AnsibleSSHPrivateKeySecret]⟩
    simp only [Conditions.IsTrue, withConditions, hy, h1] at htrue
    exact absurd htrue (by decide)
  | secretFailed h e hp he hr =>
    obtain ⟨y, hy, h1, _⟩ := Get_MarkFalse_self c.now (dnsStored c inst h).Status.Conditions
      InputReadyCondition RequestedReason SeverityError ⟨e, []⟩
    simp only [Conditions.IsTrue, withConditions, hy, h1] at htrue
    exact absurd htrue (by decide)
  | serviceAccountFailed h e hp hv he => exact ⟨hv, List.prefix_append _ _⟩
  | serviceAccountCreating h hp hv he hr => exact ⟨hv, List.prefix_append _ _⟩
  | roleBindingFailed h e hp hv hs hsr he => exact ⟨hv, List.prefix_append _ _⟩
  | roleBindingCreating h hp hv hs hsr he hr => exact ⟨hv, List.prefix_append _ _⟩
  | baremetalNotReady h hp hpre hb =>
    refine ⟨hp.2.1, ?_⟩
    unfold callsToGuard; split <;> exact List.prefix_append _ _
  | alreadyDeployed h hp hg =>
    refine ⟨hp.1.2.1, ?_⟩
    unfold callsToGuard; split <;> exact List.prefix_append _ _
  | inventoryFailed h e hp hg he =>
    refine ⟨hp.1.2.1, ?_⟩
    unfold callsToGuard; split <;> simp only [List.append_assoc] <;>
      exact List.prefix_append _ _
  | aggregationFailed h e hp he =>
    refine ⟨hp.1.1.2.1, ?_⟩
    unfold callsToGuard; split <;> simp only [List.append_assoc] <;>
      exact List.prefix_append _ _
  | deploymentReady h hp he hr =>
    refine ⟨hp.1.1.2.1, ?_⟩
    unfold callsToGuard; split <;> simp only [List.append_assoc] <;>
      exact List.prefix_append _ _
  | deploymentRunning h hp he hr hx =>
    refine ⟨hp.1.1.2.1, ?_⟩
    unfold callsToGuard; split <;> simp only [List.append_assoc] <;>
      exact List.prefix_append _ _
  | deploymentNotStarted h hp he hr hx =>
    refine ⟨hp.1.1.2.1, ?_⟩
    unfold callsToGuard; split <;> simp only [List.append_assoc] <;>
      exact List.prefix_append _ _

/-- A pass whose service validation failed returns the error and leaves SetupReady False
with severity Error and reason Error. -/
theorem Halt.services_failure (hh : Halt c inst x pe) {err : String}
    (herr : c.EnsureServices = some err) (hcall : Call.EnsureServices ∈ pe.calls) :
    pe.err = some err ∧
      ∃ y, Conditions.Get pe.inst.Status.Conditions SetupReadyCondition = some y ∧
        y.Status = ConditionFalse ∧ y.Severity = SeverityError ∧ y.Reason = ErrorReason := by
  cases hh with
  | hashFailed e hh => simp at hcall
  | servicesFailed h e hh he =>
    rw [he] at herr
    exact ⟨herr, Get_MarkFalse_self c.now (hashed c inst h).Status.Conditions
      SetupReadyCondition ErrorReason SeverityError
      ⟨"dataplanev1.DataPlaneNodeSetErrorMessage", [e]⟩⟩
  | ipSetsNotReady h hh hs hi => rw [hs] at herr; cases herr
  | dnsDataFailed h e hh hs hi hr hd => rw [hs] at herr; cases herr
  | secretWaiting h e hp he hr => rw [hp.2.1] at herr; cases herr
  | secretFailed h e hp he hr => rw [hp.2.1] at herr; cases herr
  | serviceAccountFailed h e hp hv he => rw [hp.2.1] at herr; cases herr
  | serviceAccountCreating h hp hv he hr => rw [hp.2.1] at herr; cases herr
  | roleBindingFailed h e hp hv hs hsr he => rw [hp.2.1] at herr; cases herr
  | roleBindingCreating h hp hv hs hsr he hr => rw [hp.2.1] at herr; cases herr
  | baremetalNotReady h hp hpre hb => rw [hp.1.2.1] at herr; cases herr
  | alreadyDeployed h hp hg => rw [hp.1.1.2.1] at herr; cases herr
  | inventoryFailed h e hp hg he => rw [hp.1.1.2.1] at herr; cases herr
  | aggregationFailed h e hp he => rw [hp.1.1.1.2.1] at herr; cases herr
  | deploymentReady h hp he hr => rw [hp.1.1.1.2.1] at herr; cases herr
  | deploymentRunning h hp he hr hx => rw [hp.1.1.1.2.1] at herr; cases herr
  | deploymentNotStarted h hp he hr hx => rw [hp.1.1.1.2.1] at herr; cases herr

theorem not_mem_callsToGuard_inventory (inst : OpenStackDataPlaneNodeSet) :
    Call.GenerateNodeSetInventory ∉ callsToGuard inst ∧
      Call.checkDeployment ∉ callsToGuard inst := by
  unfold callsToGuard callsToSecret
  split <;> simp

/-- A pass whose inventory generation failed returns the error and leaves SetupReady False
with severity Error and reason Error. -/
theorem Halt.inventory_failure (hh : Halt c inst x pe) {err : String}
    (herr : c.GenerateNodeSetInventory = some err)
    (hcall : Call.GenerateNodeSetInventory ∈ pe.calls) :
    pe.err = some err ∧
      ∃ y, Conditions.Get pe.inst.Status.Conditions SetupReadyCondition = some y ∧
        y.Status = ConditionFalse ∧ y.Severity = SeverityError ∧ y.Reason = ErrorReason := by
  have hg1 := (not_mem_callsToGuard_inventory inst).1
  cases hh with
  | hashFailed e hh => simp at hcall
  | servicesFailed h e hh he => simp at hcall
  | ipSetsNotReady h hh hs hi => simp at hcall
  | dnsDataFailed h e hh hs hi hr hd => simp at hcall
  | secretWaiting h e hp he hr => simp [callsToSecret] at hcall
  | secretFailed h e hp he hr => simp [callsToSecret] at hcall
  | serviceAccountFailed h e hp hv he => simp [callsToSecret] at hcall
  | serviceAccountCreating h hp hv he hr => simp [callsToSecret] at hcall
  | roleBindingFailed h e hp hv hs hsr he => simp [callsToSecret] at hcall
  | roleBindingCreating h hp hv hs hsr he hr => simp [callsToSecret] at hcall
  | baremetalNotReady h hp hpre hb => exact absurd hcall hg1
  | alreadyDeployed h hp hg => exact absurd hcall hg1
  | inventoryFailed h e hp hg he =>
    rw [he] at herr
    exact ⟨herr, Get_MarkFalse_self c.now (provisioned c inst h).Status.Conditions
      SetupReadyCondition ErrorReason SeverityError
      ⟨"dataplanev1.DataPlaneNodeSetErrorMessage",
        ["Unable to generate inventory for " ++ inst.Name]⟩⟩
  | aggregationFailed h e hp he => rw [hp.2.2] at herr; cases herr
  | deploymentReady h hp he hr => rw [hp.2.2] at herr; cases herr
  | deploymentRunning h hp he hr hx => rw [hp.2.2] at herr; cases herr
  | deploymentNotStarted h hp he hr hx => rw [hp.2.2] at herr; cases herr

theorem aggregation_err (c : Collaborators) (inst : OpenStackDataPlaneNodeSet) (h : String) :
    (aggregation c inst h).err = (checkDeployment c.pdq c.ListDeployments inst).err := by
  unfold aggregation
  refine (checkDeployment_flags_congr c.pdq c.ListDeployments ?_).2.2
  simp only [setupComplete, withConditions, provisioned_Name]

/-- A pass whose deployment aggregation returned an error returns that error and leaves
DeploymentReady False with severity Error and reason Error. -/
theorem Halt.aggregation_failure (hh : Halt c inst x pe) {err : String}
    (herr : (checkDeployment c.pdq c.ListDeployments inst).err = some err)
    (hcall : Call.checkDeployment ∈ pe.calls) :
    pe.err = some err ∧
      ∃ y, Conditions.Get pe.inst.Status.Conditions DeploymentReadyCondition = some y ∧
        y.Status = ConditionFalse ∧ y.Severity = SeverityError ∧ y.Reason = ErrorReason := by
  have hg1 := (not_mem_callsToGuard_inventory inst).2
  cases hh with
  | hashFailed e hh => simp at hcall
  | servicesFailed h e hh he => simp at hcall
  | ipSetsNotReady h hh hs hi => simp at hcall
  | dnsDataFailed h e hh hs hi hr hd => simp at hcall
  | secretWaiting h e hp he hr => simp [callsToSecret] at hcall
  | secretFailed h e hp he hr => simp [callsToSecret] at hcall
  | serviceAccountFailed h e hp hv he => simp [callsToSecret] at hcall
  | serviceAccountCreating h hp hv he hr => simp [callsToSecret] at hcall
  | roleBindingFailed h e hp hv hs hsr he => simp [callsToSecret] at hcall
  | roleBindingCreating h hp hv hs hsr he hr => simp [callsToSecret] at hcall
  | baremetalNotReady h hp hpre hb => exact absurd hcall hg1
  | alreadyDeployed h hp hg => exact absurd hcall hg1
  | inventoryFailed h e hp hg he =>
    simp only [List.mem_append, List.mem_singleton] at hcall
    rcases hcall with hcall | hcall
    · exact absurd hcall hg1
    · cases hcall
  | aggregationFailed h e hp he =>
    rw [aggregation_err, herr] at he
    exact ⟨he.symm, Get_MarkFalse_self c.now (aggregated c inst h).Status.Conditions
      DeploymentReadyCondition ErrorReason SeverityError
      ⟨"condition.DeploymentReadyErrorMessage", [e]⟩⟩
  | deploymentReady h hp he hr => rw [aggregation_err, herr] at he; cases he
  | deploymentRunning h hp he hr hx => rw [aggregation_err, herr] at he; cases he
  | deploymentNotStarted h hp he hr hx => rw [aggregation_err, herr] at he; cases he

theorem BodyUpdate.Deployed {c : Collaborators} {inst0 inst : OpenStackDataPlaneNodeSet}
    (h : BodyUpdate c inst0 inst) : inst.Status.Deployed = inst0.Status.Deployed := by
  induction h with
  | refl => rfl
  | setCondition x hx _ ih => exact ih
  | dnsData _ ih => exact ih
  | configHash hash _ ih => exact ih
  | aggregated _ ih =>
    rw [← ih]
    exact (checkDeployment_frame _ _ _).1

/-- The DNS results of a status. -/
theorem accountReady_DNS (c : Collaborators) (inst : OpenStackDataPlaneNodeSet) (h : String) :
    (accountReady c inst h).Status.DNSClusterAddresses = c.EnsureDNSData.ClusterAddresses ∧
    (accountReady c inst h).Status.CtlplaneSearchDomain =
      c.EnsureDNSData.CtlplaneSearchDomain ∧
    (accountReady c inst h).Status.AllHostnames = c.EnsureDNSData.Hostnames ∧
    (accountReady c inst h).Status.AllIPs = c.EnsureDNSData.AllIPs := by
  simp only [accountReady, inputVerified, dnsStored, withConditions, withDNSData, and_self]

theorem provisioned_DNS (c : Collaborators) (inst : OpenStackDataPlaneNodeSet) (h : String) :
    (provisioned c inst h).Status.DNSClusterAddresses = c.EnsureDNSData.ClusterAddresses ∧
    (provisioned c inst h).Status.CtlplaneSearchDomain =
      c.EnsureDNSData.CtlplaneSearchDomain ∧
    (provisioned c inst h).Status.AllHostnames = c.EnsureDNSData.Hostnames ∧
    (provisioned c inst h).Status.AllIPs = c.EnsureDNSData.AllIPs := by
  unfold provisioned
  split
  · exact accountReady_DNS c inst h
  · exact accountReady_DNS c inst h

theorem aggregated_DNS (c : Collaborators) (inst : OpenStackDataPlaneNodeSet) (h : String) :
    (aggregated c inst h).Status.DNSClusterAddresses = c.EnsureDNSData.ClusterAddresses ∧
    (aggregated c inst h).Status.CtlplaneSearchDomain =
      c.EnsureDNSData.CtlplaneSearchDomain ∧
    (aggregated c inst h).Status.AllHostnames = c.EnsureDNSData.Hostnames ∧
    (aggregated c inst h).Status.AllIPs = c.EnsureDNSData.AllIPs := by
  obtain ⟨_, h1, h2, h3, h4, _⟩ :=
    checkDeployment_frame c.pdq c.ListDeployments (setupComplete c inst h)
  obtain ⟨p1, p2, p3, p4⟩ := provisioned_DNS c inst h
  simp only [aggregated, aggregation, withStatus]
  rw [h1, h2, h3, h4]
  exact ⟨p1, p2, p3, p4⟩

/-- A pass that called the credential verification has stored the results of the DNS stage
in the status, whatever the status held before. -/
theorem Halt.dns_stored (hh : Halt c inst x pe)
    (hcall : ∃ ns name keys t, Call.VerifySecret ns name keys t ∈ pe.calls) :
    pe.inst.Status.DNSClusterAddresses = c.EnsureDNSData.ClusterAddresses ∧
    pe.inst.Status.CtlplaneSearchDomain = c.EnsureDNSData.CtlplaneSearchDomain ∧
    pe.inst.Status.AllHostnames = c.EnsureDNSData.Hostnames ∧
    pe.inst.Status.AllIPs = c.EnsureDNSData.AllIPs := by
  obtain ⟨ns, name, keys, t, hcall⟩ := hcall
  cases hh with
  | hashFailed e hh => simp at hcall
  | servicesFailed h e hh he => simp at hcall
  | ipSetsNotReady h hh hs hi => simp at hcall
  | dnsDataFailed h e hh hs hi hr hd => simp at hcall
  | secretWaiting h e hp he hr => exact ⟨rfl, rfl, rfl, rfl⟩
  | secretFailed h e hp he hr => exact ⟨rfl, rfl, rfl, rfl⟩
  | serviceAccountFailed h e hp hv he => exact ⟨rfl, rfl, rfl, rfl⟩
  | serviceAccountCreating h hp hv he hr => exact ⟨rfl, rfl, rfl, rfl⟩
  | roleBindingFailed h e hp hv hs hsr he => exact ⟨rfl, rfl, rfl, rfl⟩
  | roleBindingCreating h hp hv hs hsr he hr => exact ⟨rfl, rfl, rfl, rfl⟩
  | baremetalNotReady h hp hpre hb => exact accountReady_DNS c inst h
  | alreadyDeployed h hp hg => exact provisioned_DNS c inst h
  | inventoryFailed h e hp hg he => exact provisioned_DNS c inst h
  | aggregationFailed h e hp he => exact aggregated_DNS c inst h
  | deploymentReady h hp he hr => exact aggregated_DNS c inst h
  | deploymentRunning h hp he hr hx => exact aggregated_DNS c inst h
  | deploymentNotStarted h hp he hr hx => exact aggregated_DNS c inst h

/-- A pass that ended before the credential verification has left the DNS results of the
status as they were stored. -/
theorem Halt.dns_kept (hh : Halt c inst x pe)
    (hcall : ¬ ∃ ns name keys t, Call.VerifySecret ns name keys t ∈ pe.calls) :
    pe.inst.Status.DNSClusterAddresses = inst.Status.DNSClusterAddresses ∧
    pe.inst.Status.CtlplaneSearchDomain = inst.Status.CtlplaneSearchDomain ∧
    pe.inst.Status.AllHostnames = inst.Status.AllHostnames ∧
    pe.inst.Status.AllIPs = inst.Status.AllIPs := by
  have hsec : ∃ ns name keys t, Call.VerifySecret ns name keys t ∈ callsToSecret inst :=
    ⟨inst.Namespace, inst.Spec.NodeTemplate.AnsibleSSHPrivateKeySecret, secretKeys inst, 5,
      by simp [callsToSecret]⟩
  have hguard : ∃ ns name keys t, Call.VerifySecret ns name keys t ∈ callsToGuard inst := by
    obtain ⟨ns, name, keys, t, hm⟩ := hsec
    refine ⟨ns, name, keys, t, ?_⟩
    unfold callsToGuard
    split <;> exact List.mem_append_left _ hm
  have hhashed : ∀ h,
      (hashed c inst h).Status.DNSClusterAddresses = inst.Status.DNSClusterAddresses ∧
      (hashed c inst h).Status.CtlplaneSearchDomain = inst.Status.CtlplaneSearchDomain ∧
      (hashed c inst h).Status.AllHostnames = inst.Status.AllHostnames ∧
      (hashed c inst h).Status.AllIPs = inst.Status.AllIPs := by
    intro h
    unfold hashed
    split <;> exact ⟨rfl, rfl, rfl, rfl⟩
  cases hh with
  | hashFailed e hh => exact ⟨rfl, rfl, rfl, rfl⟩
  | servicesFailed h e hh he => exact hhashed h
  | ipSetsNotReady h hh hs hi => exact hhashed h
  | dnsDataFailed h e hh hs hi hr hd => exact hhashed h
  | secretWaiting h e hp he hr => exact absurd hsec hcall
  | secretFailed h e hp he hr => exact absurd hsec hcall
  | serviceAccountFailed h e hp hv he =>
    obtain ⟨ns, name, keys, t, hm⟩ := hsec
    exact absurd ⟨ns, name, keys, t, List.mem_append_left _ hm⟩ hcall
  | serviceAccountCreating h hp hv he hr =>
    obtain ⟨ns, name, keys, t, hm⟩ := hsec
    exact absurd ⟨ns, name, keys, t, List.mem_append_left _ hm⟩ hcall
  | roleBindingFailed h e hp hv hs hsr he =>
    obtain ⟨ns, name, keys, t, hm⟩ := hsec
    exact absurd ⟨ns, name, keys, t, List.mem_append_left _ hm⟩ hcall
  | roleBindingCreating h hp hv hs hsr he hr =>
    obtain ⟨ns, name, keys, t, hm⟩ := hsec
    exact absurd ⟨ns, name, keys, t, List.mem_append_left _ hm⟩ hcall
  | baremetalNotReady h hp hpre hb => exact absurd hguard hcall
  | alreadyDeployed h hp hg => exact absurd hguard hcall
  | inventoryFailed h e hp hg he =>
    obtain ⟨ns, name, keys, t, hm⟩ := hguard
    exact absurd ⟨ns, name, keys, t, List.mem_append_left _ hm⟩ hcall
  | aggregationFailed h e hp he =>
    obtain ⟨ns, name, keys, t, hm⟩ := hguard
    exact absurd ⟨ns, name, keys, t, List.mem_append_left _ hm⟩ hcall
  | deploymentReady h hp he hr =>
    obtain ⟨ns, name, keys, t, hm⟩ := hguard
    exact absurd ⟨ns, name, keys, t, List.mem_append_left _ hm⟩ hcall
  | deploymentRunning h hp he hr hx =>
    obtain ⟨ns, name, keys, t, hm⟩ := hguard
    exact absurd ⟨ns, name, keys, t, List.mem_append_left _ hm⟩ hcall
  | deploymentNotStarted h hp he hr hx =>
    obtain ⟨ns, name, keys, t, hm⟩ := hguard
    exact absurd ⟨ns, name, keys, t, List.mem_append_left _ hm⟩ hcall

end ExitFacts

/-! ### The pass and its body -/

section PassFacts

theorem Get_InputReady_InitConditions (now : Time) (inst : OpenStackDataPlaneNodeSet) :
    ∃ y0, Conditions.Get (InitConditions now inst).Status.Conditions InputReadyCondition =
        some y0 ∧ y0.Status = ConditionUnknown := by
  show ∃ y0, Conditions.Get (Conditions.Init now [] (initialConditionList inst))
    InputReadyCondition = some y0 ∧ _
  unfold initialConditionList
  simp only []
  split <;>
    simp [Conditions.Init, Conditions.Set, Conditions.Get, Conditions.setExisting,
      UnknownCondition]

theorem IsTrue_deferredRollup {t : ConditionType} (ht : t ≠ ReadyCondition) (now : Time)
    (saved cs : Conditions) :
    Conditions.IsTrue (deferredRollup now saved cs) t = Conditions.IsTrue cs t := by
  unfold Conditions.IsTrue
  rw [Get_deferredRollup_of_ne ht]
  cases Conditions.Get cs t with
  | none => rfl
  | some y => simp only [Option.map_some', restoreOne_Status]

/-- The pass on a node set that was found, in terms of the body run on the initialised
node set. -/
theorem Reconcile_found (c : Collaborators) (inst : OpenStackDataPlaneNodeSet) :
    (Reconcile c (.found inst)).result = (reconcileBody c (initialised c inst)).result ∧
    (Reconcile c (.found inst)).calls =
      (reconcileBody c (initialised c inst)).calls ++ [Call.PatchInstance] ∧
    (c.PatchInstance = none →
      (Reconcile c (.found inst)).err = (reconcileBody c (initialised c inst)).err) ∧
    (Reconcile c (.found inst)).patched =
      some (withConditions (reconcileBody c (initialised c inst)).inst
        (deferredRollup c.now inst.Status.Conditions
          (reconcileBody c (initialised c inst)).inst.Status.Conditions)) := by
  simp only [Reconcile, initialised, withStatus, true_and, and_true]
  intro hp
  rw [hp]

theorem mem_body_of_mem_pass {c : Collaborators} {inst : OpenStackDataPlaneNodeSet}
    {call : Call} (hne : call ≠ Call.PatchInstance)
    (h : call ∈ (Reconcile c (.found inst)).calls) :
    call ∈ (reconcileBody c (initialised c inst)).calls := by
  rw [(Reconcile_found c inst).2.1, List.mem_append, List.mem_singleton] at h
  rcases h with h | h
  · exact h
  · exact absurd h hne

end PassFacts

/-! ## The claims -/

/-- C1 (aggregation merge order). Three deployments without deletion marker that all target
the node set carry DeploymentReady conditions that changed at T1 < T2 < T3; the ones of T1
and T3 report Deployed, the one of T2 does not. Whatever the order in which the list holds
them, `checkDeployment` leaves `Status.DeployedConfigHash` equal to the `NodeSetHashes`
entry of the T3 deployment for this node set, and for every key present in both the T1
and the T3 `ConfigMapHashes` (resp. `SecretHashes`) the map of the node set holds the
value of T3. -/
theorem checkDeployment_merge_order (pdq : Pdq) (inst : OpenStackDataPlaneNodeSet)
    (d1 d2 d3 : OpenStackDataPlaneDeployment) (c1 c2 c3 : Condition)
    (items : List OpenStackDataPlaneDeployment)
    (hitems : items.Perm [d1, d2, d3])
    (ht1 : targets inst.Name d1 = true) (ht2 : targets inst.Name d2 = true)
    (ht3 : targets inst.Name d3 = true)
    (hc1 : Conditions.Get d1.Status.Conditions DeploymentReadyCondition = some c1)
    (hc2 : Conditions.Get d2.Status.Conditions DeploymentReadyCondition = some c2)
    (hc3 : Conditions.Get d3.Status.Conditions DeploymentReadyCondition = some c3)
    (h12 : c1.LastTransitionTime < c2.LastTransitionTime)
    (h23 : c2.LastTransitionTime < c3.LastTransitionTime)
    (hdep1 : d1.Status.Deployed = true) (hdep2 : d2.Status.Deployed = false)
    (hdep3 : d3.Status.Deployed = true) :
    (checkDeployment pdq (.ok items) inst).Status.DeployedConfigHash =
        d3.Status.NodeSetHashes.index inst.Name ∧
    (∀ k v1 v3, d1.Status.ConfigMapHashes.get k = some v1 →
        d3.Status.ConfigMapHashes.get k = some v3 →
        (checkDeployment pdq (.ok items) inst).Status.ConfigMapHashes.get k = some v3) ∧
    (∀ k v1 v3, d1.Status.SecretHashes.get k = some v1 →
        d3.Status.SecretHashes.get k = some v3 →
        (checkDeployment pdq (.ok items) inst).Status.SecretHashes.get k = some v3) := by
  simp only [checkDeployment, sort_three pdq hitems hc1 hc2 hc3 h12 h23, List.foldl_cons,
    List.foldl_nil]
  refine ⟨?_, ?_, ?_⟩
  · rw [step_DeployedConfigHash]
    simp [ht3, hdep3]
  · intro k v1 v3 _ h3
    rw [step_ConfigMapHashes]
    simp [ht3, hdep3, GoMap.mergeFrom, h3]
  · intro k v1 v3 _ h3
    rw [step_SecretHashes]
    simp [ht3, hdep3, GoMap.mergeFrom, h3]

/-- Witness of C1: the deployments of 10, 20 and 30 listed as (30, 10, 20); the node set
"edge-a" ends with the hash of the deployment of 30 in all three places. -/
theorem checkDeployment_merge_order_witness :
    (checkDeployment insertionSortCmpFunc (.ok [deployT3, deployT1, deployT2])
        (edgeA [] emptyStatus)).Status.DeployedConfigHash = "hash-t3" ∧
    (checkDeployment insertionSortCmpFunc (.ok [deployT3, deployT1, deployT2])
        (edgeA [] emptyStatus)).Status.ConfigMapHashes.get "cm" = some "hash-t3" ∧
    (checkDeployment insertionSortCmpFunc (.ok [deployT3, deployT1, deployT2])
        (edgeA [] emptyStatus)).Status.SecretHashes.get "secret" = some "hash-t3" :=
  have h := checkDeployment_merge_order insertionSortCmpFunc (edgeA [] emptyStatus)
    deployT1 deployT2 deployT3 (trueAt DeploymentReadyCondition 10)
    (conditionAt DeploymentReadyCondition ConditionFalse SeverityInfo 20)
    (trueAt DeploymentReadyCondition 30) [deployT3, deployT1, deployT2]
    ((List.Perm.swap deployT1 deployT3 [deployT2]).trans
      (List.Perm.cons deployT1 (List.Perm.swap deployT2 deployT3 [])))
    (by decide) (by decide) (by decide) rfl rfl rfl (by decide) (by decide) rfl rfl rfl
  ⟨h.1, h.2.1 "cm" "hash-t1" "hash-t3" rfl rfl, h.2.2 "secret" "hash-t1" "hash-t3" rfl rfl⟩

/-- C2 (ready reflects the last iterated deployment). For every deployment list, the result
`ready` of `checkDeployment` is the Deployed flag of the last deployment, in the order of
the sorted iteration, that has no deletion marker and targets the node set; `exists` is
true exactly when the list holds such a deployment; when it holds none, both are false.
The quicksort branch of the library is assumed to permute its input. -/
theorem checkDeployment_ready_is_last_targeting (pdq : Pdq)
    (hpdq : ∀ l, (pdq deploymentCmp l).Perm l)
    (items : List OpenStackDataPlaneDeployment) (inst : OpenStackDataPlaneNodeSet) :
    (checkDeployment pdq (.ok items) inst).isDeploymentReady =
        (match ((SortFunc pdq items deploymentCmp).filter (targets inst.Name)).getLast? with
         | some d => d.Status.Deployed
         | none => false) ∧
    ((checkDeployment pdq (.ok items) inst).deploymentExists = true ↔
        ∃ d ∈ items, targets inst.Name d = true) ∧
    ((∀ d ∈ items, targets inst.Name d = false) →
        (checkDeployment pdq (.ok items) inst).deploymentExists = false ∧
        (checkDeployment pdq (.ok items) inst).isDeploymentReady = false) := by
  have hsorted := SortFunc_perm pdq deploymentCmp hpdq items
  have hfl := foldl_flags_targeting inst.Name
    ((SortFunc pdq items deploymentCmp).filter (targets inst.Name))
    (fun d hd => (List.mem_filter.1 hd).2)
    { deploymentExists := false, isDeploymentReady := false, err := none, Status := inst.Status }
  rw [← checkDeployment_ok] at hfl
  obtain ⟨hready, hexists⟩ := hfl
  have hiff : (checkDeployment pdq (.ok items) inst).deploymentExists = true ↔
      ∃ d ∈ items, targets inst.Name d = true := by
    rw [hexists]
    simp only [Bool.false_or, Bool.not_eq_true', List.isEmpty_eq_false]
    constructor
    · intro hne
      obtain ⟨d, hd⟩ := List.exists_mem_of_ne_nil _ hne
      obtain ⟨hmem, ht⟩ := List.mem_filter.1 hd
      exact ⟨d, hsorted.mem_iff.1 hmem, ht⟩
    · rintro ⟨d, hmem, ht⟩
      exact List.ne_nil_of_mem (List.mem_filter.2 ⟨hsorted.mem_iff.2 hmem, ht⟩)
  refine ⟨hready, hiff, ?_⟩
  intro hnone
  have hempty : (SortFunc pdq items deploymentCmp).filter (targets inst.Name) = [] := by
    rw [List.filter_eq_nil_iff]
    intro d hd
    simp [hnone d (hsorted.mem_iff.1 hd)]
  constructor
  · cases hx : (checkDeployment pdq (.ok items) inst).deploymentExists
    · rfl
    · obtain ⟨d, hmem, ht⟩ := hiff.1 hx
      rw [hnone d hmem] at ht
      cases ht
  · rw [hready, hempty]
    rfl

/-- Witness of C2: with the deployments of 30, 10 and 20 listed, the last one iterated is
the one of 30, which completed; the one of 20, which did not, does not decide. -/
theorem checkDeployment_ready_is_last_targeting_witness :
    (checkDeployment insertionSortCmpFunc (.ok [deployT3, deployT1, deployT2])
        (edgeA [] emptyStatus)).isDeploymentReady = true ∧
    ((checkDeployment insertionSortCmpFunc (.ok [deployT3, deployT1, deployT2])
        (edgeA [] emptyStatus)).deploymentExists = true ↔
      ∃ d ∈ [deployT3, deployT1, deployT2], targets "edge-a" d = true) :=
  have h := checkDeployment_ready_is_last_targeting insertionSortCmpFunc
    (insertionSortCmpFunc_perm deploymentCmp) [deployT3, deployT1, deployT2]
    (edgeA [] emptyStatus)
  ⟨h.1, h.2.1⟩

/-- C3 (a skipped deployment must not influence the aggregation), evaluated where the code
departs from it. The list holds a completed deployment of "edge-a" that turned ready at 20,
a deployment of another node set that has no condition yet, and a completed deployment of
"edge-a" that turned ready at 10. The comparison function returns 1 whenever one side has
no DeploymentReady condition, so the sort leaves the list as it is: the deployment of 10
is iterated last and its hash is kept. With the deployment of the other node set removed
before sorting, the deployment of 20 is iterated last. -/
theorem checkDeployment_skipped_deployment_changes_result :
    targets "edge-a" deployOther = false ∧
    SortFunc insertionSortCmpFunc [deployGood, deployOther, deployT1] deploymentCmp =
      [deployGood, deployOther, deployT1] ∧
    (checkDeployment insertionSortCmpFunc (.ok [deployGood, deployOther, deployT1])
        (edgeA [] emptyStatus)).Status.DeployedConfigHash = "hash-t1" ∧
    [deployGood, deployOther, deployT1].filter (targets "edge-a") = [deployGood, deployT1] ∧
    (checkDeployment insertionSortCmpFunc (.ok [deployGood, deployT1])
        (edgeA [] emptyStatus)).Status.DeployedConfigHash = "hash-good" := by
  refine ⟨by decide, rfl, by decide, rfl, by decide⟩

/-- C4 (frame of the hashes). When no deployment of the list is at once without deletion
marker, targeting the node set and Deployed, `checkDeployment` leaves
`Status.DeployedConfigHash`, `Status.ConfigMapHashes` and `Status.SecretHashes` as they
were; and whenever it changes `DeployedConfigHash`, the new value is the `NodeSetHashes`
entry for this node set of such a deployment of the list. The quicksort branch of the
library is assumed to permute its input. -/
theorem checkDeployment_hash_frame (pdq : Pdq)
    (hpdq : ∀ l, (pdq deploymentCmp l).Perm l)
    (items : List OpenStackDataPlaneDeployment) (inst : OpenStackDataPlaneNodeSet) :
    ((∀ d ∈ items, ¬ (targets inst.Name d = true ∧ d.Status.Deployed = true)) →
      (checkDeployment pdq (.ok items) inst).Status.DeployedConfigHash =
          inst.Status.DeployedConfigHash ∧
      (checkDeployment pdq (.ok items) inst).Status.ConfigMapHashes =
          inst.Status.ConfigMapHashes ∧
      (checkDeployment pdq (.ok items) inst).Status.SecretHashes = inst.Status.SecretHashes) ∧
    ((checkDeployment pdq (.ok items) inst).Status.DeployedConfigHash ≠
        inst.Status.DeployedConfigHash →
      ∃ d ∈ items, targets inst.Name d = true ∧ d.Status.Deployed = true ∧
        (checkDeployment pdq (.ok items) inst).Status.DeployedConfigHash =
          d.Status.NodeSetHashes.index inst.Name) := by
  have hsorted := SortFunc_perm pdq deploymentCmp hpdq items
  constructor
  · intro hnone
    simp only [checkDeployment]
    refine foldl_frame inst.Name _ ?_ _
    intro d hd
    have := hnone d (hsorted.mem_iff.1 hd)
    cases h1 : targets inst.Name d <;> cases h2 : d.Status.Deployed <;> simp_all
  · intro hne
    simp only [checkDeployment] at hne ⊢
    rcases foldl_DeployedConfigHash_source inst.Name (SortFunc pdq items deploymentCmp)
      { deploymentExists := false, isDeploymentReady := false, err := none,
        Status := inst.Status } with h | ⟨d, hd, ht, hdep, heq⟩
    · exact absurd h hne
    · exact ⟨d, hsorted.mem_iff.1 hd, ht, hdep, heq⟩

/-- Witness of C4: a deployment of another node set and a deployment of "edge-a" that has
not completed leave the three hash fields of "edge-a" as they were. -/
theorem checkDeployment_hash_frame_witness :
    (checkDeployment insertionSortCmpFunc (.ok [deployOther, deployT2])
        (edgeA [] emptyStatus)).Status.DeployedConfigHash = "" ∧
    (checkDeployment insertionSortCmpFunc (.ok [deployOther, deployT2])
        (edgeA [] emptyStatus)).Status.ConfigMapHashes = GoMap.empty ∧
    (checkDeployment insertionSortCmpFunc (.ok [deployOther, deployT2])
        (edgeA [] emptyStatus)).Status.SecretHashes = GoMap.empty :=
  (checkDeployment_hash_frame insertionSortCmpFunc (insertionSortCmpFunc_perm deploymentCmp)
    [deployOther, deployT2] (edgeA [] emptyStatus)).1 (by decide)


/-- C5 (hash purity), evaluated where the code departs from it. `GetSpecConfigHash` hands
the whole spec to the object hash, and not a struct holding only `NodeTemplate` and
`Nodes`: its result is the object hash of the spec. Two node sets whose specs differ only
in `Tags` therefore get different hashes from every object hash that tells the two specs
apart, as the stand-in `tagsHash` does. -/
theorem GetSpecConfigHash_hashes_whole_spec :
    (∀ (ObjectHash : OpenStackDataPlaneNodeSetSpec → Except String String)
        (inst : OpenStackDataPlaneNodeSet),
        GetSpecConfigHash ObjectHash inst = ObjectHash inst.Spec) ∧
    (edgeSpec ["rack-1"]).NodeTemplate = (edgeSpec ["rack-2"]).NodeTemplate ∧
    (edgeSpec ["rack-1"]).Nodes = (edgeSpec ["rack-2"]).Nodes ∧
    { edgeSpec ["rack-1"] with Tags := [] } = { edgeSpec ["rack-2"] with Tags := [] } ∧
    (∀ ObjectHash : OpenStackDataPlaneNodeSetSpec → Except String String,
        ObjectHash (edgeSpec ["rack-1"]) ≠ ObjectHash (edgeSpec ["rack-2"]) →
        GetSpecConfigHash ObjectHash (edgeA ["rack-1"] emptyStatus) ≠
          GetSpecConfigHash ObjectHash (edgeA ["rack-2"] emptyStatus)) ∧
    GetSpecConfigHash tagsHash (edgeA ["rack-1"] emptyStatus) = .ok "rack-1" ∧
    GetSpecConfigHash tagsHash (edgeA ["rack-2"] emptyStatus) = .ok "rack-2" := by
  have hwhole : ∀ (ObjectHash : OpenStackDataPlaneNodeSetSpec → Except String String)
      (inst : OpenStackDataPlaneNodeSet),
      GetSpecConfigHash ObjectHash inst = ObjectHash inst.Spec := by
    intro ObjectHash inst
    unfold GetSpecConfigHash
    cases ObjectHash inst.Spec <;> rfl
  refine ⟨hwhole, rfl, rfl, rfl, ?_, rfl, rfl⟩
  intro ObjectHash hne
  rw [hwhole, hwhole]
  exact hne

/-- C6 (readiness derivation). Every pass that found its node set patches a status in
which the Ready condition is present, `IsReady` holds exactly when it is True, it is True
if and only if every other condition of the ledger is True, and it is Unknown whenever some
other condition is Unknown and none is False. -/
theorem Reconcile_ready_derivation (c : Collaborators) (inst : OpenStackDataPlaneNodeSet) :
    ∃ p r, (Reconcile c (.found inst)).patched = some p ∧
      Conditions.Get p.Status.Conditions ReadyCondition = some r ∧
      (IsReady p = true ↔ r.Status = ConditionTrue) ∧
      (r.Status = ConditionTrue ↔
        ∀ x ∈ p.Status.Conditions, x.Type_ ≠ ReadyCondition → x.Status = ConditionTrue) ∧
      ((∃ x ∈ p.Status.Conditions, x.Type_ ≠ ReadyCondition ∧ x.Status = ConditionUnknown) →
        (∀ x ∈ p.Status.Conditions, x.Type_ ≠ ReadyCondition → x.Status ≠ ConditionFalse) →
        r.Status = ConditionUnknown) := by
  obtain ⟨r0, hr0, hu⟩ := Get_Ready_InitConditions c.now inst
  have hbody := (BodyUpdate_reconcileBody c
    (withStatus (InitConditions c.now inst)
      { (InitConditions c.now inst).Status with
        ObservedGeneration := (InitConditions c.now inst).Generation })).Get_Ready
  have hget : Conditions.Get (reconcileBody c
      (withStatus (InitConditions c.now inst)
        { (InitConditions c.now inst).Status with
          ObservedGeneration := (InitConditions c.now inst).Generation })).inst.Status.Conditions
      ReadyCondition = some r0 := hbody.trans hr0
  obtain ⟨r, hr, h1, h2⟩ := deferredRollup_ready c.now inst.Status.Conditions hget hu
  have hp : ∀ p : OpenStackDataPlaneNodeSet,
      Conditions.Get p.Status.Conditions ReadyCondition = some r →
      (IsReady p = true ↔ r.Status = ConditionTrue) := by
    intro p hp
    simp [IsReady, Conditions.IsTrue, hp]
  exact ⟨_, r, rfl, hr, hp _ hr, h1, h2⟩

/-- C7 (timestamp stability), evaluated where the code departs from it. A first pass at the
clock 5, in which every stage succeeds and the listed deployment has completed, patches
every condition True with the time 5, Ready included. A second pass at 9 with the same
outcomes writes every condition True again. The conditions of the stages keep the time 5,
but Ready, which is Unknown when the times are restored and is marked True only
afterwards, is written with the time 9. -/
theorem Reconcile_ready_time_not_restored :
    afterFirstPass.Status.Conditions.map (fun x => (x.Type_, x.Status, x.LastTransitionTime)) =
      [ (ReadyCondition, ConditionTrue, 5),
        (DeploymentReadyCondition, ConditionTrue, 5),
        (InputReadyCondition, ConditionTrue, 5),
        (SetupReadyCondition, ConditionTrue, 5),
        (NodeSetIPReservationReadyCondition, ConditionTrue, 5),
        (NodeSetDNSDataReadyCondition, ConditionTrue, 5),
        (ServiceAccountReadyCondition, ConditionTrue, 5) ] ∧
    ((Reconcile (allSucceed 9 [deployGood]) (.found afterFirstPass)).patched.map
        fun p => p.Status.Conditions.map
          fun x => (x.Type_, x.Status, x.LastTransitionTime)) =
      some [ (ReadyCondition, ConditionTrue, 9),
             (DeploymentReadyCondition, ConditionTrue, 5),
             (InputReadyCondition, ConditionTrue, 5),
             (SetupReadyCondition, ConditionTrue, 5),
             (NodeSetIPReservationReadyCondition, ConditionTrue, 5),
             (NodeSetDNSDataReadyCondition, ConditionTrue, 5),
             (ServiceAccountReadyCondition, ConditionTrue, 5) ] := by
  refine ⟨by decide, by decide⟩

/-- C8 (fast path), evaluated where the code departs from it. The stored status of the
node set has `Deployed = true`, the node set has no deletion timestamp and every stage
succeeds. `InitConditions` has set `Deployed` to false before the guard "already
deployed" is read, so the pass goes on: `GenerateNodeSetInventory` and `checkDeployment`
are both called, and the patched status has `Deployed = false`. -/
theorem Reconcile_deployed_still_runs_inventory :
    storedDeployed.Status.Deployed = true ∧
    Time.IsZero storedDeployed.DeletionTimestamp = true ∧
    (Reconcile (allSucceed 9 [deployGood]) (.found storedDeployed)).calls =
      [ Call.EnsureServices, Call.EnsureIPSets, Call.EnsureDNSData,
        Call.VerifySecret "openstack" "dataplane-ansible-ssh-private-key-secret"
          ["ssh-privatekey"] 5,
        Call.ServiceAccountCreateOrPatch, Call.RoleBindingCreateOrPatch,
        Call.GenerateNodeSetInventory, Call.checkDeployment, Call.PatchInstance ] ∧
    (Reconcile (allSucceed 9 [deployGood]) (.found storedDeployed)).err = none ∧
    (Reconcile (allSucceed 9 [deployGood]) (.found storedDeployed)).patched.map
        (fun p => p.Status.Deployed) = some false := by
  refine ⟨rfl, rfl, by decide, by decide, by decide⟩

/-- C9 (postcondition of `InitConditions`). After `InitConditions` the ledger holds each of
DeploymentReady, InputReady, SetupReady, NodeSetIPReservationReady, NodeSetDNSDataReady
and ServiceAccountReady exactly once, every condition of the ledger is Unknown with reason
Init, and the NodeSetBareMetalProvisionReady condition is present if and only if
`Spec.BaremetalSetTemplate.BaremetalHosts` is not empty. -/
theorem InitConditions_postcondition (now : Time) (inst : OpenStackDataPlaneNodeSet) :
    (∀ t ∈ [DeploymentReadyCondition, InputReadyCondition, SetupReadyCondition,
            NodeSetIPReservationReadyCondition, NodeSetDNSDataReadyCondition,
            ServiceAccountReadyCondition],
        (InitConditions now inst).Status.Conditions.countP (fun x => decide (x.Type_ = t)) = 1) ∧
    (∀ x ∈ (InitConditions now inst).Status.Conditions,
        x.Status = ConditionUnknown ∧ x.Reason = InitReason) ∧
    ((∃ x ∈ (InitConditions now inst).Status.Conditions,
        x.Type_ = NodeSetBareMetalProvisionReadyCondition) ↔
      inst.Spec.BaremetalSetTemplate.BaremetalHosts ≠ []) := by
  by_cases hb : inst.Spec.BaremetalSetTemplate.BaremetalHosts = []
  · have hcs : (InitConditions now inst).Status.Conditions =
        [ { UnknownCondition ReadyCondition InitReason ⟨"condition.ReadyInitMessage", []⟩ with
            LastTransitionTime := now },
          { UnknownCondition DeploymentReadyCondition InitReason ⟨InitReason, []⟩ with
            LastTransitionTime := now },
          { UnknownCondition InputReadyCondition InitReason ⟨InitReason, []⟩ with
            LastTransitionTime := now },
          { UnknownCondition SetupReadyCondition InitReason ⟨InitReason, []⟩ with
            LastTransitionTime := now },
          { UnknownCondition NodeSetIPReservationReadyCondition InitReason ⟨InitReason, []⟩ with
            LastTransitionTime := now },
          { UnknownCondition NodeSetDNSDataReadyCondition InitReason ⟨InitReason, []⟩ with
            LastTransitionTime := now },
          { UnknownCondition ServiceAccountReadyCondition InitReason ⟨InitReason, []⟩ with
            LastTransitionTime := now } ] := by
      simp [InitConditions, initialConditionList, hb, Conditions.Init, Conditions.Set,
        Conditions.Get, UnknownCondition]
    rw [hcs]
    simp [hb, UnknownCondition, List.countP_cons]
  · have hlen : inst.Spec.BaremetalSetTemplate.BaremetalHosts.length > 0 :=
      List.length_pos.2 hb
    have hcs : (InitConditions now inst).Status.Conditions =
        [ { UnknownCondition ReadyCondition InitReason ⟨"condition.ReadyInitMessage", []⟩ with
            LastTransitionTime := now },
          { UnknownCondition DeploymentReadyCondition InitReason ⟨InitReason, []⟩ with
            LastTransitionTime := now },
          { UnknownCondition InputReadyCondition InitReason ⟨InitReason, []⟩ with
            LastTransitionTime := now },
          { UnknownCondition SetupReadyCondition InitReason ⟨InitReason, []⟩ with
            LastTransitionTime := now },
          { UnknownCondition NodeSetIPReservationReadyCondition InitReason ⟨InitReason, []⟩ with
            LastTransitionTime := now },
          { UnknownCondition NodeSetDNSDataReadyCondition InitReason ⟨InitReason, []⟩ with
            LastTransitionTime := now },
          { UnknownCondition ServiceAccountReadyCondition InitReason ⟨InitReason, []⟩ with
            LastTransitionTime := now },
          { UnknownCondition NodeSetBareMetalProvisionReadyCondition InitReason
              ⟨InitReason, []⟩ with LastTransitionTime := now } ] := by
      simp [InitConditions, initialConditionList, hlen, Conditions.Init, Conditions.Set,
        Conditions.Get, UnknownCondition]
    rw [hcs]
    simp [hb, UnknownCondition, List.countP_cons]

/-- Counterexample to C10 as stated: the deployment that failed at 10 is iterated first and
the one that completed at 20, whose Ready condition is no error, is iterated last; the
error recorded for the first is still returned. -/
theorem checkDeployment_error_not_superseded :
    SortFunc insertionSortCmpFunc [deployGood, deployFailed] deploymentCmp =
      [deployFailed, deployGood] ∧
    targets "edge-a" deployFailed = true ∧ targets "edge-a" deployGood = true ∧
    IsError (Conditions.Get deployFailed.Status.Conditions ReadyCondition) = true ∧
    IsError (Conditions.Get deployGood.Status.Conditions ReadyCondition) = false ∧
    (checkDeployment insertionSortCmpFunc (.ok [deployGood, deployFailed])
        (edgeA [] emptyStatus)).err = some "check deploymentStatuses for more details" := by
  refine ⟨rfl, by decide, by decide, by decide, by decide, by decide⟩

/-- C10 as amended (the aggregation error is kept, not superseded). `checkDeployment`
returns an error for a listed set of deployments exactly when some deployment without
deletion marker that targets the node set has its overall Ready condition in error,
wherever it stands in the iteration: an error recorded by one iteration is kept by the
later ones. The quicksort branch of the library is assumed to permute its input. -/
theorem checkDeployment_err_iff_any_in_error (pdq : Pdq)
    (hpdq : ∀ l, (pdq deploymentCmp l).Perm l)
    (items : List OpenStackDataPlaneDeployment) (inst : OpenStackDataPlaneNodeSet) :
    (checkDeployment pdq (.ok items) inst).err ≠ none ↔
      ∃ d ∈ items, targets inst.Name d = true ∧
        IsError (Conditions.Get d.Status.Conditions ReadyCondition) = true := by
  have hsorted := SortFunc_perm pdq deploymentCmp hpdq items
  simp only [checkDeployment, foldl_err]
  constructor
  · intro h
    split at h
    · rename_i hany
      obtain ⟨d, hd, hp⟩ := List.any_eq_true.1 hany
      simp only [Bool.and_eq_true] at hp
      exact ⟨d, hsorted.mem_iff.1 hd, hp.1, hp.2⟩
    · exact absurd rfl h
  · rintro ⟨d, hd, ht, herr⟩
    have hany : (SortFunc pdq items deploymentCmp).any (fun d =>
        targets inst.Name d && IsError (Conditions.Get d.Status.Conditions ReadyCondition))
        = true :=
      List.any_eq_true.2 ⟨d, hsorted.mem_iff.2 hd, by simp [ht, herr]⟩
    rw [if_pos hany]
    simp

/-- Witness of C10 as amended: the list of the failed and the completed deployment. -/
theorem checkDeployment_err_iff_any_in_error_witness :
    (checkDeployment insertionSortCmpFunc (.ok [deployGood, deployFailed])
        (edgeA [] emptyStatus)).err ≠ none ↔
      ∃ d ∈ [deployGood, deployFailed], targets "edge-a" d = true ∧
        IsError (Conditions.Get d.Status.Conditions ReadyCondition) = true :=
  checkDeployment_err_iff_any_in_error insertionSortCmpFunc
    (insertionSortCmpFunc_perm deploymentCmp) [deployGood, deployFailed] (edgeA [] emptyStatus)

/-- C11 (sort placement of deployments without a DeploymentReady condition), evaluated
where the code departs from it. The list holds a deployment whose condition changed at
20, a deployment without the condition, and a deployment whose condition changed at 10.
The comparison function answers 1 whenever one side has no condition, so the sort moves
nothing: the deployment without condition stays before one that has it, and the
deployment of 20 stays before the one of 10. -/
theorem SortFunc_keeps_unsorted_around_missing_condition :
    (Conditions.Get deployGood.Status.Conditions DeploymentReadyCondition).map
        (fun x => x.LastTransitionTime) = some 20 ∧
    Conditions.Get deployOther.Status.Conditions DeploymentReadyCondition = none ∧
    (Conditions.Get deployT1.Status.Conditions DeploymentReadyCondition).map
        (fun x => x.LastTransitionTime) = some 10 ∧
    deploymentCmp deployOther deployGood = 1 ∧ deploymentCmp deployT1 deployOther = 1 ∧
    (SortFunc insertionSortCmpFunc [deployGood, deployOther, deployT1] deploymentCmp).map
        (fun d => d.Name) = ["deploy-good", "deploy-other", "deploy-t1"] := by
  refine ⟨by decide, by decide, by decide, by decide, by decide, by decide⟩

/-- C12 (watch correlation for configuration and credential objects). The field index is
the two index functions of `SetupWithManager` and the list is the filter on the namespace
and on index membership; the stored node sets have distinct namespaced names and the
changed object has a name. For a changed ConfigMap (resp. Secret) named n in the
namespace ns, `secretWatcherFn` returns exactly one request (ns, name) for every stored
node set of ns that references the config map (resp. secret) n, and no request for a
stored node set of ns that does not; every request it returns is for a stored node set
of ns. -/
theorem secretWatcherFn_correlation (store : List OpenStackDataPlaneNodeSet)
    (obj : WatchedObject)
    (hstore : (store.map fun s => (s.Namespace, s.Name)).Nodup)
    (hname : obj.Name ≠ "") :
    (obj.Kind = "ConfigMap" → ∀ s ∈ store, s.Namespace = obj.Namespace →
      (referencesConfigMap s obj.Name →
        (secretWatcherFn (indexedList store) obj).count ⟨obj.Namespace, s.Name⟩ = 1) ∧
      (¬ referencesConfigMap s obj.Name →
        (⟨obj.Namespace, s.Name⟩ : Request) ∉ secretWatcherFn (indexedList store) obj)) ∧
    (obj.Kind = "Secret" → ∀ s ∈ store, s.Namespace = obj.Namespace →
      (referencesSecret s obj.Name →
        (secretWatcherFn (indexedList store) obj).count ⟨obj.Namespace, s.Name⟩ = 1) ∧
      (¬ referencesSecret s obj.Name →
        (⟨obj.Namespace, s.Name⟩ : Request) ∉ secretWatcherFn (indexedList store) obj)) ∧
    (∀ r ∈ secretWatcherFn (indexedList store) obj,
      r.Namespace = obj.Namespace ∧
        ∃ s ∈ store, s.Namespace = obj.Namespace ∧ s.Name = r.Name) := by
  refine ⟨?_, ?_, ?_⟩
  · intro hkind s hs hns
    have hsel : (if ToLower obj.Kind = "secret" then "spec.ansibleVarsFrom.ansible.secrets"
        else "spec.ansibleVarsFrom.ansible.configMaps") =
        "spec.ansibleVarsFrom.ansible.configMaps" := by
      rw [hkind]; decide
    have hreq := requests_of_filter store obj.Namespace
      (fun x => decide (obj.Name ∈ configMapsIndex x)) hstore s hs hns
    simp only [secretWatcherFn, indexedList, hsel, indexValues, if_true]
    constructor
    · intro href
      exact hreq.1 (by simpa using (mem_configMapsIndex s obj.Name).2 href)
    · intro href
      exact hreq.2 (by simpa using fun h => href ((mem_configMapsIndex s obj.Name).1 h))
  · intro hkind s hs hns
    have hsel : (if ToLower obj.Kind = "secret" then "spec.ansibleVarsFrom.ansible.secrets"
        else "spec.ansibleVarsFrom.ansible.configMaps") =
        "spec.ansibleVarsFrom.ansible.secrets" := by
      rw [hkind]; decide
    have hne : ("spec.ansibleVarsFrom.ansible.secrets" : String) ≠
        "spec.ansibleVarsFrom.ansible.configMaps" := by decide
    have hreq := requests_of_filter store obj.Namespace
      (fun x => decide (obj.Name ∈ secretsIndex x)) hstore s hs hns
    simp only [secretWatcherFn, indexedList, hsel, indexValues, if_neg hne, if_true]
    constructor
    · intro href
      exact hreq.1 (by simpa using (mem_secretsIndex s obj.Name hname).2 href)
    · intro href
      exact hreq.2 (by simpa using fun h => href ((mem_secretsIndex s obj.Name hname).1 h))
  · intro r hr
    simp only [secretWatcherFn, indexedList, List.mem_map, List.mem_filter,
      Bool.and_eq_true, decide_eq_true_eq] at hr
    obtain ⟨x, ⟨hx, hxns, _⟩, rfl⟩ := hr
    exact ⟨rfl, x, hx, hxns, rfl⟩

/-- Witness of C12: the config map "net-config" is referenced by the node "compute-1" of
"edge-a" and not by "edge-b"; its change gives one request for "edge-a" and none for
"edge-b". -/
theorem secretWatcherFn_correlation_witness :
    (secretWatcherFn (indexedList [edgeA [] emptyStatus, edgeB])
        ⟨"ConfigMap", "net-config", "openstack"⟩).count ⟨"openstack", "edge-a"⟩ = 1 ∧
    (⟨"openstack", "edge-b"⟩ : Request) ∉
      secretWatcherFn (indexedList [edgeA [] emptyStatus, edgeB])
        ⟨"ConfigMap", "net-config", "openstack"⟩ :=
  have h := (secretWatcherFn_correlation [edgeA [] emptyStatus, edgeB]
    ⟨"ConfigMap", "net-config", "openstack"⟩ (by decide) (by decide)).1 rfl
  ⟨(h (edgeA [] emptyStatus) (List.mem_cons_self _ _) rfl).1
      (Or.inr ⟨("compute-1", ⟨⟨[⟨some "net-config", none⟩]⟩⟩), List.mem_cons_self _ _,
        ⟨some "net-config", none⟩, List.mem_cons_self _ _, rfl⟩),
   (h edgeB (List.mem_cons_of_mem _ (List.mem_cons_self _ _)) rfl).2
      (by simp [referencesConfigMap, edgeB])⟩

/-- C13 (deployment change correlation). For every deployment, `deploymentWatcherFn`
returns exactly one request for every entry of `Spec.NodeSets`, in the same order, with
the namespace of the deployment and the entry as name; and the returned list is the same
whatever the pod listing returned, a list of pods or an error. -/
theorem deploymentWatcherFn_requests (podsList : Except String (List Pod))
    (deployment : OpenStackDataPlaneDeployment) :
    (deploymentWatcherFn podsList deployment).requests =
        deployment.Spec.NodeSets.map (fun nodeSet => ⟨deployment.Namespace, nodeSet⟩) ∧
    ∀ other : Except String (List Pod),
      (deploymentWatcherFn other deployment).requests =
        (deploymentWatcherFn podsList deployment).requests := by
  have h : ∀ p : Except String (List Pod), (deploymentWatcherFn p deployment).requests =
      deployment.Spec.NodeSets.map (fun nodeSet => ⟨deployment.Namespace, nodeSet⟩) := by
    intro p
    unfold deploymentWatcherFn
    cases p <;> simp [foldl_append_singleton]
  exact ⟨h podsList, fun other => (h other).trans (h podsList).symm⟩

/-- C14 (required credential keys). Every call of the credential verification in a pass
gets the key list ["ssh-privatekey"] when `Spec.PreProvisioned` is true and the key list
["ssh-privatekey", "authorized_keys"] when it is false; the private key is in the list for
every node set. -/
theorem Reconcile_secretKeys (c : Collaborators) (inst : OpenStackDataPlaneNodeSet)
    (ns name : String) (keys : List String) (timeout : Nat)
    (hcall : Call.VerifySecret ns name keys timeout ∈ (Reconcile c (.found inst)).calls) :
    (inst.Spec.PreProvisioned = true → keys = ["ssh-privatekey"]) ∧
    (inst.Spec.PreProvisioned = false → keys = ["ssh-privatekey", "authorized_keys"]) ∧
    "ssh-privatekey" ∈ keys := by
  obtain ⟨x, pe, hx, hpe⟩ := reconcileBody_halts c (initialised c inst)
  have hb := mem_body_of_mem_pass (by simp) hcall
  rw [hpe] at hb
  obtain ⟨_, _, hk, _⟩ := hx.mem_VerifySecret hb
  have hs : secretKeys (initialised c inst) = secretKeys inst := secretKeys_congr rfl
  rw [hs] at hk
  subst hk
  unfold secretKeys AnsibleSSHPrivateKey AnsibleSSHAuthorizedKeys
  cases inst.Spec.PreProvisioned <;> simp

/-- Witness of C14: in a pass in which every stage succeeds the verification is called
with the private key alone for the pre-provisioned "edge-a", and with the private key and
the authorized keys for the node set that is not pre-provisioned. -/
theorem Reconcile_secretKeys_witness :
    (Call.VerifySecret "openstack" "dataplane-ansible-ssh-private-key-secret"
        ["ssh-privatekey"] 5 ∈
      (Reconcile (allSucceed 9 []) (.found (edgeA [] emptyStatus))).calls) ∧
    (Call.VerifySecret "openstack" "dataplane-ansible-ssh-private-key-secret"
        ["ssh-privatekey", "authorized_keys"] 5 ∈
      (Reconcile (allSucceed 9 []) (.found edgeMetal)).calls) ∧
    (((edgeA [] emptyStatus).Spec.PreProvisioned = true →
        ["ssh-privatekey"] = ["ssh-privatekey"]) ∧
      ((edgeA [] emptyStatus).Spec.PreProvisioned = false →
        ["ssh-privatekey"] = ["ssh-privatekey", "authorized_keys"]) ∧
      "ssh-privatekey" ∈ ["ssh-privatekey"]) ∧
    ((edgeMetal.Spec.PreProvisioned = true →
        ["ssh-privatekey", "authorized_keys"] = ["ssh-privatekey"]) ∧
      (edgeMetal.Spec.PreProvisioned = false →
        ["ssh-privatekey", "authorized_keys"] = ["ssh-privatekey", "authorized_keys"]) ∧
      "ssh-privatekey" ∈ ["ssh-privatekey", "authorized_keys"]) :=
  ⟨by decide, by decide,
    Reconcile_secretKeys (allSucceed 9 []) (edgeA [] emptyStatus) "openstack"
      "dataplane-ansible-ssh-private-key-secret" ["ssh-privatekey"] 5 (by decide),
    Reconcile_secretKeys (allSucceed 9 []) edgeMetal "openstack"
      "dataplane-ansible-ssh-private-key-secret" ["ssh-privatekey", "authorized_keys"] 5
      (by decide)⟩

/-- C15 (credential verification outcome). When the verifier was called in a pass and
reported a failure, the pass ends at that stage: after the verification only the status
patch is called (no service account, role binding, bare-metal, inventory or aggregation
call), the result of the pass is the verifier's result, the error is returned unless the
patch fails, and InputReady is False in the patched status, with severity Info when the
verifier's result is a requeue and severity Error when it is empty. And InputReady is True
in the patched status only if the verifier was called and reported no error. -/
theorem Reconcile_verify_outcome (c : Collaborators) (inst : OpenStackDataPlaneNodeSet) :
    (∀ err, c.VerifySecretErr = some err →
      (∃ ns name keys t,
        Call.VerifySecret ns name keys t ∈ (Reconcile c (.found inst)).calls) →
      (Reconcile c (.found inst)).calls =
        [Call.EnsureServices, Call.EnsureIPSets, Call.EnsureDNSData,
         Call.VerifySecret inst.Namespace inst.Spec.NodeTemplate.AnsibleSSHPrivateKeySecret
           (secretKeys inst) 5,
         Call.PatchInstance] ∧
      (Reconcile c (.found inst)).result = c.VerifySecretResult ∧
      (c.PatchInstance = none → (Reconcile c (.found inst)).err = some err) ∧
      ∃ p y, (Reconcile c (.found inst)).patched = some p ∧
        Conditions.Get p.Status.Conditions InputReadyCondition = some y ∧
        y.Status = ConditionFalse ∧
        (c.VerifySecretResult ≠ Result.none → y.Severity = SeverityInfo) ∧
        (c.VerifySecretResult = Result.none → y.Severity = SeverityError)) ∧
    (∀ p, (Reconcile c (.found inst)).patched = some p →
      Conditions.IsTrue p.Status.Conditions InputReadyCondition = true →
      c.VerifySecretErr = none ∧
        ∃ ns name keys t,
          Call.VerifySecret ns name keys t ∈ (Reconcile c (.found inst)).calls) := by
  obtain ⟨x, pe, hx, hpe⟩ := reconcileBody_halts c (initialised c inst)
  obtain ⟨hres, hcalls, herrs, hpatched⟩ := Reconcile_found c inst
  rw [hpe] at hres hcalls herrs hpatched
  constructor
  · intro err herr hcall
    obtain ⟨ns, name, keys, t, hcall⟩ := hcall
    have hb := mem_body_of_mem_pass (by simp) hcall
    rw [hpe] at hb
    obtain ⟨h1, h2, h3, y, hy, hst, hsev⟩ := hx.verify_failure herr ⟨ns, name, keys, t, hb⟩
    refine ⟨?_, ?_, ?_, _, restoreOne inst.Status.Conditions y, hpatched, ?_, ?_, ?_, ?_⟩
    · rw [hcalls, h1]
      have hs : secretKeys (initialised c inst) = secretKeys inst := secretKeys_congr rfl
      simp only [callsToSecret, hs]
      rfl
    · rw [hres, h2]
    · intro hp
      rw [herrs hp, h3]
    · show Conditions.Get (deferredRollup _ _ _) _ = _
      rw [Get_deferredRollup_of_ne (by decide), hy]
      rfl
    · rw [restoreOne_Status, hst]
    · intro hr
      rw [(restoreOne_state _ _).1, hsev, if_pos hr]
    · intro hr
      rw [(restoreOne_state _ _).1, hsev, if_neg (not_not.mpr hr)]
  · intro p hp htrue
    rw [hpatched] at hp
    cases hp
    obtain ⟨y0, hy0, hu⟩ := Get_InputReady_InitConditions c.now inst
    have htrue1 : Conditions.IsTrue pe.inst.Status.Conditions InputReadyCondition = true := by
      rw [← IsTrue_deferredRollup (by decide) c.now inst.Status.Conditions]
      exact htrue
    obtain ⟨hv, hpre⟩ := hx.inputReady_true hy0 hu htrue1
    refine ⟨hv, inst.Namespace, inst.Spec.NodeTemplate.AnsibleSSHPrivateKeySecret,
      secretKeys inst, 5, ?_⟩
    rw [hcalls]
    refine List.mem_append_left _ (hpre.subset ?_)
    have hs : secretKeys (initialised c inst) = secretKeys inst := secretKeys_congr rfl
    simp only [callsToSecret, hs]
    simp
    exact ⟨rfl, rfl⟩

/-- Witness of C15: for "edge-a" the verifier is called; when it does not find the secret
(requeue after five seconds) the pass returns that requeue and InputReady is False with
severity Info, and when it fails with an empty result InputReady is False with severity
Error. In both passes the verification is the last call before the patch. -/
theorem Reconcile_verify_outcome_witness :
    secretMissing.VerifySecretErr = some "secret not found" ∧
    secretUnreadable.VerifySecretErr = some "secret unreadable" ∧
    Call.VerifySecret "openstack" "dataplane-ansible-ssh-private-key-secret"
        ["ssh-privatekey"] 5 ∈
      (Reconcile secretMissing (.found (edgeA [] emptyStatus))).calls ∧
    (Reconcile secretMissing (.found (edgeA [] emptyStatus))).result = ⟨false, 5⟩ ∧
    (Reconcile secretUnreadable (.found (edgeA [] emptyStatus))).result = Result.none ∧
    (Reconcile secretMissing (.found (edgeA [] emptyStatus))).calls =
      [Call.EnsureServices, Call.EnsureIPSets, Call.EnsureDNSData,
       Call.VerifySecret "openstack" "dataplane-ansible-ssh-private-key-secret"
         ["ssh-privatekey"] 5,
       Call.PatchInstance] ∧
    ((Reconcile secretMissing (.found (edgeA [] emptyStatus))).patched.bind fun p =>
      (Conditions.Get p.Status.Conditions InputReadyCondition).map fun y =>
        (y.Status, y.Severity)) = some (ConditionFalse, SeverityInfo) ∧
    ((Reconcile secretUnreadable (.found (edgeA [] emptyStatus))).patched.bind fun p =>
      (Conditions.Get p.Status.Conditions InputReadyCondition).map fun y =>
        (y.Status, y.Severity)) = some (ConditionFalse, SeverityError) :=
  ⟨rfl, rfl, by decide,
    ((Reconcile_verify_outcome secretMissing (edgeA [] emptyStatus)).1 "secret not found" rfl
      ⟨"openstack", "dataplane-ansible-ssh-private-key-secret", ["ssh-privatekey"], 5,
        by decide⟩).2.1,
    ((Reconcile_verify_outcome secretUnreadable (edgeA [] emptyStatus)).1 "secret unreadable"
      rfl ⟨"openstack", "dataplane-ansible-ssh-private-key-secret", ["ssh-privatekey"], 5,
        by decide⟩).2.1,
    ((Reconcile_verify_outcome secretMissing (edgeA [] emptyStatus)).1 "secret not found" rfl
      ⟨"openstack", "dataplane-ansible-ssh-private-key-secret", ["ssh-privatekey"], 5,
        by decide⟩).1,
    by decide, by decide⟩

/-- C16 (status recomputation), a pair of passes that refutes it. The two stored statuses
of "edge-a" have the same conditions, `ConfigHash` and `DeployedConfigHash` and differ only
in `ConfigMapHashes`, `SecretHashes`, `DNSClusterAddresses` and `CtlplaneSearchDomain`. A
pass that halts at the service validation writes the stored values of all four fields
back, so the two passes write different values. A pass in which every stage succeeds
replaces the DNS results but still writes the stored entries of the two hash maps. -/
theorem Reconcile_status_not_recomputed :
    staleStatus.Conditions = emptyStatus.Conditions ∧
    staleStatus.ConfigHash = emptyStatus.ConfigHash ∧
    staleStatus.DeployedConfigHash = emptyStatus.DeployedConfigHash ∧
    ((Reconcile servicesInvalid (.found (edgeA [] emptyStatus))).patched.map fun p =>
        (p.Status.DNSClusterAddresses, p.Status.CtlplaneSearchDomain,
          p.Status.ConfigMapHashes.get "old-config", p.Status.SecretHashes.get "old-secret")) =
      some ([], "", none, none) ∧
    ((Reconcile servicesInvalid (.found (edgeA [] staleStatus))).patched.map fun p =>
        (p.Status.DNSClusterAddresses, p.Status.CtlplaneSearchDomain,
          p.Status.ConfigMapHashes.get "old-config", p.Status.SecretHashes.get "old-secret")) =
      some (["192.168.122.80"], "ctlplane.example.com", some "hash-old", some "hash-old") ∧
    ((Reconcile (allSucceed 9 [deployGood]) (.found (edgeA [] emptyStatus))).patched.map
        fun p =>
        (p.Status.DNSClusterAddresses, p.Status.CtlplaneSearchDomain,
          p.Status.ConfigMapHashes.get "old-config", p.Status.SecretHashes.get "old-secret")) =
      some ([], "", none, none) ∧
    ((Reconcile (allSucceed 9 [deployGood]) (.found (edgeA [] staleStatus))).patched.map
        fun p =>
        (p.Status.DNSClusterAddresses, p.Status.CtlplaneSearchDomain,
          p.Status.ConfigMapHashes.get "old-config", p.Status.SecretHashes.get "old-secret")) =
      some ([], "", some "hash-old", some "hash-old") := by
  refine ⟨rfl, rfl, rfl, by decide, by decide, by decide, by decide⟩

/-- C16 as amended. The pass does not read what the stored status holds in `Deployed`,
`DeploymentStatuses` and `ObservedGeneration`: with the same collaborator results, a pass
from a node set that differs from another only in these three fields returns the same
result and error, makes the same calls and patches the same status, wherever it halts.
The four DNS fields of the patched status are the results of the DNS stage, whatever was
stored, when the pass called the credential verification, and are the stored values when
it halted before. -/
theorem Reconcile_status_dependence (c : Collaborators) (inst : OpenStackDataPlaneNodeSet)
    (deployed : Bool) (statuses : GoMap Conditions) (generation : Int) :
    Reconcile c
        (.found (withStatus inst
          { inst.Status with
            Deployed := deployed, DeploymentStatuses := statuses,
            ObservedGeneration := generation })) =
      Reconcile c (.found inst) ∧
    ((∃ ns name keys t,
        Call.VerifySecret ns name keys t ∈ (Reconcile c (.found inst)).calls) →
      ((Reconcile c (.found inst)).patched.map fun p =>
          (p.Status.DNSClusterAddresses, p.Status.CtlplaneSearchDomain,
            p.Status.AllHostnames, p.Status.AllIPs)) =
        some (c.EnsureDNSData.ClusterAddresses, c.EnsureDNSData.CtlplaneSearchDomain,
          c.EnsureDNSData.Hostnames, c.EnsureDNSData.AllIPs)) ∧
    ((¬ ∃ ns name keys t,
        Call.VerifySecret ns name keys t ∈ (Reconcile c (.found inst)).calls) →
      ((Reconcile c (.found inst)).patched.map fun p =>
          (p.Status.DNSClusterAddresses, p.Status.CtlplaneSearchDomain,
            p.Status.AllHostnames, p.Status.AllIPs)) =
        some (inst.Status.DNSClusterAddresses, inst.Status.CtlplaneSearchDomain,
          inst.Status.AllHostnames, inst.Status.AllIPs)) := by
  obtain ⟨x, pe, hx, hpe⟩ := reconcileBody_halts c (initialised c inst)
  obtain ⟨hres, hcalls, herrs, hpatched⟩ := Reconcile_found c inst
  rw [hpe] at hres hcalls herrs hpatched
  refine ⟨?_, ?_, ?_⟩
  · simp only [Reconcile, InitConditions, withStatus, initialConditionList]
  · rintro ⟨ns, name, keys, t, hcall⟩
    have hb := mem_body_of_mem_pass (by simp) hcall
    rw [hpe] at hb
    obtain ⟨h1, h2, h3, h4⟩ := hx.dns_stored ⟨ns, name, keys, t, hb⟩
    rw [hpatched]
    simp only [Option.map_some', withConditions, h1, h2, h3, h4]
  · intro hcall
    have hb : ¬ ∃ ns name keys t, Call.VerifySecret ns name keys t ∈ pe.calls := by
      rintro ⟨ns, name, keys, t, hm⟩
      exact hcall ⟨ns, name, keys, t, by rw [hcalls]; exact List.mem_append_left _ hm⟩
    obtain ⟨h1, h2, h3, h4⟩ := hx.dns_kept hb
    rw [hpatched]
    simp only [Option.map_some', withConditions, h1, h2, h3, h4]
    rfl

/-- Witness of the amended C16: the pass over the stored status of "edge-a" with
`Deployed = true` makes the calls of the pass over the status with `Deployed = false`; a
pass that reaches the credential verification replaces the stored DNS server address and
search domain by the results of the DNS stage; a pass that halts at the service
validation writes the stored ones. -/
theorem Reconcile_status_dependence_witness :
    (Reconcile (allSucceed 9 [deployGood]) (.found storedDeployed)).calls =
      (Reconcile (allSucceed 9 [deployGood]) (.found afterFirstPass)).calls ∧
    ((Reconcile secretMissing (.found (edgeA [] staleStatus))).patched.map fun p =>
        (p.Status.DNSClusterAddresses, p.Status.CtlplaneSearchDomain)) = some ([], "") ∧
    ((Reconcile servicesInvalid (.found (edgeA [] staleStatus))).patched.map fun p =>
        (p.Status.DNSClusterAddresses, p.Status.CtlplaneSearchDomain)) =
      some (["192.168.122.80"], "ctlplane.example.com") :=
  ⟨congrArg Pass.calls
      (Reconcile_status_dependence (allSucceed 9 [deployGood]) afterFirstPass true
        afterFirstPass.Status.DeploymentStatuses afterFirstPass.Status.ObservedGeneration).1,
    by
      have h := (Reconcile_status_dependence secretMissing (edgeA [] staleStatus) false
        GoMap.empty 0).2.1
        ⟨"openstack", "dataplane-ansible-ssh-private-key-secret", ["ssh-privatekey"], 5,
          by decide⟩
      have h2 := congrArg (Option.map fun q : List String × String ×
        GoMap (GoMap String) × GoMap (GoMap String) => (q.1, q.2.1)) h
      simpa only [Option.map_map] using h2,
    by
      have h := (Reconcile_status_dependence servicesInvalid (edgeA [] staleStatus) false
        GoMap.empty 0).2.2 (by
          rintro ⟨ns, name, keys, t, hm⟩
          have hc : (Reconcile servicesInvalid (.found (edgeA [] staleStatus))).calls =
              [Call.EnsureServices, Call.PatchInstance] := by decide
          rw [hc] at hm
          simp at hm)
      have h2 := congrArg (Option.map fun q : List String × String ×
        GoMap (GoMap String) × GoMap (GoMap String) => (q.1, q.2.1)) h
      simpa only [Option.map_map] using h2⟩

/-- C17 (ConfigHash holds the current hash), evaluated where the code departs from it.
The drift detection assigns `ConfigHash` only when the computed hash differs from
`DeployedConfigHash`. For "edge-a" a first pass with the tags ["a"] stores the hash "a",
and the completed deployment records "a" as deployed. After the tags are changed to ["b"]
a pass stores the hash "b". After the tags are changed back to ["a"] the hash of the spec
is "a" again, it equals `DeployedConfigHash`, the assignment is skipped and the pass
leaves `ConfigHash = "b"`, which is not the hash of the current spec. -/
theorem Reconcile_ConfigHash_stale :
    (driftFirst.Status.ConfigHash, driftFirst.Status.DeployedConfigHash) = ("a", "a") ∧
    (driftSecond.Status.ConfigHash, driftSecond.Status.DeployedConfigHash) = ("b", "a") ∧
    (GetSpecConfigHash tagsHash (edgeA ["a"] driftSecond.Status)).toOption = some "a" ∧
    (hashed (allSucceed 7 [deployA])
        (initialised (allSucceed 7 [deployA]) (edgeA ["a"] driftSecond.Status))
        "a").Status.ConfigHash = "b" ∧
    (Reconcile (allSucceed 7 [deployA]) (.found (edgeA ["a"] driftSecond.Status))).err = none ∧
    ((Reconcile (allSucceed 7 [deployA])
        (.found (edgeA ["a"] driftSecond.Status))).patched.map
      fun p => (p.Status.ConfigHash, p.Status.DeployedConfigHash)) = some ("b", "a") := by
  refine ⟨by decide, by decide, by decide, by decide, by decide, by decide⟩

/-- C18 (hard-fatal stages). In a pass in which the service validation is called and
fails, or the inventory generation is called and fails, or `checkDeployment` is called
and returns an error, the pass returns that error unless the final patch fails, and in
the patched status the condition of the stage, SetupReady for the services and the
inventory and DeploymentReady for the aggregation, is False with severity Error and
reason Error. -/
theorem Reconcile_hard_fatal (c : Collaborators) (inst : OpenStackDataPlaneNodeSet) :
    (∀ err, c.EnsureServices = some err →
      Call.EnsureServices ∈ (Reconcile c (.found inst)).calls →
      (c.PatchInstance = none → (Reconcile c (.found inst)).err = some err) ∧
      ∃ p y, (Reconcile c (.found inst)).patched = some p ∧
        Conditions.Get p.Status.Conditions SetupReadyCondition = some y ∧
        y.Status = ConditionFalse ∧ y.Severity = SeverityError ∧ y.Reason = ErrorReason) ∧
    (∀ err, c.GenerateNodeSetInventory = some err →
      Call.GenerateNodeSetInventory ∈ (Reconcile c (.found inst)).calls →
      (c.PatchInstance = none → (Reconcile c (.found inst)).err = some err) ∧
      ∃ p y, (Reconcile c (.found inst)).patched = some p ∧
        Conditions.Get p.Status.Conditions SetupReadyCondition = some y ∧
        y.Status = ConditionFalse ∧ y.Severity = SeverityError ∧ y.Reason = ErrorReason) ∧
    (∀ err, (checkDeployment c.pdq c.ListDeployments inst).err = some err →
      Call.checkDeployment ∈ (Reconcile c (.found inst)).calls →
      (c.PatchInstance = none → (Reconcile c (.found inst)).err = some err) ∧
      ∃ p y, (Reconcile c (.found inst)).patched = some p ∧
        Conditions.Get p.Status.Conditions DeploymentReadyCondition = some y ∧
        y.Status = ConditionFalse ∧ y.Severity = SeverityError ∧ y.Reason = ErrorReason) := by
  obtain ⟨x, pe, hx, hpe⟩ := reconcileBody_halts c (initialised c inst)
  obtain ⟨hres, hcalls, herrs, hpatched⟩ := Reconcile_found c inst
  rw [hpe] at hres hcalls herrs hpatched
  have key : ∀ (t : ConditionType) (err : String), t ≠ ReadyCondition →
      (pe.err = some err ∧
        ∃ y, Conditions.Get pe.inst.Status.Conditions t = some y ∧
          y.Status = ConditionFalse ∧ y.Severity = SeverityError ∧ y.Reason = ErrorReason) →
      (c.PatchInstance = none → (Reconcile c (.found inst)).err = some err) ∧
      ∃ p y, (Reconcile c (.found inst)).patched = some p ∧
        Conditions.Get p.Status.Conditions t = some y ∧
        y.Status = ConditionFalse ∧ y.Severity = SeverityError ∧ y.Reason = ErrorReason := by
    rintro t err ht ⟨he, y, hy, h1, h2, h3⟩
    refine ⟨fun hp => by rw [herrs hp, he], _, restoreOne inst.Status.Conditions y, hpatched,
      ?_, ?_, ?_, ?_⟩
    · show Conditions.Get (deferredRollup _ _ _) _ = _
      rw [Get_deferredRollup_of_ne ht, hy]
      rfl
    · rw [restoreOne_Status, h1]
    · rw [(restoreOne_state _ _).1, h2]
    · rw [(restoreOne_state _ _).2.1, h3]
  refine ⟨?_, ?_, ?_⟩
  · intro err herr hcall
    have hb := mem_body_of_mem_pass (by simp) hcall
    rw [hpe] at hb
    exact key _ err (by decide) (hx.services_failure herr hb)
  · intro err herr hcall
    have hb := mem_body_of_mem_pass (by simp) hcall
    rw [hpe] at hb
    exact key _ err (by decide) (hx.inventory_failure herr hb)
  · intro err herr hcall
    have hb := mem_body_of_mem_pass (by simp) hcall
    rw [hpe] at hb
    have herr1 : (checkDeployment c.pdq c.ListDeployments (initialised c inst)).err =
        some err := by
      rw [← herr]
      have hn : (initialised c inst).Name = inst.Name := rfl
      exact (checkDeployment_flags_congr c.pdq c.ListDeployments hn).2.2
    exact key _ err (by decide) (hx.aggregation_failure herr1 hb)

/-- Witness of C18: for "edge-a", a pass whose service validation fails, a pass whose
inventory generation fails and a pass that lists a deployment in error each return the
error of the stage. -/
theorem Reconcile_hard_fatal_witness :
    (Reconcile servicesInvalid (.found (edgeA [] emptyStatus))).err =
      some "service not found" ∧
    (Reconcile inventoryBroken (.found (edgeA [] emptyStatus))).err =
      some "inventory failed" ∧
    (Reconcile (allSucceed 9 [deployFailed]) (.found (edgeA [] emptyStatus))).err =
      some "check deploymentStatuses for more details" ∧
    ((Reconcile (allSucceed 9 [deployFailed]) (.found (edgeA [] emptyStatus))).patched.bind
      fun p => (Conditions.Get p.Status.Conditions DeploymentReadyCondition).map fun y =>
        (y.Status, y.Severity, y.Reason)) =
      some (ConditionFalse, SeverityError, "Error") :=
  ⟨((Reconcile_hard_fatal servicesInvalid (edgeA [] emptyStatus)).1 "service not found" rfl
      (by decide)).1 rfl,
    ((Reconcile_hard_fatal inventoryBroken (edgeA [] emptyStatus)).2.1 "inventory failed" rfl
      (by decide)).1 rfl,
    ((Reconcile_hard_fatal (allSucceed 9 [deployFailed]) (edgeA [] emptyStatus)).2.2
      "check deploymentStatuses for more details" (by decide) (by decide)).1 rfl,
    by decide⟩

/-- C19 (idempotence of the aggregation). For every node set and every outcome of the
listing, running `checkDeployment` again on the status written by a first run with the same
listing returns the same three values (exists, ready, error) and writes the same status:
`ConfigMapHashes`, `SecretHashes`, `DeployedConfigHash`, `DeploymentStatuses` and every
other field are those of the first run. -/
theorem checkDeployment_idempotent (pdq : Pdq)
    (listed : Except String (List OpenStackDataPlaneDeployment))
    (inst : OpenStackDataPlaneNodeSet) :
    (checkDeployment pdq listed
        (withStatus inst (checkDeployment pdq listed inst).Status)).deploymentExists =
      (checkDeployment pdq listed inst).deploymentExists ∧
    (checkDeployment pdq listed
        (withStatus inst (checkDeployment pdq listed inst).Status)).isDeploymentReady =
      (checkDeployment pdq listed inst).isDeploymentReady ∧
    (checkDeployment pdq listed
        (withStatus inst (checkDeployment pdq listed inst).Status)).err =
      (checkDeployment pdq listed inst).err ∧
    (checkDeployment pdq listed
        (withStatus inst (checkDeployment pdq listed inst).Status)).Status =
      (checkDeployment pdq listed inst).Status := by
  cases listed with
  | error e => exact ⟨rfl, rfl, rfl, rfl⟩
  | ok items =>
    obtain ⟨G, S, H, o, hshape⟩ := foldl_shape inst.Name (SortFunc pdq items deploymentCmp)
    obtain ⟨f1, f2, f3⟩ := foldl_flags_congr inst.Name (SortFunc pdq items deploymentCmp)
      { deploymentExists := false, isDeploymentReady := false, err := none,
        Status := (checkDeployment pdq (.ok items) inst).Status }
      { deploymentExists := false, isDeploymentReady := false, err := none,
        Status := inst.Status } rfl rfl rfl
    refine ⟨f1, f2, f3, ?_⟩
    simp only [checkDeployment, withStatus]
    rw [hshape, hshape]
    cases o <;> simp [GoMap.mergeFrom_mergeFrom_self]

/-- C20 (the Deployed flag after a pass). `InitConditions` sets `Status.Deployed` to
false, `checkDeployment` and every update of the body of `Reconcile` leave the flag as it
is, so every pass that found its node set patches a status with `Deployed = false`, the
guard "already deployed" is false on every node set the body can hold, and no pass ends
at the exit of that guard. This includes the pass over "edge-a" in which the listed
deployment has completed and DeploymentReady is marked True. -/
theorem Reconcile_Deployed_false (c : Collaborators) (inst : OpenStackDataPlaneNodeSet) :
    (InitConditions c.now inst).Status.Deployed = false ∧
    (∀ (listed : Except String (List OpenStackDataPlaneDeployment))
        (held : OpenStackDataPlaneNodeSet),
        (checkDeployment c.pdq listed held).Status.Deployed = held.Status.Deployed) ∧
    (∀ held, BodyUpdate c (initialised c inst) held →
        (held.Status.Deployed && Time.IsZero held.DeletionTimestamp) = false) ∧
    (∀ x pe, Halt c (initialised c inst) x pe → x ≠ Exit.alreadyDeployed) ∧
    (Reconcile c (.found inst)).patched.map (fun p => p.Status.Deployed) = some false ∧
    (Reconcile (allSucceed 9 [deployGood]) (.found (edgeA [] emptyStatus))).patched.map
        (fun p => (Conditions.IsTrue p.Status.Conditions DeploymentReadyCondition,
          p.Status.Deployed)) = some (true, false) := by
  refine ⟨rfl, fun listed held => (checkDeployment_frame _ _ _).1, ?_, ?_, ?_, by decide⟩
  · intro held hb
    rw [hb.Deployed]
    rfl
  · intro x pe hx hxe
    cases hx with
    | alreadyDeployed h hp hg => simp [initialised, withStatus, InitConditions] at hg
    | _ => cases hxe
  · rw [(Reconcile_found c inst).2.2.2]
    have hb := (BodyUpdate_reconcileBody c (initialised c inst)).Deployed
    simp only [Option.map_some', withConditions]
    rw [hb]
    rfl

end Dataplane
